import Mathlib

/-!
# Flux window manager: interaction and layout core

A shallow embedding of the geometry, hit-testing, taskbar packing and pointer
grab code of Flux (`src/wm/view.c`, `src/wm/taskbar.c`, `src/wm/xdg.c`,
`src/compositor/cursor.c`) together with theorems about it.

Conventions of the embedding

* C `int` is `Int` (signed overflow is undefined behaviour in C and is not
  modelled); `uint32_t` bit masks and timestamps are `Nat`, and the one
  `uint32_t` subtraction (elapsed animation time) is taken modulo 2^32.
* C `double` and `float` values (pointer coordinates, animation progress,
  scale and opacity) are rationals (`ℚ`) and their arithmetic is exact, with
  one exception: the two `double` subtractions of the move path
  (`cursor - origin` at the start of a move, `cursor - grab offset` at a
  motion), whose result is truncated to `int`, are rounded to binary64 by
  `double_sub`. `lround` and the `(int)` cast are the functions `lround` and
  `trunc_int` below.
* A `struct flux_view *` is the `id` of the view (its address); the intrusive
  list `server->views` is a `List flux_view`, head = topmost.
* A C string is a `List Char` (one `Char` per byte, no terminator); a pointer
  that may be `NULL` is an `Option`.
* Calls into the scene graph only paint; they are left out unless a later
  read depends on them. Calls into the seat are recorded in `call_log`.
  The numbers that one animation frame hands to the scene graph are the
  record `window_transform`.
* `wlr_xdg_surface_surface_at` and `wlr_seat_validate_pointer_grab_serial`
  are parameters (`surface_at`, `validate_serial`) of the functions that call
  them.
* The glyphs that `draw_button_label` paints are the list of `glyph_draw` it
  returns. The decoration mode that `apply_decoration_mode_to_view` sends to
  the decoration object is left out.
-/

namespace Flux

/-! ## Constants -/

/-- The macro `BORDER_PX` of `flux.h`. -/
def BORDER_PX : Int := 2
/-- The macro `TITLEBAR_PX` of `flux.h`. -/
def TITLEBAR_PX : Int := 28
/-- The macro `BTN_W` of `flux.h`. -/
def BTN_W : Int := 18
/-- The macro `BTN_H` of `flux.h`. -/
def BTN_H : Int := 14
/-- The macro `BTN_PAD` of `flux.h`. -/
def BTN_PAD : Int := 6

/-- The value `WLR_EDGE_NONE` of the wlroots enumeration `wlr_edges`. -/
def WLR_EDGE_NONE : Nat := 0
/-- The value `WLR_EDGE_TOP` of the wlroots enumeration `wlr_edges`. -/
def WLR_EDGE_TOP : Nat := 1
/-- The value `WLR_EDGE_BOTTOM` of the wlroots enumeration `wlr_edges`. -/
def WLR_EDGE_BOTTOM : Nat := 2
/-- The value `WLR_EDGE_LEFT` of the wlroots enumeration `wlr_edges`. -/
def WLR_EDGE_LEFT : Nat := 4
/-- The value `WLR_EDGE_RIGHT` of the wlroots enumeration `wlr_edges`. -/
def WLR_EDGE_RIGHT : Nat := 8

/-- The Linux input event code `BTN_LEFT` (0x110). -/
def BTN_LEFT : Nat := 272

/-! ## Data model -/

/-- A C string: its bytes, without the terminating NUL. -/
abbrev CString := List Char

/-- The wlroots rectangle `struct wlr_box`. -/
structure wlr_box where
  x : Int
  y : Int
  width : Int
  height : Int
deriving DecidableEq, Repr

/-- The two strings of `struct wlr_xdg_toplevel` that the code reads. -/
structure xdg_toplevel where
  title : Option CString
  app_id : Option CString
deriving DecidableEq, Repr

/-- The state of `struct flux_view` (`flux.h`), without scene nodes and
listeners. `id` is the address of the struct, `toplevel` is
`xdg_surface->toplevel`, `surface` the root `wlr_surface`, `surface_width` and
`surface_height` its current size, `reported_geo` what
`wlr_xdg_surface_get_geometry` returns, `visible` whether the frame scene node
is enabled. -/
structure flux_view where
  id : Nat
  toplevel : Option xdg_toplevel
  surface : Nat
  surface_width : Int
  surface_height : Int
  reported_geo : wlr_box
  visible : Bool
  mapped : Bool
  minimized : Bool
  minimizing_animation : Bool
  minimize_animation_start_msec : Nat
  restoring_animation : Bool
  restore_animation_start_msec : Nat
  anim_from_cx : ℚ
  anim_from_cy : ℚ
  anim_to_cx : ℚ
  anim_to_cy : ℚ
  anim_from_scale : ℚ
  anim_to_scale : ℚ
  anim_from_alpha : ℚ
  anim_to_alpha : ℚ
  x : Int
  y : Int
  width : Int
  height : Int
  xdg_geo_x : Int
  xdg_geo_y : Int
  xdg_geo_width : Int
  xdg_geo_height : Int
  content_x : Int
  content_y : Int
  use_server_decorations : Bool
  taskbar_x : Int
  taskbar_y : Int
  taskbar_width : Int
  taskbar_height : Int
  taskbar_visible : Bool

/-- The enumeration `flux_cursor_mode`. -/
inductive flux_cursor_mode where
  | CURSOR_PASSTHROUGH
  | CURSOR_MOVE
  | CURSOR_RESIZE
deriving DecidableEq, Repr

export flux_cursor_mode (CURSOR_PASSTHROUGH CURSOR_MOVE CURSOR_RESIZE)

/-- A zero-filled view as `calloc` returns it, with address `id`, root surface
`surface` and toplevel strings `tl`. -/
def calloc_view (id surface : Nat) (tl : Option xdg_toplevel) : flux_view :=
  { id := id, toplevel := tl, surface := surface,
    surface_width := 0, surface_height := 0,
    reported_geo := ⟨0, 0, 0, 0⟩, visible := false,
    mapped := false, minimized := false,
    minimizing_animation := false, minimize_animation_start_msec := 0,
    restoring_animation := false, restore_animation_start_msec := 0,
    anim_from_cx := 0, anim_from_cy := 0, anim_to_cx := 0, anim_to_cy := 0,
    anim_from_scale := 0, anim_to_scale := 0,
    anim_from_alpha := 0, anim_to_alpha := 0,
    x := 0, y := 0, width := 0, height := 0,
    xdg_geo_x := 0, xdg_geo_y := 0, xdg_geo_width := 0, xdg_geo_height := 0,
    content_x := 0, content_y := 0, use_server_decorations := false,
    taskbar_x := 0, taskbar_y := 0, taskbar_width := 0, taskbar_height := 0,
    taskbar_visible := false }

/-! ## C library helpers -/

/-- Whether the C string `s` starts with the bytes of `needle`. -/
def cstr_starts_with : CString → CString → Bool
  | _, [] => true
  | [], _ :: _ => false
  | c :: s, n :: needle => c == n && cstr_starts_with s needle

/-- The test `strstr(hay, needle) != NULL`. -/
def strstr_found : CString → CString → Bool
  | [], needle => needle.isEmpty
  | c :: hay, needle => cstr_starts_with (c :: hay) needle || strstr_found hay needle

/-- The C function `lround` on an exact value: nearest integer, halfway cases
away from zero. -/
def lround (q : ℚ) : Int :=
  if 0 ≤ q then Rat.floor (q + 1 / 2) else -Rat.floor (-q + 1 / 2)

/-- The C conversion `(int)d` of a double: truncation toward zero. -/
def trunc_int (q : ℚ) : Int :=
  if 0 ≤ q then Rat.floor q else -Rat.floor (-q)

/-- The nearest integer to a rational, halfway cases to the even integer. -/
def round_half_even (q : ℚ) : Int :=
  let f := Rat.floor q
  let r := q - (f : ℚ)
  if r < 1 / 2 then f
  else if r > 1 / 2 then f + 1
  else if f % 2 = 0 then f else f + 1

/-- The loop of `floor_log2`; `fuel` bounds the number of halvings. -/
def floor_log2_loop : Nat → Nat → Nat
  | 0, _ => 0
  | fuel + 1, n => if n < 2 then 0 else floor_log2_loop fuel (n / 2) + 1

/-- The position of the leading bit of `n`: the largest `k` with `2 ^ k ≤ n`,
and 0 for `n = 0`. -/
def floor_log2 (n : Nat) : Nat := floor_log2_loop n n

/-- The value `a / 2 ^ e` for an integer exponent `e`. -/
def scale_pow2 (a : ℚ) (e : Int) : ℚ :=
  if 0 ≤ e then a / ((2 ^ e.toNat : Nat) : ℚ) else a * ((2 ^ (-e).toNat : Nat) : ℚ)

/-- The binary64 value nearest to `q`, halfway cases to the even significand:
the rounding that a C `double` operation applies to its exact result. The
significand has 53 bits; the exponent range (overflow, subnormal values) is
not modelled. -/
def round_to_double (q : ℚ) : ℚ :=
  if q = 0 then 0
  else
    let a : ℚ := if q < 0 then -q else q
    let e0 : Int := (floor_log2 a.num.natAbs : Int) - (floor_log2 a.den : Int) - 52
    let e : Int := if scale_pow2 a e0 < ((2 ^ 52 : Nat) : ℚ) then e0 - 1 else e0
    let m : Int := round_half_even (scale_pow2 a e)
    let r : ℚ := scale_pow2 (m : ℚ) (-e)
    if q < 0 then -r else r

/-- The C expression `a - b` on two `double` values. -/
def double_sub (a b : ℚ) : ℚ := round_to_double (a - b)

/-! ## Hit margins (`src/wm/view.c`) -/

/-- The function `view_border_px`. -/
def view_border_px (view : flux_view) : Int :=
  if view.use_server_decorations then BORDER_PX else 0

/-- The function `view_titlebar_px`. -/
def view_titlebar_px (view : flux_view) : Int :=
  if view.use_server_decorations then TITLEBAR_PX else 0

/-- The function `view_app_id_contains` for a non-null view and needle. -/
def view_app_id_contains (view : flux_view) (needle : CString) : Bool :=
  match view.toplevel with
  | none => false
  | some tl =>
    match tl.app_id with
    | none => false
    | some app_id => strstr_found app_id needle

/-- The function `clamp_hit_margin` for a non-null view. C integer division
truncates toward zero, which is `Int.tdiv`. -/
def clamp_hit_margin (view : flux_view) (margin : Int) : Int :=
  let half_w := Int.tdiv view.width 2
  let half_h := Int.tdiv view.height 2
  let margin := if margin > half_w then half_w else margin
  let margin := if margin > half_h then half_h else margin
  let margin := if margin < 1 then 1 else margin
  margin

/-- The function `view_resize_hit_margin` for a non-null view. -/
def view_resize_hit_margin (view : flux_view) : Int :=
  let margin : Int :=
    if !view.use_server_decorations then
      (if view_app_id_contains view ['f', 'o', 'o', 't'] then 16 else 14)
    else
      (let border := view_border_px view
       if border > 6 then border else 6)
  clamp_hit_margin view margin

/-- The function `view_move_border_margin` for a non-null view. -/
def view_move_border_margin (view : flux_view) : Int :=
  let margin : Int :=
    if !view.use_server_decorations then 40
    else
      (let border := view_border_px view
       if border > 12 then border else 12)
  let margin := clamp_hit_margin view margin
  let resize_margin := view_resize_hit_margin view
  let margin := if margin ≤ resize_margin then resize_margin + 1 else margin
  clamp_hit_margin view margin

/-- The function `view_outer_grab_pad` for a non-null view. -/
def view_outer_grab_pad (view : flux_view) : Int :=
  let pad : Int :=
    if !view.use_server_decorations then
      (if view_app_id_contains view ['f', 'o', 'o', 't'] then 16 else 14)
    else 4
  clamp_hit_margin view pad

/-! ## Hit testing (`src/wm/view.c`) -/

/-- The function `view_resize_edges_at` for a non-null view: the mask of
resize edges at layout point `(lx, ly)`. -/
def view_resize_edges_at (view : flux_view) (lx ly : ℚ) : Nat :=
  let margin := view_resize_hit_margin view
  if lx < ((view.x - margin : Int) : ℚ) ∨ ly < ((view.y - margin : Int) : ℚ) ∨
      lx ≥ ((view.x + view.width + margin : Int) : ℚ) ∨
      ly ≥ ((view.y + view.height + margin : Int) : ℚ) then
    WLR_EDGE_NONE
  else
    let local_x : ℚ := lx - (view.x : ℚ)
    let local_y : ℚ := ly - (view.y : ℚ)
    let left : Bool := local_x < (margin : ℚ)
    let right : Bool := local_x ≥ ((view.width - margin : Int) : ℚ)
    let top : Bool := local_y < (margin : ℚ)
    let bottom : Bool := local_y ≥ ((view.height - margin : Int) : ℚ)
    let edges := WLR_EDGE_NONE
    let edges := if left then edges ||| WLR_EDGE_LEFT else edges
    let edges := if right then edges ||| WLR_EDGE_RIGHT else edges
    let edges := if top then edges ||| WLR_EDGE_TOP else edges
    let edges := if bottom then edges ||| WLR_EDGE_BOTTOM else edges
    edges

/-- The function `view_point_in_frame_border` for a non-null view: whether
`(lx, ly)` is in the move ring and not in the resize ring. -/
def view_point_in_frame_border (view : flux_view) (lx ly : ℚ) : Bool :=
  let outer_pad := view_outer_grab_pad view
  if lx < ((view.x - outer_pad : Int) : ℚ) ∨ ly < ((view.y - outer_pad : Int) : ℚ) ∨
      lx ≥ ((view.x + view.width + outer_pad : Int) : ℚ) ∨
      ly ≥ ((view.y + view.height + outer_pad : Int) : ℚ) then
    false
  else
    let move_margin := view_move_border_margin view
    let resize_margin := view_resize_hit_margin view
    let local_x : ℚ := lx - (view.x : ℚ)
    let local_y : ℚ := ly - (view.y : ℚ)
    let in_move_ring : Bool :=
      local_x < (move_margin : ℚ) ∨
      local_x ≥ ((view.width - move_margin : Int) : ℚ) ∨
      local_y < (move_margin : ℚ) ∨
      local_y ≥ ((view.height - move_margin : Int) : ℚ)
    if !in_move_ring then
      false
    else
      let in_resize_ring : Bool :=
        local_x < (resize_margin : ℚ) ∨
        local_x ≥ ((view.width - resize_margin : Int) : ℚ) ∨
        local_y < (resize_margin : ℚ) ∨
        local_y ≥ ((view.height - resize_margin : Int) : ℚ)
      !in_resize_ring

/-! ## Server state -/

/-- A surface found under the pointer: the `wlr_surface` and the
surface-local coordinates that `wlr_xdg_surface_surface_at` writes. -/
structure surface_hit where
  surface : Nat
  sx : ℚ
  sy : ℚ

/-- The enumeration `wl_pointer_button_state`. -/
inductive wl_pointer_button_state where
  | RELEASED
  | PRESSED
deriving DecidableEq, Repr

/-- The fields of `struct wlr_pointer_button_event` that the code reads. -/
structure wlr_pointer_button_event where
  time_msec : Nat
  button : Nat
  state : wl_pointer_button_state
deriving DecidableEq, Repr

/-- A call into the wlroots seat or into a client toplevel, as the code makes
it: `wlr_seat_pointer_notify_button`, `wlr_seat_pointer_notify_enter`,
`wlr_seat_pointer_notify_motion`, `wlr_seat_pointer_clear_focus`,
`wlr_seat_keyboard_notify_enter`, `wlr_seat_keyboard_clear_focus`,
`wlr_xdg_toplevel_set_activated` and `wlr_xdg_toplevel_set_size` (the last two
name the view whose toplevel is addressed). -/
inductive wlr_call where
  | pointer_notify_button (time_msec button : Nat) (state : wl_pointer_button_state)
  | pointer_notify_enter (surface : Nat) (sx sy : ℚ)
  | pointer_notify_motion (time_msec : Nat) (sx sy : ℚ)
  | pointer_clear_focus
  | keyboard_notify_enter (surface : Nat)
  | keyboard_clear_focus
  | xdg_toplevel_set_activated (view : Nat) (activated : Bool)
  | xdg_toplevel_set_size (view : Nat) (width height : Int)

/-- The state of `struct flux_server` (`flux.h`) that the interaction and
layout code reads or writes. `layout_box` is what
`wlr_output_layout_get_box(server->output_layout, NULL, &box)` returns,
`taskbar_tree` and `taskbar_bg_rect` say whether those pointers are non-null,
`taskbar_enabled` is the enabled flag of the taskbar scene node, `keyboard` is
the modifier mask of the seat keyboard (`none` when the seat has no keyboard),
`focused_surface` is `seat->keyboard_state.focused_surface`, and `call_log`
lists the calls of `wlr_call` made so far, oldest first. -/
structure flux_server where
  views : List flux_view
  layout_box : wlr_box
  taskbar_tree : Bool
  taskbar_bg_rect : Bool
  taskbar_enabled : Bool
  keyboard : Option Nat
  focused_surface : Option Nat
  call_log : List wlr_call
  cursor_x : ℚ
  cursor_y : ℚ
  keybind_mod_mask : Nat
  cursor_mode : flux_cursor_mode
  grabbed_view : Option Nat
  pressed_taskbar_view : Option Nat
  resize_edges : Nat
  resize_init_x : Int
  resize_init_y : Int
  resize_init_width : Int
  resize_init_height : Int
  resize_cursor_start_x : ℚ
  resize_cursor_start_y : ℚ
  grab_x : ℚ
  grab_y : ℚ
  suppress_button_until_release : Bool
  interactive_grab_from_client : Bool
  next_view_x : Int
  next_view_y : Int
  taskbar_layout_x : Int
  taskbar_layout_y : Int
  taskbar_layout_width : Int
  taskbar_layout_height : Int
  taskbar_dirty : Bool

/-- The view with address `id` in the view list, if it is linked there. -/
def find_view (views : List flux_view) (id : Nat) : Option flux_view :=
  views.find? (fun v => v.id == id)

/-- A write through the pointer `id`: `f` applied to the view with that
address. -/
def update_view (views : List flux_view) (id : Nat) (f : flux_view → flux_view) :
    List flux_view :=
  views.map (fun v => if v.id = id then f v else v)

/-! ## Taskbar (`src/wm/taskbar.c`) -/

/-- The macro `TASKBAR_HEIGHT`. -/
def TASKBAR_HEIGHT : Int := 30
/-- The macro `TASKBAR_MARGIN`. -/
def TASKBAR_MARGIN : Int := 6
/-- The macro `TASKBAR_BUTTON_H`. -/
def TASKBAR_BUTTON_H : Int := 22
/-- The macro `TASKBAR_BUTTON_MIN_W`. -/
def TASKBAR_BUTTON_MIN_W : Int := 110
/-- The macro `TASKBAR_BUTTON_MAX_W`. -/
def TASKBAR_BUTTON_MAX_W : Int := 240
/-- The macro `TASKBAR_TEXT_PAD_X`. -/
def TASKBAR_TEXT_PAD_X : Int := 8
/-- The macro `TASKBAR_TEXT_SCALE`. -/
def TASKBAR_TEXT_SCALE : Int := 1
/-- The macro `TASKBAR_GLYPH_W`. -/
def TASKBAR_GLYPH_W : Int := 5
/-- The macro `TASKBAR_TEXT_ADV`. -/
def TASKBAR_TEXT_ADV : Int := (TASKBAR_GLYPH_W + 1) * TASKBAR_TEXT_SCALE
/-- The function `taskbar_bar_height`. -/
def taskbar_bar_height : Int :=
  let h := TASKBAR_HEIGHT
  let h := if h < TASKBAR_BUTTON_H + 4 then TASKBAR_BUTTON_H + 4 else h
  h

/-- The function `view_display_title`: the title if it is set and not empty,
else the app id if it is set and not empty, else the literal APP. -/
def view_display_title (view : flux_view) : CString :=
  match view.toplevel with
  | some tl =>
    match tl.title with
    | some (c :: title) => c :: title
    | _ =>
      match tl.app_id with
      | some (c :: app_id) => c :: app_id
      | _ => ['A', 'P', 'P']
  | none => ['A', 'P', 'P']

/-- The function `text_pixel_width` for a non-null text. -/
def text_pixel_width (_text : CString) (nchars : Int) : Int :=
  if nchars ≤ 0 then 0 else nchars * TASKBAR_TEXT_ADV - TASKBAR_TEXT_SCALE

/-- The function `taskbar_button_width_for_title`; `strlen` is the length of
the byte list. -/
def taskbar_button_width_for_title (title : CString) : Int :=
  let title_px := text_pixel_width title (title.length : Int)
  let button_w := title_px + TASKBAR_TEXT_PAD_X * 2
  let button_w := if button_w < TASKBAR_BUTTON_MIN_W then TASKBAR_BUTTON_MIN_W else button_w
  let button_w := if button_w > TASKBAR_BUTTON_MAX_W then TASKBAR_BUTTON_MAX_W else button_w
  button_w

/-- The body of the loop of `clear_taskbar_view_state`. -/
def clear_taskbar_slot (view : flux_view) : flux_view :=
  { view with taskbar_visible := false, taskbar_x := 0, taskbar_y := 0,
              taskbar_width := 0, taskbar_height := 0 }

/-- The function `clear_taskbar_view_state`, on the view list. -/
def clear_taskbar_view_state (views : List flux_view) : List flux_view :=
  views.map clear_taskbar_slot

/-- The function `taskbar_mark_dirty`; scheduling output frames is left to the
output collaborator. -/
def taskbar_mark_dirty (server : flux_server) : flux_server :=
  { server with taskbar_dirty := true }

/-- The loop of `taskbar_view_at` over the view list. -/
def taskbar_view_at_loop (lx ly : ℚ) : List flux_view → Option flux_view
  | [] => none
  | view :: rest =>
    if !view.taskbar_visible || !view.mapped || !view.minimized then
      taskbar_view_at_loop lx ly rest
    else if lx ≥ (view.taskbar_x : ℚ) ∧ ly ≥ (view.taskbar_y : ℚ) ∧
        lx < ((view.taskbar_x + view.taskbar_width : Int) : ℚ) ∧
        ly < ((view.taskbar_y + view.taskbar_height : Int) : ℚ) then
      some view
    else
      taskbar_view_at_loop lx ly rest

/-- The function `taskbar_view_at`. -/
def taskbar_view_at (server : flux_server) (lx ly : ℚ) : Option flux_view :=
  taskbar_view_at_loop lx ly server.views

/-- The loop of `taskbar_predict_button_box` from the view `views` starts at,
with the running `cursor_x`; `none` is the return value `false`. -/
def taskbar_predict_loop (box : wlr_box) (bar_y button_y button_h : Int)
    (target : Nat) (include_target_if_not_minimized : Bool) :
    Int → List flux_view → Option wlr_box
  | _, [] => none
  | cursor_x, view :: rest =>
    let in_taskbar := view.mapped && (view.minimized ||
      (include_target_if_not_minimized && view.id == target && !view.minimized))
    if !in_taskbar then
      taskbar_predict_loop box bar_y button_y button_h target
        include_target_if_not_minimized cursor_x rest
    else
      let title := view_display_title view
      let button_w := taskbar_button_width_for_title title
      let remaining := box.width - TASKBAR_MARGIN - cursor_x
      if remaining < TASKBAR_BUTTON_MIN_W then
        if view.id = target then none
        else
          taskbar_predict_loop box bar_y button_y button_h target
            include_target_if_not_minimized cursor_x rest
      else
        let button_w := if button_w > remaining then remaining else button_w
        if view.id = target then
          some { x := box.x + cursor_x, y := bar_y + button_y,
                 width := button_w, height := button_h }
        else
          taskbar_predict_loop box bar_y button_y button_h target
            include_target_if_not_minimized (cursor_x + button_w + TASKBAR_MARGIN) rest

/-- The function `taskbar_predict_button_box` for non-null arguments; `target`
is the address of the target view and the result is the box written to `out`,
or `none` when the function returns `false`. -/
def taskbar_predict_button_box (server : flux_server) (target : Nat)
    (include_target_if_not_minimized : Bool) : Option wlr_box :=
  let box := server.layout_box
  if box.width ≤ 0 ∨ box.height ≤ 0 then none
  else
    let bar_h := taskbar_bar_height
    let button_h := TASKBAR_BUTTON_H
    let button_h := if button_h > bar_h - 4 then bar_h - 4 else button_h
    let button_h := if button_h < 10 then bar_h else button_h
    let button_y := Int.tdiv (bar_h - button_h) 2
    let bar_y := box.y + box.height - bar_h
    let cursor_x := TASKBAR_MARGIN
    taskbar_predict_loop box bar_y button_y button_h target
      include_target_if_not_minimized cursor_x server.views

/-- The packing loop of `taskbar_update` from the view `views` starts at, with
the running `cursor_x` and `shown`; the result is the views as the loop leaves
them and the final `shown`. The `break` leaves the remaining views untouched. -/
def taskbar_update_loop (box : wlr_box) (bar_y button_y button_h : Int) :
    Int → Nat → List flux_view → List flux_view × Nat
  | _, shown, [] => ([], shown)
  | cursor_x, shown, view :: rest =>
    if !view.mapped || !view.minimized then
      let r := taskbar_update_loop box bar_y button_y button_h cursor_x shown rest
      (view :: r.1, r.2)
    else
      let title := view_display_title view
      let button_w := taskbar_button_width_for_title title
      let remaining := box.width - TASKBAR_MARGIN - cursor_x
      if remaining < TASKBAR_BUTTON_MIN_W then
        (view :: rest, shown)
      else
        let button_w := if button_w > remaining then remaining else button_w
        let view := { view with taskbar_visible := true,
                                taskbar_x := box.x + cursor_x,
                                taskbar_y := bar_y + button_y,
                                taskbar_width := button_w,
                                taskbar_height := button_h }
        let r := taskbar_update_loop box bar_y button_y button_h
          (cursor_x + button_w + TASKBAR_MARGIN) (shown + 1) rest
        (view :: r.1, r.2)

/-- The function `taskbar_update`. Drawing the buttons is left to the scene
graph; the slot fields of the views, the layout cache, the dirty flag and the
enabled flag of the bar are kept. -/
def taskbar_update (server : flux_server) : flux_server :=
  if !server.taskbar_tree || !server.taskbar_bg_rect then server
  else
    let box := server.layout_box
    if box.width ≤ 0 ∨ box.height ≤ 0 then
      { server with views := clear_taskbar_view_state server.views,
                    taskbar_enabled := false }
    else
      let bar_h := taskbar_bar_height
      let layout_changed : Bool :=
        box.x ≠ server.taskbar_layout_x ∨ box.y ≠ server.taskbar_layout_y ∨
        box.width ≠ server.taskbar_layout_width ∨
        box.height ≠ server.taskbar_layout_height
      let server :=
        if layout_changed then
          { server with taskbar_layout_x := box.x, taskbar_layout_y := box.y,
                        taskbar_layout_width := box.width,
                        taskbar_layout_height := box.height,
                        taskbar_dirty := true }
        else server
      if !server.taskbar_dirty then server
      else
        let views := clear_taskbar_view_state server.views
        let bar_y := box.y + box.height - bar_h
        let button_h := TASKBAR_BUTTON_H
        let button_h := if button_h > bar_h - 4 then bar_h - 4 else button_h
        let button_h := if button_h < 10 then bar_h else button_h
        let button_y := Int.tdiv (bar_h - button_h) 2
        let cursor_x := TASKBAR_MARGIN
        let r := taskbar_update_loop box bar_y button_y button_h cursor_x 0 views
        { server with views := r.1, taskbar_enabled := decide (r.2 > 0),
                      taskbar_dirty := false }

/-! ## Frame geometry, focus and animation starts (`src/wm/view.c`) -/

/-- The function `get_layout_box_or_default`. -/
def get_layout_box_or_default (server : flux_server) : wlr_box :=
  let box := server.layout_box
  if box.width ≤ 0 ∨ box.height ≤ 0 then
    { x := 0, y := 0, width := 1280, height := 720 }
  else box

/-- The function `view_set_frame_size`: the fields of the view it writes. The
sizes and positions of the decoration rectangles are derived from the same
numbers and live in the scene graph. -/
def view_set_frame_size (view : flux_view) (frame_width frame_height : Int) : flux_view :=
  let border := view_border_px view
  let title_h := view_titlebar_px view
  let frame_width := if frame_width < border * 2 + 1 then border * 2 + 1 else frame_width
  let frame_height :=
    if frame_height < title_h + border + 1 then title_h + border + 1 else frame_height
  { view with width := frame_width, height := frame_height,
              content_x := border - view.xdg_geo_x,
              content_y := title_h - view.xdg_geo_y }

/-- The function `view_set_visible`. -/
def view_set_visible (view : flux_view) (visible : Bool) : flux_view :=
  { view with visible := visible }

/-- The function `view_from_surface`: the view whose toplevel root surface is
`surface`, if any. -/
def view_from_surface (server : flux_server) (surface : Option Nat) : Option flux_view :=
  match surface with
  | none => none
  | some s => server.views.find? (fun v => v.surface == s)

/-- The function `clampf`, on exact values. -/
def clampf (value min_value max_value : ℚ) : ℚ :=
  if value < min_value then min_value
  else if value > max_value then max_value
  else value

/-- The macro `MINIMIZE_ANIMATION_MIN_SCALE` (0.12f), as an exact value. -/
def MINIMIZE_ANIMATION_MIN_SCALE : ℚ := 12 / 100

/-- The function `taskbar_target_for_animation`: the center and scale it
writes to `cx`, `cy` and `scale`. -/
def taskbar_target_for_animation (server : flux_server) (view : flux_view)
    (include_target_if_not_minimized : Bool) : ℚ × ℚ × ℚ :=
  match taskbar_predict_button_box server view.id include_target_if_not_minimized with
  | some slot =>
    let cx : ℚ := (slot.x : ℚ) + (slot.width : ℚ) / 2
    let cy : ℚ := (slot.y : ℚ) + (slot.height : ℚ) / 2
    let sx : ℚ := (slot.width : ℚ) / (view.width : ℚ)
    let sy : ℚ := (slot.height : ℚ) / (view.height : ℚ)
    (cx, cy, clampf (min sx sy) MINIMIZE_ANIMATION_MIN_SCALE (35 / 100))
  | none =>
    let layout := get_layout_box_or_default server
    ((layout.x : ℚ) + (layout.width : ℚ) / 2,
     (layout.y : ℚ) + (layout.height : ℚ) - 12,
     MINIMIZE_ANIMATION_MIN_SCALE)

/-- The function `view_begin_minimize_animation` on the view with address
`id`. The first frame of the animation is painted by the scene graph. -/
def view_begin_minimize_animation (server : flux_server) (id : Nat) (time_msec : Nat) :
    flux_server :=
  match find_view server.views id with
  | none => server
  | some view =>
    if !view.mapped || view.minimized || view.minimizing_animation ||
        view.restoring_animation then server
    else
      let view := { view with minimizing_animation := true,
                              minimize_animation_start_msec := time_msec,
                              restoring_animation := false,
                              restore_animation_start_msec := 0 }
      let server := { server with views := update_view server.views id (fun _ => view) }
      let server :=
        if view.toplevel.isSome then
          { server with call_log :=
              server.call_log ++ [wlr_call.xdg_toplevel_set_activated id false] }
        else server
      let focused := server.focused_surface
      let server :=
        if focused.isSome ∧ (view_from_surface server focused).map (fun v => v.id) = some id then
          { server with focused_surface := none,
                        call_log := server.call_log ++ [wlr_call.keyboard_clear_focus] }
        else server
      let dst := taskbar_target_for_animation server view true
      let view := { view with
        anim_from_cx := (view.x : ℚ) + (view.width : ℚ) / 2,
        anim_from_cy := (view.y : ℚ) + (view.height : ℚ) / 2,
        anim_to_cx := dst.1,
        anim_to_cy := dst.2.1,
        anim_from_scale := 1,
        anim_to_scale := dst.2.2,
        anim_from_alpha := 1,
        anim_to_alpha := 35 / 100 }
      { server with views := update_view server.views id (fun _ => view) }

/-- The function `view_begin_restore_animation` on the view with address `id`.
The first frame of the animation is painted by the scene graph. -/
def view_begin_restore_animation (server : flux_server) (id : Nat) (time_msec : Nat) :
    flux_server :=
  match find_view server.views id with
  | none => server
  | some view =>
    if !view.mapped || !view.minimized || view.minimizing_animation ||
        view.restoring_animation then server
    else
      let have_slot : Bool :=
        view.taskbar_visible ∧ view.taskbar_width > 0 ∧ view.taskbar_height > 0
      let src : ℚ × ℚ × ℚ :=
        if have_slot then
          let sx : ℚ := (view.taskbar_width : ℚ) / (view.width : ℚ)
          let sy : ℚ := (view.taskbar_height : ℚ) / (view.height : ℚ)
          ((view.taskbar_x : ℚ) + (view.taskbar_width : ℚ) / 2,
           (view.taskbar_y : ℚ) + (view.taskbar_height : ℚ) / 2,
           clampf (min sx sy) MINIMIZE_ANIMATION_MIN_SCALE (35 / 100))
        else
          taskbar_target_for_animation server view false
      let view := { view with
        minimized := false,
        restoring_animation := true,
        restore_animation_start_msec := time_msec,
        minimizing_animation := false,
        minimize_animation_start_msec := 0,
        anim_from_cx := src.1,
        anim_from_cy := src.2.1,
        anim_to_cx := (view.x : ℚ) + (view.width : ℚ) / 2,
        anim_to_cy := (view.y : ℚ) + (view.height : ℚ) / 2,
        anim_from_scale := src.2.2,
        anim_to_scale := 1,
        anim_from_alpha := 35 / 100,
        anim_to_alpha := 1 }
      let view := view_set_visible view true
      taskbar_mark_dirty { server with views := update_view server.views id (fun _ => view) }

/-- The function `focus_view` on the view with address `id` and a non-null
`surface`. Title colours live in the scene graph. -/
def focus_view (server : flux_server) (id : Nat) (surface : Nat) : flux_server :=
  match find_view server.views id with
  | none => server
  | some view =>
    if view.minimized || view.minimizing_animation || view.restoring_animation ||
        !view.mapped then server
    else
      let prev := server.focused_surface
      let prev_view := view_from_surface server prev
      if prev = some surface then server
      else
        let server :=
          match prev_view with
          | some pv =>
            if pv.id ≠ id ∧ pv.toplevel.isSome then
              { server with call_log :=
                  server.call_log ++ [wlr_call.xdg_toplevel_set_activated pv.id false] }
            else server
          | none => server
        let server :=
          { server with views := view :: server.views.filter (fun v => v.id != id) }
        let server :=
          if view.toplevel.isSome then
            { server with call_log :=
                server.call_log ++ [wlr_call.xdg_toplevel_set_activated id true] }
          else server
        match server.keyboard with
        | some _ =>
          { server with focused_surface := some surface,
                        call_log := server.call_log ++ [wlr_call.keyboard_notify_enter surface] }
        | none => server

/-- The loop of `view_at` over the view list. `surface_at id x y` is
`wlr_xdg_surface_surface_at` on the xdg surface of the view with address `id`.
The result is the returned view and the surface written to `surface`. -/
def view_at_loop (surface_at : Nat → ℚ → ℚ → Option surface_hit) (lx ly : ℚ) :
    List flux_view → Option flux_view × Option surface_hit
  | [] => (none, none)
  | view :: rest =>
    if !view.mapped || view.minimized || view.minimizing_animation ||
        view.restoring_animation then
      view_at_loop surface_at lx ly rest
    else if lx < (view.x : ℚ) ∨ ly < (view.y : ℚ) ∨
        lx ≥ ((view.x + view.width : Int) : ℚ) ∨
        ly ≥ ((view.y + view.height : Int) : ℚ) then
      view_at_loop surface_at lx ly rest
    else
      let local_x : ℚ := lx - ((view.x + view.content_x : Int) : ℚ)
      let local_y : ℚ := ly - ((view.y + view.content_y : Int) : ℚ)
      match surface_at view.id local_x local_y with
      | some hit => (some view, some hit)
      | none =>
        if !view.use_server_decorations then (none, none)
        else (some view, none)

/-- The function `view_at`. -/
def view_at (surface_at : Nat → ℚ → ℚ → Option surface_hit) (server : flux_server)
    (lx ly : ℚ) : Option flux_view × Option surface_hit :=
  view_at_loop surface_at lx ly server.views

/-- The loop of `view_frame_at` over the view list. -/
def view_frame_at_loop (lx ly : ℚ) : List flux_view → Option flux_view
  | [] => none
  | view :: rest =>
    if !view.mapped || view.minimized || view.minimizing_animation ||
        view.restoring_animation then
      view_frame_at_loop lx ly rest
    else
      let pad := view_outer_grab_pad view
      if lx < ((view.x - pad : Int) : ℚ) ∨ ly < ((view.y - pad : Int) : ℚ) ∨
          lx ≥ ((view.x + view.width + pad : Int) : ℚ) ∨
          ly ≥ ((view.y + view.height + pad : Int) : ℚ) then
        view_frame_at_loop lx ly rest
      else some view

/-- The function `view_frame_at`. -/
def view_frame_at (server : flux_server) (lx ly : ℚ) : Option flux_view :=
  view_frame_at_loop lx ly server.views

/-- The function `point_in_minimize_button`. -/
def point_in_minimize_button (view : flux_view) (lx ly : ℚ) : Bool :=
  if !view.use_server_decorations then false
  else
    let border := view_border_px view
    let title_h := view_titlebar_px view
    let btn_x := view.x + view.width - border - BTN_W - BTN_PAD
    let btn_y := view.y + Int.tdiv (title_h - BTN_H) 2
    lx ≥ (btn_x : ℚ) ∧ ly ≥ (btn_y : ℚ) ∧
      lx < ((btn_x + BTN_W : Int) : ℚ) ∧ ly < ((btn_y + BTN_H : Int) : ℚ)

/-- The function `point_in_titlebar_drag_region`. -/
def point_in_titlebar_drag_region (view : flux_view) (lx ly : ℚ) : Bool :=
  if !view.use_server_decorations then false
  else
    let title_h := view_titlebar_px view
    if ly < (view.y : ℚ) ∨ ly ≥ ((view.y + title_h : Int) : ℚ) ∨
        lx < (view.x : ℚ) ∨ lx ≥ ((view.x + view.width : Int) : ℚ) then false
    else if point_in_minimize_button view lx ly then false
    else true

/-! ## Pointer handling (`src/compositor/cursor.c`) -/

/-- The macro `MIN_CLIENT_WIDTH`. -/
def MIN_CLIENT_WIDTH : Int := 120
/-- The macro `MIN_CLIENT_HEIGHT`. -/
def MIN_CLIENT_HEIGHT : Int := 80
/-- The macro `FOOT_DRAG_HEIGHT`. -/
def FOOT_DRAG_HEIGHT : Int := 32
/-- The macro `FOOT_DRAG_SIDE_PAD`. -/
def FOOT_DRAG_SIDE_PAD : Int := 6

/-- The function `clamp_cursor_to_layout`. The two copies of the pointer
position (`server->cursor->x` and `server->cursor_x`) are one field, and
`wlr_cursor_warp_closest` lands on the clamped point. -/
def clamp_cursor_to_layout (server : flux_server) : flux_server :=
  let box := server.layout_box
  if box.width ≤ 0 ∨ box.height ≤ 0 then server
  else
    let x := server.cursor_x
    let y := server.cursor_y
    let max_x : ℚ := (box.x : ℚ) + (box.width : ℚ) - 1
    let max_y : ℚ := (box.y : ℚ) + (box.height : ℚ) - 1
    let x := if x < (box.x : ℚ) then (box.x : ℚ) else if x > max_x then max_x else x
    let y := if y < (box.y : ℚ) then (box.y : ℚ) else if y > max_y then max_y else y
    { server with cursor_x := x, cursor_y := y }

/-- The function `compositor_mod_down`. -/
def compositor_mod_down (server : flux_server) : Bool :=
  match server.keyboard with
  | none => false
  | some mods => (mods &&& server.keybind_mod_mask) != 0

/-- The function `point_in_foot_drag_region` for a non-null view. -/
def point_in_foot_drag_region (view : flux_view) (lx ly : ℚ) : Bool :=
  if view.use_server_decorations then false
  else
    match view.toplevel with
    | none => false
    | some tl =>
      match tl.app_id with
      | none => false
      | some app_id =>
        if !strstr_found app_id ['f', 'o', 'o', 't'] then false
        else
          let local_x : ℚ := lx - (view.x : ℚ)
          let local_y : ℚ := ly - (view.y : ℚ)
          if local_x < (FOOT_DRAG_SIDE_PAD : ℚ) ∨
              local_x ≥ ((view.width - FOOT_DRAG_SIDE_PAD : Int) : ℚ) then false
          else decide (local_y ≥ 0 ∧ local_y < (FOOT_DRAG_HEIGHT : ℚ))

/-- The function `begin_compositor_resize` on the view with address
`view.id`. -/
def begin_compositor_resize (server : flux_server) (view : flux_view) (resize_edges : Nat) :
    flux_server :=
  if resize_edges = WLR_EDGE_NONE then server
  else
    let server := focus_view server view.id view.surface
    { server with cursor_mode := CURSOR_RESIZE,
                  grabbed_view := some view.id,
                  interactive_grab_from_client := false,
                  resize_edges := resize_edges,
                  resize_init_x := view.x,
                  resize_init_y := view.y,
                  resize_init_width := view.width,
                  resize_init_height := view.height,
                  resize_cursor_start_x := server.cursor_x,
                  resize_cursor_start_y := server.cursor_y,
                  suppress_button_until_release := true }

/-- The function `begin_compositor_move` on the view with address `view.id`. -/
def begin_compositor_move (server : flux_server) (view : flux_view) : flux_server :=
  let server := focus_view server view.id view.surface
  { server with cursor_mode := CURSOR_MOVE,
                grabbed_view := some view.id,
                interactive_grab_from_client := false,
                grab_x := double_sub server.cursor_x (view.x : ℚ),
                grab_y := double_sub server.cursor_y (view.y : ℚ),
                suppress_button_until_release := true }

/-- The move branch of `process_cursor_motion` (cursor.c lines 230-237), with
`g` the grabbed view. -/
def process_cursor_motion_move (server : flux_server) (g : Nat) : flux_server :=
  let nx := trunc_int (double_sub server.cursor_x server.grab_x)
  let ny := trunc_int (double_sub server.cursor_y server.grab_y)
  { server with views := update_view server.views g (fun v => { v with x := nx, y := ny }) }

/-- The frame box `(nx, ny, nw, nh)` that the resize branch of
`process_cursor_motion` computes (cursor.c lines 241-279) for the grabbed
view `view`. -/
def resize_frame_box (server : flux_server) (view : flux_view) : wlr_box :=
  let border : Int := if view.use_server_decorations then BORDER_PX else 0
  let title_h : Int := if view.use_server_decorations then TITLEBAR_PX else 0
  let dx := lround (server.cursor_x - server.resize_cursor_start_x)
  let dy := lround (server.cursor_y - server.resize_cursor_start_y)
  let nx := server.resize_init_x
  let ny := server.resize_init_y
  let nw := server.resize_init_width
  let nh := server.resize_init_height
  let nx := if server.resize_edges &&& WLR_EDGE_LEFT ≠ 0 then server.resize_init_x + dx else nx
  let nw := if server.resize_edges &&& WLR_EDGE_LEFT ≠ 0 then server.resize_init_width - dx else nw
  let nw := if server.resize_edges &&& WLR_EDGE_RIGHT ≠ 0 then server.resize_init_width + dx else nw
  let ny := if server.resize_edges &&& WLR_EDGE_TOP ≠ 0 then server.resize_init_y + dy else ny
  let nh := if server.resize_edges &&& WLR_EDGE_TOP ≠ 0 then server.resize_init_height - dy else nh
  let nh :=
    if server.resize_edges &&& WLR_EDGE_BOTTOM ≠ 0 then server.resize_init_height + dy else nh
  let min_w := border * 2 + MIN_CLIENT_WIDTH
  let min_h := title_h + border + MIN_CLIENT_HEIGHT
  let nx :=
    if nw < min_w ∧ server.resize_edges &&& WLR_EDGE_LEFT ≠ 0 then nx + (nw - min_w) else nx
  let nw := if nw < min_w then min_w else nw
  let ny :=
    if nh < min_h ∧ server.resize_edges &&& WLR_EDGE_TOP ≠ 0 then ny + (nh - min_h) else ny
  let nh := if nh < min_h then min_h else nh
  { x := nx, y := ny, width := nw, height := nh }

/-- The resize branch of `process_cursor_motion` (cursor.c lines 239-297) for
the grabbed view `view`: the frame box is written to the view and the client
is asked for the matching content size. -/
def process_cursor_motion_resize (server : flux_server) (view : flux_view) : flux_server :=
  let border : Int := if view.use_server_decorations then BORDER_PX else 0
  let title_h : Int := if view.use_server_decorations then TITLEBAR_PX else 0
  let box := resize_frame_box server view
  let surface_w := box.width - border * 2
  let surface_h := box.height - title_h - border
  let surface_w := if surface_w < 1 then 1 else surface_w
  let surface_h := if surface_h < 1 then 1 else surface_h
  { server with
      views := update_view server.views view.id
        (fun v => view_set_frame_size { v with x := box.x, y := box.y } box.width box.height),
      call_log := server.call_log ++
        [wlr_call.xdg_toplevel_set_size view.id surface_w surface_h] }

/-- The last part of `process_cursor_motion` (cursor.c lines 299-315): pointer
focus follows the surface under the pointer. -/
def process_cursor_motion_passthrough (surface_at : Nat → ℚ → ℚ → Option surface_hit)
    (server : flux_server) (time_msec : Nat) : flux_server :=
  match view_at surface_at server server.cursor_x server.cursor_y with
  | (some view, some hit) =>
    let server := focus_view server view.id hit.surface
    { server with call_log := server.call_log ++
        [wlr_call.pointer_notify_enter hit.surface hit.sx hit.sy,
         wlr_call.pointer_notify_motion time_msec hit.sx hit.sy] }
  | _ =>
    { server with call_log := server.call_log ++ [wlr_call.pointer_clear_focus] }

/-- The function `process_cursor_motion`. A grabbed view that is no longer
linked in the view list (a dangling pointer in C) is left unwritten. -/
def process_cursor_motion (surface_at : Nat → ℚ → ℚ → Option surface_hit)
    (server : flux_server) (time_msec : Nat) : flux_server :=
  let server := clamp_cursor_to_layout server
  match server.grabbed_view with
  | some g =>
    if server.cursor_mode = CURSOR_MOVE then
      process_cursor_motion_move server g
    else if server.cursor_mode = CURSOR_RESIZE then
      match find_view server.views g with
      | some view => process_cursor_motion_resize server view
      | none => server
    else process_cursor_motion_passthrough surface_at server time_msec
  | none => process_cursor_motion_passthrough surface_at server time_msec

/-- The function `cursor_motion_notify` for a relative motion by
`(delta_x, delta_y)`: `wlr_cursor_move` adds the delta and
`process_cursor_motion` clamps the result to the layout. -/
def cursor_motion_notify (surface_at : Nat → ℚ → ℚ → Option surface_hit)
    (server : flux_server) (delta_x delta_y : ℚ) (time_msec : Nat) : flux_server :=
  let server := { server with cursor_x := server.cursor_x + delta_x,
                              cursor_y := server.cursor_y + delta_y }
  process_cursor_motion surface_at server time_msec

/-- The call `wlr_seat_pointer_notify_button` with the fields of the event. -/
def forward_button (server : flux_server) (event : wlr_pointer_button_event) : flux_server :=
  { server with call_log := server.call_log ++
      [wlr_call.pointer_notify_button event.time_msec event.button event.state] }

/-- The frame candidate of `cursor_button_notify` (cursor.c lines 356-361):
the view returned by `view_at`, or else the one returned by `view_frame_at`. -/
def frame_view_at (surface_at : Nat → ℚ → ℚ → Option surface_hit)
    (server : flux_server) (lx ly : ℚ) : Option flux_view :=
  match (view_at surface_at server lx ly).1 with
  | some v => some v
  | none => view_frame_at server lx ly

/-- The grab that a press on the frame starts in `cursor_button_notify`
(cursor.c lines 362-377); `none` when control falls through the block. -/
def cursor_button_frame_grab (server : flux_server) (event : wlr_pointer_button_event)
    (surface : Option surface_hit) (frame_view : Option flux_view) : Option flux_server :=
  match frame_view with
  | none => none
  | some fv =>
    if event.state = wl_pointer_button_state.PRESSED ∧ event.button = BTN_LEFT then
      let edge_resize := view_resize_edges_at fv server.cursor_x server.cursor_y
      if edge_resize ≠ WLR_EDGE_NONE then
        some (begin_compositor_resize server fv edge_resize)
      else if surface.isNone ∧
          view_point_in_frame_border fv server.cursor_x server.cursor_y then
        some (begin_compositor_move server fv)
      else none
    else none

/-- The release branch of `cursor_button_notify` (cursor.c lines 384-416). -/
def cursor_button_release (server : flux_server) (event : wlr_pointer_button_event) :
    flux_server :=
  match server.pressed_taskbar_view with
  | some pressed =>
    let server := { server with pressed_taskbar_view := none }
    let taskbar_view := taskbar_view_at server server.cursor_x server.cursor_y
    let server :=
      match find_view server.views pressed with
      | some pv =>
        if taskbar_view.map (fun v => v.id) = some pressed ∧ pv.mapped ∧ pv.minimized then
          view_begin_restore_animation server pressed event.time_msec
        else server
      | none => server
    let server := taskbar_mark_dirty server
    { server with suppress_button_until_release := false }
  | none =>
    if server.cursor_mode = CURSOR_MOVE ∨ server.cursor_mode = CURSOR_RESIZE ∨
        server.suppress_button_until_release then
      let server :=
        if server.interactive_grab_from_client ∧ server.grabbed_view.isSome then
          forward_button server event
        else server
      { server with cursor_mode := CURSOR_PASSTHROUGH,
                    grabbed_view := none,
                    resize_edges := WLR_EDGE_NONE,
                    suppress_button_until_release := false,
                    interactive_grab_from_client := false }
    else forward_button server event

/-- The press on a view in `cursor_button_notify` (cursor.c lines 422-458),
reached when the view under the pointer is `view`. -/
def cursor_button_press_view (server : flux_server) (event : wlr_pointer_button_event)
    (view : flux_view) (surface : Option surface_hit) : flux_server :=
  if event.button = BTN_LEFT ∧ compositor_mod_down server then
    begin_compositor_move server view
  else if event.button = BTN_LEFT ∧
      point_in_foot_drag_region view server.cursor_x server.cursor_y then
    begin_compositor_move server view
  else if point_in_minimize_button view server.cursor_x server.cursor_y then
    view_begin_minimize_animation
      { server with suppress_button_until_release := true } view.id event.time_msec
  else
    let resize_edges := view_resize_edges_at view server.cursor_x server.cursor_y
    if resize_edges ≠ WLR_EDGE_NONE then
      begin_compositor_resize server view resize_edges
    else if point_in_titlebar_drag_region view server.cursor_x server.cursor_y then
      begin_compositor_move server view
    else
      match surface with
      | some s => forward_button (focus_view server view.id s.surface) event
      | none => forward_button server event

/-- The function `cursor_button_notify`, after `process_cursor_motion` has
run: each `return` of the C function is one leaf, in the same order. -/
def cursor_button_dispatch (surface_at : Nat → ℚ → ℚ → Option surface_hit)
    (server : flux_server) (event : wlr_pointer_button_event) : flux_server :=
  let taskbar_press : Option flux_view :=
    if event.state = wl_pointer_button_state.PRESSED then
      taskbar_view_at server server.cursor_x server.cursor_y
    else none
  match taskbar_press with
  | some taskbar_view =>
    taskbar_mark_dirty
      { server with pressed_taskbar_view := some taskbar_view.id,
                    suppress_button_until_release := true }
  | none =>
    let hit := view_at surface_at server server.cursor_x server.cursor_y
    let frame_view := frame_view_at surface_at server server.cursor_x server.cursor_y
    match cursor_button_frame_grab server event hit.2 frame_view with
    | some grabbed => grabbed
    | none =>
      if hit.1.isNone ∧ !server.suppress_button_until_release then
        forward_button server event
      else if event.state = wl_pointer_button_state.RELEASED then
        cursor_button_release server event
      else
        match hit.1 with
        | none => server
        | some view => cursor_button_press_view server event view hit.2

/-- The function `cursor_button_notify`. -/
def cursor_button_notify (surface_at : Nat → ℚ → ℚ → Option surface_hit)
    (server : flux_server) (event : wlr_pointer_button_event) : flux_server :=
  cursor_button_dispatch surface_at (process_cursor_motion surface_at server event.time_msec)
    event

/-! ## View lifecycle (`src/wm/xdg.c`) -/

/-- The function `view_unmap_notify` for the view with address `id`. -/
def view_unmap_notify (server : flux_server) (id : Nat) : flux_server :=
  let server :=
    if server.pressed_taskbar_view = some id then
      { server with pressed_taskbar_view := none }
    else server
  let server :=
    { server with views := update_view server.views id (fun view =>
        view_set_visible
          { view with mapped := false, minimizing_animation := false,
                      restoring_animation := false } false) }
  taskbar_mark_dirty server

/-- The function `view_destroy_notify` for the view with address `id`: the
view is unlinked from the view list and freed. -/
def view_destroy_notify (server : flux_server) (id : Nat) : flux_server :=
  let server :=
    if server.pressed_taskbar_view = some id then
      { server with pressed_taskbar_view := none }
    else server
  let server := { server with views := server.views.filter (fun v => v.id != id) }
  taskbar_mark_dirty server

/-! ## Event traces -/

/-- An event delivered to the pointer handlers: a relative motion or a button
event. -/
inductive pointer_event where
  | motion (delta_x delta_y : ℚ) (time_msec : Nat)
  | button (event : wlr_pointer_button_event)

/-- One event handled by the handler registered for it. -/
def handle_pointer_event (surface_at : Nat → ℚ → ℚ → Option surface_hit)
    (server : flux_server) : pointer_event → flux_server
  | pointer_event.motion dx dy t => cursor_motion_notify surface_at server dx dy t
  | pointer_event.button ev => cursor_button_notify surface_at server ev

/-- A sequence of events handled in arrival order. -/
def run_pointer_events (surface_at : Nat → ℚ → ℚ → Option surface_hit)
    (server : flux_server) (events : List pointer_event) : flux_server :=
  events.foldl (handle_pointer_event surface_at) server

/-! ## Geometry updates and animation frames (`src/wm/view.c`) -/

/-- The function `view_get_geometry_box`: the box it writes to `geo`. The
fields `surface_width` and `surface_height` are the current size of the root
surface and `reported_geo` is what `wlr_xdg_surface_get_geometry` reports. -/
def view_get_geometry_box (view : flux_view) : wlr_box :=
  let surface_w := if view.surface_width ≤ 1 then 640 else view.surface_width
  let surface_h := if view.surface_height ≤ 1 then 480 else view.surface_height
  if !view.use_server_decorations then
    { x := 0, y := 0, width := surface_w, height := surface_h }
  else
    let reported := view.reported_geo
    if reported.width > 1 ∧ reported.height > 1 ∧ reported.x ≥ 0 ∧ reported.y ≥ 0 then
      reported
    else
      { x := 0, y := 0, width := surface_w, height := surface_h }

/-- The function `view_update_geometry`. -/
def view_update_geometry (view : flux_view) : flux_view :=
  let geo := view_get_geometry_box view
  let view := { view with xdg_geo_x := geo.x, xdg_geo_y := geo.y,
                          xdg_geo_width := geo.width, xdg_geo_height := geo.height }
  let border := view_border_px view
  let title_h := view_titlebar_px view
  view_set_frame_size view (view.xdg_geo_width + border * 2)
    (view.xdg_geo_height + title_h + border)

/-- The function `view_set_server_decorations`. -/
def view_set_server_decorations (view : flux_view) (enabled : Bool) : flux_view :=
  view_update_geometry { view with use_server_decorations := enabled }

/-- The function `place_new_view`: the placed view and the server with the
cascade position advanced. -/
def place_new_view (server : flux_server) (view : flux_view) : flux_server × flux_view :=
  let box := get_layout_box_or_default server
  let base_x := box.x + 48
  let base_y := box.y + 40
  let step_x : Int := 34
  let step_y : Int := 26
  let min_tail_w : Int := 520
  let min_tail_h : Int := 380
  let server :=
    if server.next_view_x = 0 ∧ server.next_view_y = 0 then
      { server with next_view_x := base_x, next_view_y := base_y }
    else server
  let max_x := box.x + box.width - min_tail_w
  let max_y := box.y + box.height - min_tail_h
  let max_x := if max_x < base_x then base_x else max_x
  let max_y := if max_y < base_y then base_y else max_y
  let x := server.next_view_x
  let y := server.next_view_y
  let x := if x < box.x then box.x else x
  let y := if y < box.y then box.y else y
  let x := if x > max_x then max_x else x
  let y := if y > max_y then max_y else y
  let view := { view with x := x, y := y }
  let server :=
    { server with next_view_x := server.next_view_x + step_x,
                  next_view_y := server.next_view_y + step_y }
  let server :=
    if server.next_view_x > max_x ∨ server.next_view_y > max_y then
      { server with next_view_x := base_x, next_view_y := base_y }
    else server
  (server, view)

/-- What `apply_window_transform` hands to the scene graph for one frame of a
running transition: the center it positions the frame around, the clamped
scale and opacity, and the sizes and positions derived from them. -/
structure window_transform where
  center_x : ℚ
  center_y : ℚ
  scale : ℚ
  alpha : ℚ
  scaled_w : Int
  scaled_h : Int
  frame_x : Int
  frame_y : Int
  border : Int
  title_h : Int
  body_h : Int
  right_x : Int
  bottom_y : Int
  content_x : Int
  content_y : Int
  btn_w : Int
  btn_h : Int
  btn_x : Int
  btn_y : Int

/-- The function `apply_window_transform`, on exact values: the numbers it
passes to the scene graph. -/
def apply_window_transform (view : flux_view) (center_x center_y scale alpha : ℚ) :
    window_transform :=
  let scale := clampf scale MINIMIZE_ANIMATION_MIN_SCALE 1
  let alpha := clampf alpha (15 / 100) 1
  let scaled_w := lround ((view.width : ℚ) * scale)
  let scaled_h := lround ((view.height : ℚ) * scale)
  let scaled_w := if scaled_w < 1 then 1 else scaled_w
  let scaled_h := if scaled_h < 1 then 1 else scaled_h
  let frame_x := lround (center_x - (scaled_w : ℚ) / 2)
  let frame_y := lround (center_y - (scaled_h : ℚ) / 2)
  let border := lround ((BORDER_PX : ℚ) * scale)
  let title_h := lround ((TITLEBAR_PX : ℚ) * scale)
  let border := if border < 1 then 1 else border
  let title_h := if title_h < 1 then 1 else title_h
  let body_h := scaled_h - title_h
  let body_h := if body_h < 1 then 1 else body_h
  let right_x := scaled_w - border
  let right_x := if right_x < 0 then 0 else right_x
  let bottom_y := scaled_h - border
  let bottom_y := if bottom_y < 0 then 0 else bottom_y
  let content_x := lround ((view.content_x : ℚ) * scale)
  let content_y := lround ((view.content_y : ℚ) * scale)
  let btn_w := lround ((BTN_W : ℚ) * scale)
  let btn_h := lround ((BTN_H : ℚ) * scale)
  let btn_pad := lround ((BTN_PAD : ℚ) * scale)
  let btn_w := if btn_w < 1 then 1 else btn_w
  let btn_h := if btn_h < 1 then 1 else btn_h
  let btn_pad := if btn_pad < 1 then 1 else btn_pad
  let btn_x := scaled_w - border - btn_w - btn_pad
  let btn_y := Int.tdiv (title_h - btn_h) 2
  let btn_x := if btn_x < border then border else btn_x
  let btn_y := if btn_y < 0 then 0 else btn_y
  { center_x := center_x, center_y := center_y, scale := scale, alpha := alpha,
    scaled_w := scaled_w, scaled_h := scaled_h, frame_x := frame_x, frame_y := frame_y,
    border := border, title_h := title_h, body_h := body_h,
    right_x := right_x, bottom_y := bottom_y,
    content_x := content_x, content_y := content_y,
    btn_w := btn_w, btn_h := btn_h, btn_x := btn_x, btn_y := btn_y }

/-- The eased progress computed in `apply_running_animation_state`. -/
def eased_progress (progress : ℚ) : ℚ :=
  let progress := clampf progress 0 1
  progress * progress * (3 - 2 * progress)

/-- The function `apply_running_animation_state`, on exact values. -/
def apply_running_animation_state (view : flux_view) (progress : ℚ) : window_transform :=
  let eased := eased_progress progress
  let cx := view.anim_from_cx + (view.anim_to_cx - view.anim_from_cx) * eased
  let cy := view.anim_from_cy + (view.anim_to_cy - view.anim_from_cy) * eased
  let scale := view.anim_from_scale + (view.anim_to_scale - view.anim_from_scale) * eased
  let alpha := view.anim_from_alpha + (view.anim_to_alpha - view.anim_from_alpha) * eased
  apply_window_transform view cx cy scale alpha

/-- The function `reset_window_animation_state`: the fields of the view it
writes, through `view_update_geometry`. -/
def reset_window_animation_state (view : flux_view) : flux_view :=
  view_update_geometry view

/-- The macro `MINIMIZE_ANIMATION_DURATION_MS`. -/
def MINIMIZE_ANIMATION_DURATION_MS : Nat := 180

/-- The macro `RESTORE_ANIMATION_DURATION_MS`. -/
def RESTORE_ANIMATION_DURATION_MS : Nat := 180

/-- The subtraction `a - b` of two `uint32_t` values. -/
def uint32_sub (a b : Nat) : Nat :=
  (a % 4294967296 + 4294967296 - b % 4294967296) % 4294967296

/-- The body of the loop of `view_tick_animations` for the view with address
`id`: the state after it and whether it sets `any_running`. The frame painted
by `apply_running_animation_state` lives in the scene graph. -/
def view_tick_animations_body (server : flux_server) (time_msec : Nat) (id : Nat) :
    flux_server × Bool :=
  match find_view server.views id with
  | none => (server, false)
  | some view =>
    if !view.mapped then (server, false)
    else if view.minimizing_animation then
      let elapsed := uint32_sub time_msec view.minimize_animation_start_msec
      let progress : ℚ := (elapsed : ℚ) / (MINIMIZE_ANIMATION_DURATION_MS : ℚ)
      if progress ≥ 1 then
        let view := { view with minimizing_animation := false }
        let view := reset_window_animation_state view
        let view := { view with minimized := true }
        let view := view_set_visible view false
        (taskbar_mark_dirty
          { server with views := update_view server.views id (fun _ => view) }, false)
      else (server, true)
    else if view.restoring_animation then
      let elapsed := uint32_sub time_msec view.restore_animation_start_msec
      let progress : ℚ := (elapsed : ℚ) / (RESTORE_ANIMATION_DURATION_MS : ℚ)
      if progress ≥ 1 then
        let view := { view with restoring_animation := false }
        let view := reset_window_animation_state view
        let server := { server with views := update_view server.views id (fun _ => view) }
        (focus_view server id view.surface, false)
      else (server, true)
    else (server, false)

/-- The loop of `view_tick_animations` over the views with the addresses
`ids`, with `any_running` carried along. -/
def view_tick_animations_loop (time_msec : Nat) :
    List Nat → flux_server × Bool → flux_server × Bool
  | [], acc => acc
  | id :: ids, acc =>
    let step := view_tick_animations_body acc.1 time_msec id
    view_tick_animations_loop time_msec ids (step.1, acc.2 || step.2)

/-- The function `view_tick_animations`: the state after the tick and the
returned `any_running`. Each view is handled once, in list order. When
`focus_view` raises a finished restore to the head of the list, the C loop
goes on from the old head and meets views it has handled already; at the same
timestamp the body changes nothing on a view the second time. -/
def view_tick_animations (server : flux_server) (time_msec : Nat) : flux_server × Bool :=
  view_tick_animations_loop time_msec (server.views.map (fun v => v.id)) (server, false)

/-! ## Client requests and mapping (`src/wm/xdg.c`) -/

/-- The enumeration `wlr_xdg_toplevel_decoration_v1_mode`. -/
inductive wlr_xdg_toplevel_decoration_v1_mode where
  | MODE_NONE
  | MODE_CLIENT_SIDE
  | MODE_SERVER_SIDE
deriving DecidableEq, Repr

/-- The function `choose_mode_for_view`. -/
def choose_mode_for_view (_view : flux_view) : wlr_xdg_toplevel_decoration_v1_mode :=
  wlr_xdg_toplevel_decoration_v1_mode.MODE_CLIENT_SIDE

/-- The function `apply_decoration_mode_to_view` for a non-null view: the
fields of the view it writes. The mode sent to the decoration object is a
reply to the client. -/
def apply_decoration_mode_to_view (view : flux_view) : flux_view :=
  let mode := choose_mode_for_view view
  let use_server : Bool := mode = wlr_xdg_toplevel_decoration_v1_mode.MODE_SERVER_SIDE
  view_set_server_decorations view use_server

/-- The function `new_xdg_toplevel_notify` for a toplevel whose view is
allocated at address `id`: `surface` is its root surface, `tl` its strings,
`surface_width`, `surface_height` and `reported_geo` the state of the surface
at that moment. -/
def new_xdg_toplevel_notify (server : flux_server) (id surface : Nat)
    (tl : Option xdg_toplevel) (surface_width surface_height : Int) (reported_geo : wlr_box) :
    flux_server :=
  let view := { calloc_view id surface tl with
    surface_width := surface_width, surface_height := surface_height,
    reported_geo := reported_geo }
  let placed := place_new_view server view
  let server := placed.1
  let view := placed.2
  let view := { view with mapped := false, minimized := false,
                          use_server_decorations := false }
  let view := view_set_server_decorations view view.use_server_decorations
  let view := view_set_visible view false
  taskbar_mark_dirty { server with views := view :: server.views }

/-- The function `view_map_notify` for the view with address `id`. -/
def view_map_notify (server : flux_server) (id : Nat) : flux_server :=
  match find_view server.views id with
  | none => server
  | some view =>
    let view := apply_decoration_mode_to_view view
    let view := { view with mapped := true, minimized := false,
                            minimizing_animation := false, restoring_animation := false }
    let view := view_update_geometry view
    let view := view_set_visible view true
    let server := { server with views := update_view server.views id (fun _ => view) }
    let server := focus_view server id view.surface
    taskbar_mark_dirty server

/-- The fields of `struct wlr_xdg_toplevel_move_event` that the code reads;
`seat` is the seat client of the request, if any. -/
structure wlr_xdg_toplevel_move_event where
  seat : Option Nat
  serial : Nat
deriving DecidableEq, Repr

/-- The fields of `struct wlr_xdg_toplevel_resize_event` that the code reads. -/
structure wlr_xdg_toplevel_resize_event where
  seat : Option Nat
  serial : Nat
  edges : Nat
deriving DecidableEq, Repr

/-- The function `validate_interactive_request` for a non-null view.
`validate_serial surface serial` is `wlr_seat_validate_pointer_grab_serial` on
the seat of the server. -/
def validate_interactive_request (validate_serial : Nat → Nat → Bool) (view : flux_view)
    (seat_client : Option Nat) (serial : Nat) : Bool :=
  if seat_client.isNone then false
  else if !view.mapped || view.minimized || view.minimizing_animation ||
      view.restoring_animation then false
  else validate_serial view.surface serial

/-- The function `view_request_move_notify` for the view with address `id`. -/
def view_request_move_notify (validate_serial : Nat → Nat → Bool) (server : flux_server)
    (id : Nat) (event : wlr_xdg_toplevel_move_event) : flux_server :=
  match find_view server.views id with
  | none => server
  | some view =>
    if !validate_interactive_request validate_serial view event.seat event.serial then server
    else
      let server := focus_view server id view.surface
      { server with cursor_mode := CURSOR_MOVE,
                    grabbed_view := some id,
                    interactive_grab_from_client := true,
                    grab_x := double_sub server.cursor_x (view.x : ℚ),
                    grab_y := double_sub server.cursor_y (view.y : ℚ),
                    suppress_button_until_release := true }

/-- The function `view_request_resize_notify` for the view with address `id`. -/
def view_request_resize_notify (validate_serial : Nat → Nat → Bool) (server : flux_server)
    (id : Nat) (event : wlr_xdg_toplevel_resize_event) : flux_server :=
  match find_view server.views id with
  | none => server
  | some view =>
    if !validate_interactive_request validate_serial view event.seat event.serial then server
    else if event.edges = WLR_EDGE_NONE then server
    else
      let server := focus_view server id view.surface
      { server with cursor_mode := CURSOR_RESIZE,
                    grabbed_view := some id,
                    interactive_grab_from_client := true,
                    resize_edges := event.edges,
                    resize_init_x := view.x,
                    resize_init_y := view.y,
                    resize_init_width := view.width,
                    resize_init_height := view.height,
                    resize_cursor_start_x := server.cursor_x,
                    resize_cursor_start_y := server.cursor_y,
                    suppress_button_until_release := true }

/-! ## Button labels (`src/wm/taskbar.c`) -/

/-- The function `decoration_request_mode_notify` for the decoration of the
view with address `id`. -/
def decoration_request_mode_notify (server : flux_server) (id : Nat) : flux_server :=
  { server with views := update_view server.views id apply_decoration_mode_to_view }

/-- The function `xdg_decoration_new_toplevel_notify` for a decoration of the
view with address `id`. The decoration object and its listeners live in
wlroots. -/
def xdg_decoration_new_toplevel_notify (server : flux_server) (id : Nat) : flux_server :=
  { server with views := update_view server.views id apply_decoration_mode_to_view }

/-- The function `view_set_title_notify`. -/
def view_set_title_notify (server : flux_server) (_id : Nat) : flux_server :=
  taskbar_mark_dirty server

/-- The function `view_set_app_id_notify` for the view with address `id`. -/
def view_set_app_id_notify (server : flux_server) (id : Nat) : flux_server :=
  taskbar_mark_dirty
    { server with views := update_view server.views id apply_decoration_mode_to_view }

/-- The function `view_commit_notify` for the view with address `id`: the
fields of the view it writes. The configure it schedules for an unmapped
surface is a reply to the client. -/
def view_commit_notify (server : flux_server) (id : Nat) : flux_server :=
  { server with views := update_view server.views id (fun view =>
      if !view.mapped then view
      else if view.minimized || view.minimizing_animation || view.restoring_animation then view
      else view_update_geometry view) }

/-! ## Vocabulary for statements and proofs

Named parts of the loops above and observations on the state, used to state
lemmas. None of them is called by the embedded code. -/

/-- The width that the packing loops of `taskbar_update` and
`taskbar_predict_button_box` give a button at `cursor_x`: the title width cut
to the remaining room. -/
def packed_width (box : wlr_box) (cursor_x : Int) (view : flux_view) : Int :=
  min (taskbar_button_width_for_title (view_display_title view))
    (box.width - TASKBAR_MARGIN - cursor_x)

/-- The slot fields that the loop of `taskbar_update` writes to a placed view
(taskbar.c lines 454-458). -/
def place_slot (box : wlr_box) (bar_y button_y button_h cursor_x : Int) (view : flux_view) :
    flux_view :=
  { view with taskbar_visible := true,
              taskbar_x := box.x + cursor_x,
              taskbar_y := bar_y + button_y,
              taskbar_width := packed_width box cursor_x view,
              taskbar_height := button_h }

/-- The slot that the view list publishes for the view with address `id`:
its four slot fields when it is marked `taskbar_visible`, else nothing. -/
def published_slot (views : List flux_view) (id : Nat) : Option wlr_box :=
  match find_view views id with
  | some v =>
    if v.taskbar_visible then
      some { x := v.taskbar_x, y := v.taskbar_y, width := v.taskbar_width,
             height := v.taskbar_height }
    else none
  | none => none

/-- The write `view->minimized = true`. -/
def set_minimized (view : flux_view) : flux_view :=
  { view with minimized := true }

/-- The state `s` with only the `minimized` flag of the view with address `id`
set and the taskbar marked dirty. -/
def with_view_minimized (s : flux_server) (id : Nat) : flux_server :=
  { s with views := update_view s.views id set_minimized, taskbar_dirty := true }

/-- Two states agree on the grab bookkeeping and on the layout box: the
fields that motion handling reads and never writes. -/
def same_grab_state (a b : flux_server) : Prop :=
  a.cursor_mode = b.cursor_mode ∧ a.grabbed_view = b.grabbed_view ∧
  a.pressed_taskbar_view = b.pressed_taskbar_view ∧
  a.suppress_button_until_release = b.suppress_button_until_release ∧
  a.interactive_grab_from_client = b.interactive_grab_from_client ∧
  a.resize_edges = b.resize_edges ∧
  a.resize_init_x = b.resize_init_x ∧ a.resize_init_y = b.resize_init_y ∧
  a.resize_init_width = b.resize_init_width ∧ a.resize_init_height = b.resize_init_height ∧
  a.resize_cursor_start_x = b.resize_cursor_start_x ∧
  a.resize_cursor_start_y = b.resize_cursor_start_y ∧
  a.layout_box = b.layout_box

/-- The two tests of the loop of `view_at` that a view must pass before its
surfaces are looked at: it takes part in hit-testing and its frame rectangle
contains the point. -/
def view_at_accepts (view : flux_view) (lx ly : ℚ) : Prop :=
  ¬ ((!view.mapped || view.minimized || view.minimizing_animation ||
        view.restoring_animation) = true) ∧
  ¬ (lx < (view.x : ℚ) ∨ ly < (view.y : ℚ) ∨
      lx ≥ ((view.x + view.width : Int) : ℚ) ∨ ly ≥ ((view.y + view.height : Int) : ℚ))

/-! ## Concrete states

A desktop of 1280x720 with a server-decorated window `A` (content 640x480,
frame 644x510 at (100, 100)) and a minimized window `M`, and the pointer on
the bottom-right corner of `A`. -/

/-- The surface oracle of a desktop where the pointer is over no client
surface (only over decorations and background). -/
def no_surface : Nat → ℚ → ℚ → Option surface_hit := fun _ _ _ => none

/-- Window `A`: mapped, server-decorated, content 640x480. -/
def demo_view_A : flux_view :=
  { calloc_view 1 10 (some { title := some ['A'], app_id := none }) with
    mapped := true, visible := true, use_server_decorations := true,
    surface_width := 640, surface_height := 480,
    xdg_geo_width := 640, xdg_geo_height := 480,
    x := 100, y := 100, width := 644, height := 510, content_x := 2, content_y := 28 }

/-- Window `M`: mapped and minimized. -/
def demo_view_M : flux_view :=
  { calloc_view 2 20 (some { title := some ['t', 'e', 'r', 'm'], app_id := none }) with
    mapped := true, minimized := true, use_server_decorations := true,
    surface_width := 640, surface_height := 480,
    xdg_geo_width := 640, xdg_geo_height := 480,
    x := 200, y := 150, width := 644, height := 510, content_x := 2, content_y := 28 }

/-- A client-decorated window of 20x20. -/
def demo_view_small : flux_view :=
  { calloc_view 3 30 none with
    mapped := true, visible := true, width := 20, height := 20,
    surface_width := 20, surface_height := 20, xdg_geo_width := 20, xdg_geo_height := 20 }

/-- A view record of 1x1. -/
def demo_view_unit : flux_view :=
  { calloc_view 4 40 none with
    width := 1, height := 1 }

/-- The desktop before the first taskbar recompute (`taskbar_init` has run). -/
def demo_server_base : flux_server :=
  { views := [demo_view_A, demo_view_M],
    layout_box := { x := 0, y := 0, width := 1280, height := 720 },
    taskbar_tree := true, taskbar_bg_rect := true, taskbar_enabled := false,
    keyboard := some 0, focused_surface := none, call_log := [],
    cursor_x := 741, cursor_y := 607, keybind_mod_mask := 64,
    cursor_mode := CURSOR_PASSTHROUGH, grabbed_view := none, pressed_taskbar_view := none,
    resize_edges := 0, resize_init_x := 0, resize_init_y := 0,
    resize_init_width := 0, resize_init_height := 0,
    resize_cursor_start_x := 0, resize_cursor_start_y := 0, grab_x := 0, grab_y := 0,
    suppress_button_until_release := false, interactive_grab_from_client := false,
    next_view_x := 0, next_view_y := 0,
    taskbar_layout_x := 0, taskbar_layout_y := 0,
    taskbar_layout_width := -1, taskbar_layout_height := -1, taskbar_dirty := true }

/-- The idle desktop after the taskbar recompute: `M` has its slot. -/
def demo_server : flux_server := taskbar_update demo_server_base

/-- Minimized window `B`, with a title of 18 characters. -/
def demo_view_B : flux_view :=
  { demo_view_M with
    id := 5, surface := 50,
    toplevel := some { title := some ['e', 'd', 'i', 't', 'o', 'r', ' ', '-', ' ', 'n', 'o',
                                      't', 'e', 's', '.', 't', 'x', 't'],
                       app_id := none } }

/-- Minimized window `C`. -/
def demo_view_C : flux_view :=
  { demo_view_M with
    id := 6, surface := 60 }

/-- A desktop whose focus stack is the two minimized windows `[B, C]`. -/
def demo_server_two : flux_server :=
  { demo_server_base with views := [demo_view_B, demo_view_C] }

/-- A press of the left button. -/
def press_left : wlr_pointer_button_event :=
  { time_msec := 0, button := BTN_LEFT, state := wl_pointer_button_state.PRESSED }

/-- A press of the right button (`BTN_RIGHT`, 0x111). -/
def press_right : wlr_pointer_button_event :=
  { time_msec := 2, button := 273, state := wl_pointer_button_state.PRESSED }

/-- A release of the left button. -/
def release_left : wlr_pointer_button_event :=
  { time_msec := 4, button := BTN_LEFT, state := wl_pointer_button_state.RELEASED }

/-- The desktop after a left press on the bottom-right corner of `A`: a resize
grab of `A`. -/
def demo_resizing : flux_server :=
  cursor_button_notify no_surface demo_server press_left

/-- A resize grab of `A` by its top-left corner. -/
def demo_resizing_left : flux_server :=
  { demo_resizing with resize_edges := WLR_EDGE_LEFT ||| WLR_EDGE_TOP }

/-! ## Vocabulary and concrete states for transitions and client requests -/

/-- At most one of the flags `minimized`, `minimizing_animation` and
`restoring_animation` is set on the view. -/
def at_most_one_transition_flag (v : flux_view) : Prop :=
  ¬ (v.minimized = true ∧ v.minimizing_animation = true) ∧
  ¬ (v.minimized = true ∧ v.restoring_animation = true) ∧
  ¬ (v.minimizing_animation = true ∧ v.restoring_animation = true)

instance (v : flux_view) : Decidable (at_most_one_transition_flag v) := by
  unfold at_most_one_transition_flag
  infer_instance

/-- The tween values that a transition start leaves on a view: one end of
the scale is 1 and the other lies in [0.12, 0.35]; one end of the opacity is 1
and the other is 0.35. -/
def tween_set_by_start (v : flux_view) : Prop :=
  (v.anim_from_scale = 1 ∧ 12 / 100 ≤ v.anim_to_scale ∧ v.anim_to_scale ≤ 35 / 100 ∧
    v.anim_from_alpha = 1 ∧ v.anim_to_alpha = 35 / 100) ∨
  (v.anim_to_scale = 1 ∧ 12 / 100 ≤ v.anim_from_scale ∧ v.anim_from_scale ≤ 35 / 100 ∧
    v.anim_to_alpha = 1 ∧ v.anim_from_alpha = 35 / 100)

/-- An event in the life of the views: a new toplevel, the map and unmap of a
view, the start of a minimize or of a restore, and a frame tick. -/
inductive lifecycle_event where
  | create (id surface : Nat) (tl : Option xdg_toplevel) (surface_width surface_height : Int)
      (reported_geo : wlr_box)
  | map (id : Nat)
  | unmap (id : Nat)
  | begin_minimize (id time_msec : Nat)
  | begin_restore (id time_msec : Nat)
  | tick (time_msec : Nat)

/-- One lifecycle event handled by the function registered or called for it. -/
def handle_lifecycle_event (server : flux_server) : lifecycle_event → flux_server
  | lifecycle_event.create id surface tl w h geo =>
    new_xdg_toplevel_notify server id surface tl w h geo
  | lifecycle_event.map id => view_map_notify server id
  | lifecycle_event.unmap id => view_unmap_notify server id
  | lifecycle_event.begin_minimize id t => view_begin_minimize_animation server id t
  | lifecycle_event.begin_restore id t => view_begin_restore_animation server id t
  | lifecycle_event.tick t => (view_tick_animations server t).1

/-- A sequence of lifecycle events handled in order. -/
def run_lifecycle_events (server : flux_server) (events : List lifecycle_event) :
    flux_server :=
  events.foldl handle_lifecycle_event server

/-- Whether a logged call is `wlr_seat_pointer_notify_button`. -/
def is_pointer_notify_button : wlr_call → Bool
  | wlr_call.pointer_notify_button _ _ _ => true
  | _ => false

/-- The button events forwarded to clients so far, oldest first. -/
def forwarded_buttons (server : flux_server) : List wlr_call :=
  server.call_log.filter is_pointer_notify_button

/-- The desktop `[B, C]` after a recompute has given both their slots and `B`
has then been destroyed: the taskbar is dirty and `C` still carries the slot
to the right of where `B` was. -/
def demo_server_stale : flux_server :=
  view_destroy_notify (taskbar_update demo_server_two) 5

/-- The idle desktop after `A` has begun to minimize at time 100. -/
def demo_minimizing : flux_server := view_begin_minimize_animation demo_server 1 100

/-- Window `A` as the start of its minimize at time 100 leaves it: the tween
runs from its center (422, 355) to the center (61, 705) of the first taskbar
slot. -/
def demo_view_A_minimizing : flux_view :=
  { demo_view_A with
    minimizing_animation := true, minimize_animation_start_msec := 100,
    anim_from_cx := 422, anim_from_cy := 355, anim_to_cx := 61, anim_to_cy := 705,
    anim_from_scale := 1, anim_to_scale := 12 / 100,
    anim_from_alpha := 1, anim_to_alpha := 35 / 100 }

/-- A desktop without windows. -/
def demo_server_empty : flux_server :=
  { demo_server_base with views := [] }

/-- A window is created, mapped, minimized, ticked to the end of the
transition, restored, ticked again and unmapped. -/
def demo_lifecycle : List lifecycle_event :=
  [lifecycle_event.create 7 70 none 300 200 ⟨0, 0, 0, 0⟩,
   lifecycle_event.map 7,
   lifecycle_event.begin_minimize 7 100,
   lifecycle_event.tick 150,
   lifecycle_event.tick 300,
   lifecycle_event.begin_restore 7 400,
   lifecycle_event.tick 500,
   lifecycle_event.tick 700,
   lifecycle_event.unmap 7]

/-- A serial check that accepts every serial. -/
def accept_serial : Nat → Nat → Bool := fun _ _ => true

/-- A move request of the client of `A`. -/
def demo_move_request : wlr_xdg_toplevel_move_event :=
  { seat := some 0, serial := 5 }

/-- Window `M` as the taskbar recompute of the idle desktop leaves it: shown
in the first slot. -/
def demo_view_M_slot : flux_view :=
  { demo_view_M with
    taskbar_visible := true, taskbar_x := 6, taskbar_y := 694,
    taskbar_width := 110, taskbar_height := 22 }

/-- A window is created, mapped, minimized, ticked to the end of the
transition, restored, ticked again and unmapped, while `A` starts to
minimize. -/
def demo_lifecycle_on_desktop : List lifecycle_event :=
  lifecycle_event.begin_minimize 1 50 :: demo_lifecycle

/-! ## Vocabulary and concrete states for hit rings, grabs and decorations -/

/-- The view takes part in hit-testing and its frame rectangle, extended by
the outer grab pad on every side, contains the point: the two tests of the
loop of `view_frame_at`. -/
def view_frame_at_accepts (view : flux_view) (lx ly : ℚ) : Bool :=
  view.mapped && !view.minimized && !view.minimizing_animation &&
    !view.restoring_animation &&
  decide (((view.x - view_outer_grab_pad view : Int) : ℚ) ≤ lx ∧
    ((view.y - view_outer_grab_pad view : Int) : ℚ) ≤ ly ∧
    lx < ((view.x + view.width + view_outer_grab_pad view : Int) : ℚ) ∧
    ly < ((view.y + view.height + view_outer_grab_pad view : Int) : ℚ))

/-- The point lies in the frame rectangle of the view. -/
def in_frame_rect (view : flux_view) (lx ly : ℚ) : Prop :=
  (view.x : ℚ) ≤ lx ∧ lx < ((view.x + view.width : Int) : ℚ) ∧
  (view.y : ℚ) ≤ ly ∧ ly < ((view.y + view.height : Int) : ℚ)

/-- The ring of width `k` along the edges of the frame: the local point is
within `k` of the left, right, top or bottom edge. -/
def in_ring (view : flux_view) (k : Int) (lx ly : ℚ) : Prop :=
  lx - (view.x : ℚ) < (k : ℚ) ∨ lx - (view.x : ℚ) ≥ ((view.width - k : Int) : ℚ) ∨
  ly - (view.y : ℚ) < (k : ℚ) ∨ ly - (view.y : ℚ) ≥ ((view.height - k : Int) : ℚ)

/-- Grab mode and grab reference are in step: the mode is idle exactly when
no view is grabbed. -/
def grab_in_step (s : flux_server) : Prop :=
  s.cursor_mode = CURSOR_PASSTHROUGH ↔ s.grabbed_view = none

/-- Every view of the state is client-decorated. -/
def all_client_decorated (s : flux_server) : Prop :=
  ∀ v ∈ s.views, v.use_server_decorations = false

/-- An event handled by the compositor: a pointer event, a lifecycle event, a
move or resize request of a client, a new decoration object or a mode request
on it, a new app id or title, a surface commit with the surface state it
carries, the destruction of a view, or the taskbar update of an output
frame. -/
inductive flux_event where
  | pointer (event : pointer_event)
  | lifecycle (event : lifecycle_event)
  | request_move (id : Nat) (event : wlr_xdg_toplevel_move_event)
  | request_resize (id : Nat) (event : wlr_xdg_toplevel_resize_event)
  | decoration_new_toplevel (id : Nat)
  | decoration_request_mode (id : Nat)
  | set_app_id (id : Nat) (app_id : Option CString)
  | set_title (id : Nat) (title : Option CString)
  | commit (id : Nat) (surface_width surface_height : Int) (reported_geo : wlr_box)
  | destroy (id : Nat)
  | taskbar_frame

/-- The toplevel strings of a view with the app id replaced, as wlroots stores
them before it emits `set_app_id`. -/
def with_app_id (app_id : Option CString) (view : flux_view) : flux_view :=
  { view with toplevel := view.toplevel.map (fun tl => { tl with app_id := app_id }) }

/-- The toplevel strings of a view with the title replaced, as wlroots stores
them before it emits `set_title`. -/
def with_title (title : Option CString) (view : flux_view) : flux_view :=
  { view with toplevel := view.toplevel.map (fun tl => { tl with title := title }) }

/-- One event handled by the function registered for it. -/
def handle_flux_event (surface_at : Nat → ℚ → ℚ → Option surface_hit)
    (validate_serial : Nat → Nat → Bool) (server : flux_server) : flux_event → flux_server
  | flux_event.pointer event => handle_pointer_event surface_at server event
  | flux_event.lifecycle event => handle_lifecycle_event server event
  | flux_event.request_move id event => view_request_move_notify validate_serial server id event
  | flux_event.request_resize id event =>
    view_request_resize_notify validate_serial server id event
  | flux_event.decoration_new_toplevel id => xdg_decoration_new_toplevel_notify server id
  | flux_event.decoration_request_mode id => decoration_request_mode_notify server id
  | flux_event.set_app_id id app_id =>
    view_set_app_id_notify
      { server with views := update_view server.views id (with_app_id app_id) } id
  | flux_event.set_title id title =>
    view_set_title_notify
      { server with views := update_view server.views id (with_title title) } id
  | flux_event.commit id w h geo =>
    view_commit_notify
      { server with views := update_view server.views id (fun view =>
          { view with surface_width := w, surface_height := h, reported_geo := geo }) } id
  | flux_event.destroy id => view_destroy_notify server id
  | flux_event.taskbar_frame => taskbar_update server

/-- A sequence of events handled in arrival order. -/
def run_flux_events (surface_at : Nat → ℚ → ℚ → Option surface_hit)
    (validate_serial : Nat → Nat → Bool) (server : flux_server) (events : List flux_event) :
    flux_server :=
  events.foldl (handle_flux_event surface_at validate_serial) server

/-- A sequence of relative pointer motions `(delta_x, delta_y, time_msec)`
handled in arrival order. -/
def run_motions (surface_at : Nat → ℚ → ℚ → Option surface_hit) (server : flux_server)
    (motions : List (ℚ × ℚ × Nat)) : flux_server :=
  motions.foldl (fun s m => cursor_motion_notify surface_at s m.1 m.2.1 m.2.2) server

/-- The surface oracle of a desktop where window 8 has one surface, 80, that
covers its content rectangle of 300x200. -/
def surface_of_D : Nat → ℚ → ℚ → Option surface_hit := fun id x y =>
  if id = 8 ∧ 0 ≤ x ∧ x < 300 ∧ 0 ≤ y ∧ y < 200 then some { surface := 80, sx := x, sy := y }
  else none

/-- The events that bring up the client-decorated window `D` (address 8,
content 300x200, placed at (48, 40)) on the empty desktop and move the pointer
from (741, 607) to (343, 100), five pixels inside its right edge. -/
def demo_trace_D : List flux_event :=
  [flux_event.lifecycle (lifecycle_event.create 8 80
     (some { title := some ['D'], app_id := none }) 300 200 ⟨0, 0, 0, 0⟩),
   flux_event.lifecycle (lifecycle_event.map 8),
   flux_event.pointer (pointer_event.motion (-398) (-507) 1)]

/-- The idle desktop with the client-decorated window `D` and the pointer five
pixels inside its right edge. -/
def demo_server_D : flux_server :=
  run_flux_events surface_of_D accept_serial demo_server_empty demo_trace_D

/-! ## Vocabulary: startup, delivered events and the taskbar layout of the specification -/

/-- Spec-side definition: the number of characters of the title on the
taskbar button of a view, which is the title of its toplevel if that is not
empty, else its app id if that is not empty, else the three characters of
`APP`. -/
def spec_title_length (view : flux_view) : Int :=
  match view.toplevel with
  | none => 3
  | some tl =>
    match tl.title with
    | some (c :: title) => ((c :: title).length : Int)
    | _ =>
      match tl.app_id with
      | some (c :: app_id) => ((c :: app_id).length : Int)
      | _ => 3

/-- Spec-side definition: the greedy left-to-right packing of a bar of width
`W` at `bx`. `buttons` holds the address and the title length of each mapped
minimized view in focus-stack order and `cursor_x` is the running offset; the
result holds the address, the x position and the width of each placed button.
A button is `min (clamp (6 * n - 1 + 16) 110 240) remaining` wide, buttons are
6 apart, and packing stops at the first button for which less than 110 is
left. -/
def spec_greedy_slots (bx W : Int) : Int → List (Nat × Int) → List (Nat × Int × Int)
  | _, [] => []
  | cursor_x, (id, n) :: buttons =>
    if W - 6 - cursor_x < 110 then []
    else
      (id, bx + cursor_x, min (min (max (6 * n - 1 + 16) 110) 240) (W - 6 - cursor_x)) ::
        spec_greedy_slots bx W
          (cursor_x + min (min (max (6 * n - 1 + 16) 110) 240) (W - 6 - cursor_x) + 6) buttons

/-- The surface oracle of a desktop where window 9 has one surface, 90, that
covers its content rectangle of 300x200. -/
def surface_of_F : Nat → ℚ → ℚ → Option surface_hit := fun id x y =>
  if id = 9 ∧ 0 ≤ x ∧ x < 300 ∧ 0 ≤ y ∧ y < 200 then some { surface := 90, sx := x, sy := y }
  else none

/-- The events that bring up the client-decorated terminal `F` (address 9, app
id `foot`, content 300x200, placed at (48, 40)) on the empty desktop, drag it
by its top strip from (148, 60) to (48, 60), which leaves it at (-52, 40),
move the pointer on to `(12 + 3 / 2 ^ 49, 60)` and press the left button on
the top strip again. Every pointer position of the trace is a binary64
value. -/
def demo_trace_F : List flux_event :=
  [flux_event.lifecycle (lifecycle_event.create 9 90
     (some { title := some ['f', 'o', 'o', 't'], app_id := some ['f', 'o', 'o', 't'] })
     300 200 ⟨0, 0, 0, 0⟩),
   flux_event.lifecycle (lifecycle_event.map 9),
   flux_event.pointer (pointer_event.motion (-593) (-547) 1),
   flux_event.pointer (pointer_event.button press_left),
   flux_event.pointer (pointer_event.motion (-100) 0 2),
   flux_event.pointer (pointer_event.button release_left),
   flux_event.pointer (pointer_event.motion (-36) 0 5),
   flux_event.pointer (pointer_event.motion (3 / 562949953421312) 0 6),
   flux_event.pointer (pointer_event.button press_left)]

/-- The desktop at the start of the second move grab of `F`: `F` is at
(-52, 40) and the pointer at `(12 + 3 / 2 ^ 49, 60)`. -/
def demo_server_F : flux_server :=
  run_flux_events surface_of_F accept_serial demo_server_empty demo_trace_F
/-! ## Theorems: hit margins -/

theorem clamp_hit_margin_eq (view : flux_view) (margin : Int) :
    clamp_hit_margin view margin =
      max 1 (min (min margin (Int.tdiv view.width 2)) (Int.tdiv view.height 2)) := by
  unfold clamp_hit_margin
  simp only []
  split_ifs <;> omega

theorem tdiv_two_ge_one {w : Int} (h : 2 ≤ w) : 1 ≤ Int.tdiv w 2 := by
  rw [Int.tdiv_eq_ediv (by omega) (by omega)]
  omega

theorem resize_margin_base (view : flux_view) :
    ∃ b : Int, 6 ≤ b ∧ b ≤ 16 ∧ view_resize_hit_margin view = clamp_hit_margin view b := by
  unfold view_resize_hit_margin view_border_px BORDER_PX
  cases view.use_server_decorations <;> simp
  · split_ifs
    · exact ⟨16, by omega, by omega, rfl⟩
    · exact ⟨14, by omega, by omega, rfl⟩
  · exact ⟨6, by omega, by omega, rfl⟩

/-- Claim C6, amended. For every view the resize margin is at least 1, and
for every view with width at least 2 and height at least 2 it is at most
`min(width / 2, height / 2)` with C integer division. -/
theorem C6_resize_margin_amended (view : flux_view) :
    1 ≤ view_resize_hit_margin view ∧
    (2 ≤ view.width → 2 ≤ view.height →
      view_resize_hit_margin view ≤ min (Int.tdiv view.width 2) (Int.tdiv view.height 2)) := by
  obtain ⟨b, hb1, hb2, hb⟩ := resize_margin_base view
  rw [hb, clamp_hit_margin_eq]
  refine ⟨by omega, fun hw hh => ?_⟩
  have := tdiv_two_ge_one hw
  have := tdiv_two_ge_one hh
  omega

theorem C6_resize_margin_amended_witness :
    view_resize_hit_margin demo_view_A ≤
      min (Int.tdiv demo_view_A.width 2) (Int.tdiv demo_view_A.height 2) :=
  (C6_resize_margin_amended demo_view_A).2 (by decide) (by decide)

/-- Claim C6 as stated fails: for a view of 1x1 the resize margin is 1 while
`min(width / 2, height / 2)` is 0. -/
theorem C6_resize_margin_counterexample :
    view_resize_hit_margin demo_view_unit = 1 ∧
    min (Int.tdiv demo_view_unit.width 2) (Int.tdiv demo_view_unit.height 2) = 0 ∧
    ¬ (1 ≤ view_resize_hit_margin demo_view_unit ∧
       view_resize_hit_margin demo_view_unit ≤
         min (Int.tdiv demo_view_unit.width 2) (Int.tdiv demo_view_unit.height 2)) := by
  decide

/-- Claim C5, amended. For every view whose half width and half height
(C integer division) both exceed its resize margin, the move margin is
strictly greater than the resize margin after all clamping; for every other
view the final clamp to half the size wins and the two margins are equal. -/
theorem C5_move_margin_amended (view : flux_view) :
    (view_resize_hit_margin view < min (Int.tdiv view.width 2) (Int.tdiv view.height 2) →
      view_move_border_margin view > view_resize_hit_margin view) ∧
    (¬ view_resize_hit_margin view < min (Int.tdiv view.width 2) (Int.tdiv view.height 2) →
      view_move_border_margin view = view_resize_hit_margin view) := by
  obtain ⟨b, hb1, hb2, hb⟩ := resize_margin_base view
  have hm : ∃ c : Int, 12 ≤ c ∧ view_move_border_margin view =
      clamp_hit_margin view (if clamp_hit_margin view c ≤ view_resize_hit_margin view
        then view_resize_hit_margin view + 1 else clamp_hit_margin view c) := by
    unfold view_move_border_margin view_border_px BORDER_PX
    cases view.use_server_decorations <;> simp
    · exact ⟨40, by omega, rfl⟩
    · exact ⟨12, by omega, rfl⟩
  obtain ⟨c, hc, hm⟩ := hm
  rw [hm, hb]
  simp only [clamp_hit_margin_eq]
  generalize Int.tdiv view.width 2 = hw
  generalize Int.tdiv view.height 2 = hh
  split_ifs <;> omega

theorem C5_move_margin_amended_witness :
    view_move_border_margin demo_view_A > view_resize_hit_margin demo_view_A ∧
    view_move_border_margin demo_view_small = view_resize_hit_margin demo_view_small :=
  ⟨(C5_move_margin_amended demo_view_A).1 (by decide),
   (C5_move_margin_amended demo_view_small).2 (by decide)⟩

/-- Claim C5 as stated fails: a client-decorated view of 20x20 has resize
margin 10 and move margin 10. -/
theorem C5_move_margin_counterexample :
    view_resize_hit_margin demo_view_small = 10 ∧
    view_move_border_margin demo_view_small = 10 ∧
    ¬ (view_move_border_margin demo_view_small > view_resize_hit_margin demo_view_small) := by
  decide

/-- Claim C4. Resize and move hit regions are disjoint: for every view and
every point it is never the case that `view_resize_edges_at` returns a
non-empty edge mask and `view_point_in_frame_border` returns true. -/
theorem C4_resize_move_regions_disjoint (view : flux_view) (lx ly : ℚ) :
    ¬ (view_resize_edges_at view lx ly ≠ WLR_EDGE_NONE ∧
       view_point_in_frame_border view lx ly = true) := by
  rintro ⟨h1, h2⟩
  apply h1
  unfold view_point_in_frame_border at h2
  simp only [] at h2
  split_ifs at h2 with ha hb
  simp only [Bool.not_eq_true', decide_eq_false_iff_not, not_or, not_lt, Bool.not_eq_eq_eq_not, Bool.not_true] at h2
  obtain ⟨r1, r2, r3, r4⟩ := h2
  unfold view_resize_edges_at
  simp only []
  split_ifs with hc e1 e2 e3 e4 <;>
    first
    | rfl
    | (exfalso
       simp only [decide_eq_true_eq] at *
       first
       | contradiction
       | linarith)

/-! ## Theorems: taskbar packing -/

theorem packed_width_ite (box : wlr_box) (cx : Int) (view : flux_view) :
    (if taskbar_button_width_for_title (view_display_title view) >
        box.width - TASKBAR_MARGIN - cx then box.width - TASKBAR_MARGIN - cx
      else taskbar_button_width_for_title (view_display_title view)) = packed_width box cx view := by
  unfold packed_width
  split_ifs <;> omega

theorem update_loop_skip (box : wlr_box) (bar_y button_y button_h cx : Int) (shown : Nat)
    (view : flux_view) (rest : List flux_view) (h : ¬ (view.mapped = true ∧ view.minimized = true)) :
    taskbar_update_loop box bar_y button_y button_h cx shown (view :: rest) =
      (view :: (taskbar_update_loop box bar_y button_y button_h cx shown rest).1,
       (taskbar_update_loop box bar_y button_y button_h cx shown rest).2) := by
  rw [taskbar_update_loop]
  have : (!view.mapped || !view.minimized) = true := by
    cases hm : view.mapped <;> cases hn : view.minimized <;> simp_all
  simp [this]

theorem update_loop_break (box : wlr_box) (bar_y button_y button_h cx : Int) (shown : Nat)
    (view : flux_view) (rest : List flux_view) (h1 : view.mapped = true) (h2 : view.minimized = true)
    (h : box.width - TASKBAR_MARGIN - cx < TASKBAR_BUTTON_MIN_W) :
    taskbar_update_loop box bar_y button_y button_h cx shown (view :: rest) =
      (view :: rest, shown) := by
  rw [taskbar_update_loop]
  have hc : (!view.mapped || !view.minimized) = false := by simp [h1, h2]
  simp only [hc, h, Bool.false_eq_true, if_false, if_true]

theorem update_loop_place (box : wlr_box) (bar_y button_y button_h cx : Int) (shown : Nat)
    (view : flux_view) (rest : List flux_view) (h1 : view.mapped = true) (h2 : view.minimized = true)
    (h : ¬ box.width - TASKBAR_MARGIN - cx < TASKBAR_BUTTON_MIN_W) :
    taskbar_update_loop box bar_y button_y button_h cx shown (view :: rest) =
      (place_slot box bar_y button_y button_h cx view ::
        (taskbar_update_loop box bar_y button_y button_h
          (cx + packed_width box cx view + TASKBAR_MARGIN) (shown + 1) rest).1,
       (taskbar_update_loop box bar_y button_y button_h
          (cx + packed_width box cx view + TASKBAR_MARGIN) (shown + 1) rest).2) := by
  rw [taskbar_update_loop]
  have hw := packed_width_ite box cx view
  have hc : (!view.mapped || !view.minimized) = false := by simp [h1, h2]
  simp only [hc, h, Bool.false_eq_true, if_false, hw]
  rfl

theorem button_width_bounds (title : CString) :
    TASKBAR_BUTTON_MIN_W ≤ taskbar_button_width_for_title title ∧
    taskbar_button_width_for_title title ≤ TASKBAR_BUTTON_MAX_W := by
  unfold taskbar_button_width_for_title TASKBAR_BUTTON_MIN_W TASKBAR_BUTTON_MAX_W
  simp only []
  split_ifs <;> omega

theorem packed_width_bounds (box : wlr_box) (cx : Int) (view : flux_view)
    (h : ¬ box.width - TASKBAR_MARGIN - cx < TASKBAR_BUTTON_MIN_W) :
    TASKBAR_BUTTON_MIN_W ≤ packed_width box cx view ∧
    packed_width box cx view ≤ TASKBAR_BUTTON_MAX_W ∧
    cx + packed_width box cx view ≤ box.width - TASKBAR_MARGIN := by
  have := button_width_bounds (view_display_title view)
  unfold packed_width
  omega

theorem update_loop_visible_bounds (box : wlr_box) (bar_y button_y button_h : Int) :
    ∀ (l : List flux_view) (cx : Int) (shown : Nat),
      (∀ v ∈ l, v.taskbar_visible = false) →
      ∀ v ∈ (taskbar_update_loop box bar_y button_y button_h cx shown l).1,
        v.taskbar_visible = true →
        TASKBAR_BUTTON_MIN_W ≤ v.taskbar_width ∧ v.taskbar_width ≤ TASKBAR_BUTTON_MAX_W ∧
        v.taskbar_x + v.taskbar_width ≤ box.x + box.width - TASKBAR_MARGIN := by
  intro l
  induction l with
  | nil => intro cx shown _ v hv; simp [taskbar_update_loop] at hv
  | cons view rest ih =>
    intro cx shown hclr v hv hvis
    have hrest : ∀ v ∈ rest, v.taskbar_visible = false :=
      fun v hv => hclr v (List.mem_cons_of_mem _ hv)
    have hhead : view.taskbar_visible = false := hclr view (List.mem_cons_self _ _)
    by_cases hmm : view.mapped = true ∧ view.minimized = true
    · by_cases hrem : box.width - TASKBAR_MARGIN - cx < TASKBAR_BUTTON_MIN_W
      · rw [update_loop_break _ _ _ _ _ _ _ _ hmm.1 hmm.2 hrem] at hv
        have := hclr v hv
        simp [this] at hvis
      · rw [update_loop_place _ _ _ _ _ _ _ _ hmm.1 hmm.2 hrem] at hv
        rcases List.mem_cons.1 hv with rfl | hv
        · have := packed_width_bounds box cx view hrem
          simp only [place_slot]
          omega
        · exact ih _ _ hrest v hv hvis
    · rw [update_loop_skip _ _ _ _ _ _ _ _ hmm] at hv
      rcases List.mem_cons.1 hv with rfl | hv
      · simp [hhead] at hvis
      · exact ih _ _ hrest v hv hvis

theorem update_loop_pairwise (box : wlr_box) (bar_y button_y button_h : Int) :
    ∀ (l : List flux_view) (cx : Int) (shown : Nat),
      (∀ v ∈ l, v.taskbar_visible = false) →
      (taskbar_update_loop box bar_y button_y button_h cx shown l).1.Pairwise
        (fun a b => a.mapped = true → a.minimized = true → a.taskbar_visible = false →
          b.taskbar_visible = false) := by
  intro l
  induction l with
  | nil => intro cx shown _; simp [taskbar_update_loop]
  | cons view rest ih =>
    intro cx shown hclr
    have hrest : ∀ v ∈ rest, v.taskbar_visible = false :=
      fun v hv => hclr v (List.mem_cons_of_mem _ hv)
    by_cases hmm : view.mapped = true ∧ view.minimized = true
    · by_cases hrem : box.width - TASKBAR_MARGIN - cx < TASKBAR_BUTTON_MIN_W
      · rw [update_loop_break _ _ _ _ _ _ _ _ hmm.1 hmm.2 hrem]
        exact List.pairwise_of_forall_mem_list (fun a _ b hb _ _ _ => hclr b hb)
      · rw [update_loop_place _ _ _ _ _ _ _ _ hmm.1 hmm.2 hrem]
        refine List.Pairwise.cons ?_ (ih _ _ hrest)
        intro b _ _ _ h3
        simp [place_slot] at h3
    · rw [update_loop_skip _ _ _ _ _ _ _ _ hmm]
      refine List.Pairwise.cons ?_ (ih _ _ hrest)
      intro b _ h1 h2 _
      exact absurd ⟨h1, h2⟩ hmm

theorem clear_taskbar_view_state_visible (views : List flux_view) :
    ∀ v ∈ clear_taskbar_view_state views, v.taskbar_visible = false := by
  intro v hv
  unfold clear_taskbar_view_state at hv
  obtain ⟨w, _, rfl⟩ := List.mem_map.1 hv
  rfl

theorem taskbar_update_views (s : flux_server) (h1 : s.taskbar_tree = true)
    (h2 : s.taskbar_bg_rect = true) (h3 : s.taskbar_dirty = true)
    (hw : 0 < s.layout_box.width) (hh : 0 < s.layout_box.height) :
    (taskbar_update s).views =
      (taskbar_update_loop s.layout_box (s.layout_box.y + s.layout_box.height - 30) 4 22
        TASKBAR_MARGIN 0 (clear_taskbar_view_state s.views)).1 := by
  unfold taskbar_update
  have hb : ¬ (s.layout_box.width ≤ 0 ∨ s.layout_box.height ≤ 0) := by omega
  have e1 : taskbar_bar_height = 30 := by decide
  have e2 : TASKBAR_BUTTON_H = 22 := rfl
  have e3 : Int.tdiv (30 - 22) 2 = 4 := by decide
  simp only [h1, h2, Bool.not_true, Bool.or_self, Bool.false_eq_true, if_false, hb, e1, e2]
  have e4 : (if (22 : Int) > 30 - 4 then (30 : Int) - 4 else 22) = 22 := by decide
  have e5 : (if (22 : Int) < 10 then (30 : Int) else 22) = 22 := by decide
  simp only [e4, e5, e3]
  split_ifs with hc hd hd
  · simp at hd
  · rfl
  · simp [h3] at hd
  · rfl

theorem taskbar_update_views_empty (s : flux_server) (h1 : s.taskbar_tree = true)
    (h2 : s.taskbar_bg_rect = true)
    (hb : s.layout_box.width ≤ 0 ∨ s.layout_box.height ≤ 0) :
    (taskbar_update s).views = clear_taskbar_view_state s.views := by
  unfold taskbar_update
  simp only [h1, h2, Bool.not_true, Bool.or_self, Bool.false_eq_true, if_false, hb, if_true]

/-- Claim C7. Taskbar packing never overflows the bar. After a dirty
`taskbar_update` (taskbar scene nodes present) with layout box
`(bx, by, W, H)`, every view left with `taskbar_visible` has
`110 <= taskbar_width <= 240` and `taskbar_x + taskbar_width <= bx + W - 6`;
and once a mapped minimized view is not placed, no view after it in the focus
stack is placed. -/
theorem C7_taskbar_packing_no_overflow (s : flux_server) (h1 : s.taskbar_tree = true)
    (h2 : s.taskbar_bg_rect = true) (h3 : s.taskbar_dirty = true) :
    (∀ v ∈ (taskbar_update s).views, v.taskbar_visible = true →
      110 ≤ v.taskbar_width ∧ v.taskbar_width ≤ 240 ∧
      v.taskbar_x + v.taskbar_width ≤ s.layout_box.x + s.layout_box.width - 6) ∧
    (taskbar_update s).views.Pairwise
      (fun a b => a.mapped = true → a.minimized = true → a.taskbar_visible = false →
        b.taskbar_visible = false) := by
  by_cases hb : s.layout_box.width ≤ 0 ∨ s.layout_box.height ≤ 0
  · rw [taskbar_update_views_empty s h1 h2 hb]
    have hc := clear_taskbar_view_state_visible s.views
    refine ⟨fun v hv hvis => ?_, List.pairwise_of_forall_mem_list (fun a _ b hb _ _ _ => hc b hb)⟩
    simp [hc v hv] at hvis
  · rw [taskbar_update_views s h1 h2 h3 (by omega) (by omega)]
    exact ⟨update_loop_visible_bounds _ _ _ _ _ _ _ (clear_taskbar_view_state_visible _),
      update_loop_pairwise _ _ _ _ _ _ _ (clear_taskbar_view_state_visible _)⟩

theorem C7_taskbar_packing_no_overflow_witness :
    (∀ v ∈ (taskbar_update demo_server_base).views, v.taskbar_visible = true →
      110 ≤ v.taskbar_width ∧ v.taskbar_width ≤ 240 ∧
      v.taskbar_x + v.taskbar_width ≤
        demo_server_base.layout_box.x + demo_server_base.layout_box.width - 6) ∧
    (taskbar_update demo_server_base).views.Pairwise
      (fun a b => a.mapped = true → a.minimized = true → a.taskbar_visible = false →
        b.taskbar_visible = false) :=
  C7_taskbar_packing_no_overflow demo_server_base (by decide) (by decide) (by decide)

theorem find_view_cons_eq (view : flux_view) (rest : List flux_view) (id : Nat)
    (h : view.id = id) : find_view (view :: rest) id = some view := by
  simp [find_view, List.find?, h]

theorem find_view_cons_ne (view : flux_view) (rest : List flux_view) (id : Nat)
    (h : view.id ≠ id) : find_view (view :: rest) id = find_view rest id := by
  have hb : (view.id == id) = false := by simpa using h
  simp [find_view, List.find?, hb]

theorem find_view_mem {views : List flux_view} {id : Nat} {v : flux_view}
    (h : find_view views id = some v) : v ∈ views ∧ v.id = id := by
  unfold find_view at h
  exact ⟨List.mem_of_find?_eq_some h, by simpa using List.find?_some h⟩

theorem published_slot_cons_ne (view : flux_view) (rest : List flux_view) (id : Nat)
    (h : view.id ≠ id) : published_slot (view :: rest) id = published_slot rest id := by
  unfold published_slot
  rw [find_view_cons_ne _ _ _ h]

theorem published_slot_hidden (views : List flux_view) (id : Nat)
    (h : ∀ v ∈ views, v.taskbar_visible = false) : published_slot views id = none := by
  unfold published_slot
  cases hf : find_view views id with
  | none => rfl
  | some v => simp [h v (find_view_mem hf).1]

theorem predict_loop_no_room (box : wlr_box) (bar_y button_y button_h : Int) (target : Nat)
    (incl : Bool) (cx : Int) (h : box.width - TASKBAR_MARGIN - cx < TASKBAR_BUTTON_MIN_W) :
    ∀ l : List flux_view,
      taskbar_predict_loop box bar_y button_y button_h target incl cx l = none := by
  intro l
  induction l with
  | nil => rfl
  | cons view rest ih =>
    rw [taskbar_predict_loop]
    simp only [h, if_true, ih]
    split_ifs <;> rfl

theorem packed_width_congr (box : wlr_box) (cx : Int) (a b : flux_view)
    (h : a.toplevel = b.toplevel) : packed_width box cx a = packed_width box cx b := by
  unfold packed_width view_display_title
  rw [h]

theorem predict_loop_eq_published (box : wlr_box) (bar_y button_y button_h : Int) (t : Nat) :
    ∀ (l : List flux_view) (cx : Int) (shown : Nat),
      (∀ v ∈ l, v.id = t → v.mapped = true ∧ v.minimized = false) →
      taskbar_predict_loop box bar_y button_y button_h t true cx l =
        published_slot
          (taskbar_update_loop box bar_y button_y button_h cx shown
            (clear_taskbar_view_state (update_view l t set_minimized))).1 t := by
  intro l
  induction l with
  | nil => intro cx shown _; rfl
  | cons view rest ih =>
    intro cx shown H
    have Hrest : ∀ v ∈ rest, v.id = t → v.mapped = true ∧ v.minimized = false :=
      fun v hv => H v (List.mem_cons_of_mem _ hv)
    by_cases hid : view.id = t
    · obtain ⟨hm, hn⟩ := H view (List.mem_cons_self _ _) hid
      have hl : clear_taskbar_view_state (update_view (view :: rest) t set_minimized) =
          clear_taskbar_slot (set_minimized view) ::
            clear_taskbar_view_state (update_view rest t set_minimized) := by
        simp [clear_taskbar_view_state, update_view, hid]
      rw [hl, taskbar_predict_loop]
      have hin : (view.mapped && (view.minimized || (true && view.id == t && !view.minimized)))
          = true := by simp [hm, hn, hid]
      simp only [hin, Bool.not_true, Bool.false_eq_true, if_false, if_pos hid]
      by_cases hrem : box.width - TASKBAR_MARGIN - cx < TASKBAR_BUTTON_MIN_W
      · rw [update_loop_break _ _ _ _ _ _ (clear_taskbar_slot (set_minimized view)) _ hm rfl hrem]
        simp only [hrem, if_true]
        unfold published_slot
        rw [find_view_cons_eq (clear_taskbar_slot (set_minimized view)) _ t hid]
        rfl
      · rw [update_loop_place _ _ _ _ _ _ (clear_taskbar_slot (set_minimized view)) _ hm rfl hrem]
        simp only [hrem, if_false]
        unfold published_slot
        rw [find_view_cons_eq
          (place_slot box bar_y button_y button_h cx (clear_taskbar_slot (set_minimized view))) _ t hid]
        simp only [place_slot, if_true]
        have : packed_width box cx (clear_taskbar_slot (set_minimized view)) =
            packed_width box cx view := packed_width_congr _ _ _ _ rfl
        rw [this, packed_width_ite]
    · have hl : clear_taskbar_view_state (update_view (view :: rest) t set_minimized) =
          clear_taskbar_slot view ::
            clear_taskbar_view_state (update_view rest t set_minimized) := by
        simp [clear_taskbar_view_state, update_view, hid]
      rw [hl, taskbar_predict_loop]
      have hne : (view.id == t) = false := by simpa using hid
      by_cases hmm : view.mapped = true ∧ view.minimized = true
      · have hin : (view.mapped && (view.minimized || (true && view.id == t && !view.minimized)))
            = true := by simp [hmm.1, hmm.2]
        simp only [hin, Bool.not_true, Bool.false_eq_true, if_false, if_neg hid]
        by_cases hrem : box.width - TASKBAR_MARGIN - cx < TASKBAR_BUTTON_MIN_W
        · rw [update_loop_break _ _ _ _ _ _ (clear_taskbar_slot view) _ hmm.1 hmm.2 hrem]
          simp only [hrem, if_true]
          rw [predict_loop_no_room _ _ _ _ _ _ _ hrem]
          rw [published_slot_cons_ne (clear_taskbar_slot view) _ t hid]
          exact (published_slot_hidden _ _ (clear_taskbar_view_state_visible _)).symm
        · rw [update_loop_place _ _ _ _ _ _ (clear_taskbar_slot view) _ hmm.1 hmm.2 hrem]
          simp only [hrem, if_false]
          rw [published_slot_cons_ne
            (place_slot box bar_y button_y button_h cx (clear_taskbar_slot view)) _ t hid]
          have hp : packed_width box cx (clear_taskbar_slot view) = packed_width box cx view :=
            packed_width_congr _ _ _ _ rfl
          rw [hp, ← ih _ (shown + 1) Hrest, packed_width_ite]
      · have hin : (view.mapped && (view.minimized || (true && view.id == t && !view.minimized)))
            = false := by
          cases hm : view.mapped <;> cases hn : view.minimized <;> simp_all
        simp only [hin, Bool.not_false, if_true]
        rw [update_loop_skip _ _ _ _ _ _ (clear_taskbar_slot view) _ hmm]
        rw [published_slot_cons_ne (clear_taskbar_slot view) _ t hid]
        exact ih _ _ Hrest

theorem update_loop_ids (box : wlr_box) (bar_y button_y button_h : Int) :
    ∀ (l : List flux_view) (cx : Int) (shown : Nat),
      (taskbar_update_loop box bar_y button_y button_h cx shown l).1.map (fun v => v.id) =
        l.map (fun v => v.id) := by
  intro l
  induction l with
  | nil => intro cx shown; rfl
  | cons view rest ih =>
    intro cx shown
    by_cases hmm : view.mapped = true ∧ view.minimized = true
    · by_cases hrem : box.width - TASKBAR_MARGIN - cx < TASKBAR_BUTTON_MIN_W
      · rw [update_loop_break _ _ _ _ _ _ _ _ hmm.1 hmm.2 hrem]
      · rw [update_loop_place _ _ _ _ _ _ _ _ hmm.1 hmm.2 hrem]
        simp only [List.map_cons, ih]
        rfl
    · rw [update_loop_skip _ _ _ _ _ _ _ _ hmm]
      simp only [List.map_cons, ih]

theorem update_view_ids (l : List flux_view) (id : Nat) (f : flux_view → flux_view)
    (hf : ∀ v, (f v).id = v.id) :
    (update_view l id f).map (fun v => v.id) = l.map (fun v => v.id) := by
  unfold update_view
  rw [List.map_map]
  apply List.map_congr_left
  intro v _
  simp only [Function.comp]
  split_ifs
  · exact hf v
  · rfl

theorem clear_taskbar_view_state_ids (l : List flux_view) :
    (clear_taskbar_view_state l).map (fun v => v.id) = l.map (fun v => v.id) := by
  unfold clear_taskbar_view_state
  rw [List.map_map]
  rfl

theorem find_view_of_id_mem (l : List flux_view) (id : Nat)
    (h : id ∈ l.map (fun v => v.id)) : ∃ v, find_view l id = some v := by
  induction l with
  | nil => simp at h
  | cons view rest ih =>
    by_cases hid : view.id = id
    · exact ⟨view, find_view_cons_eq _ _ _ hid⟩
    · rw [find_view_cons_ne _ _ _ hid]
      apply ih
      simp only [List.map_cons, List.mem_cons] at h
      rcases h with h | h
      · exact absurd h.symm hid
      · exact h

theorem predict_eq_published (s : flux_server) (t : Nat)
    (htree : s.taskbar_tree = true) (hbg : s.taskbar_bg_rect = true)
    (hw : 0 < s.layout_box.width) (hh : 0 < s.layout_box.height)
    (H : ∀ v ∈ s.views, v.id = t → v.mapped = true ∧ v.minimized = false) :
    taskbar_predict_button_box s t true =
      published_slot
        (taskbar_update (with_view_minimized s t)).views t := by
  rw [taskbar_update_views (with_view_minimized s t) htree hbg rfl hw hh]
  unfold taskbar_predict_button_box
  have hb : ¬ (s.layout_box.width ≤ 0 ∨ s.layout_box.height ≤ 0) := by omega
  have e1 : taskbar_bar_height = 30 := by decide
  have e2 : TASKBAR_BUTTON_H = 22 := rfl
  have e3 : Int.tdiv (30 - 22) 2 = 4 := by decide
  have e4 : (if (22 : Int) > 30 - 4 then (30 : Int) - 4 else 22) = 22 := by decide
  have e5 : (if (22 : Int) < 10 then (30 : Int) else 22) = 22 := by decide
  simp only [hb, if_false, e1, e2, e4, e5, e3]
  exact predict_loop_eq_published _ _ _ _ _ _ _ _ H

/-- Claim C1. Prediction agrees with the real layout. In a server state whose
taskbar scene nodes exist, whose layout box is non-empty and whose views have
pairwise distinct addresses, let `v` be a mapped, not minimized view of the
focus stack. Run `taskbar_update` on the same state with only `v.minimized`
set and the taskbar dirty, and let `v'` be the record of `v` afterwards. Then
`taskbar_predict_button_box(server, v, true)` succeeds if and only if `v'` is
marked `taskbar_visible`, and when it succeeds its box is exactly
`(taskbar_x, taskbar_y, taskbar_width, taskbar_height)` of `v'`. -/
theorem C1_prediction_agrees_with_layout (s : flux_server) (v : flux_view)
    (htree : s.taskbar_tree = true) (hbg : s.taskbar_bg_rect = true)
    (hw : 0 < s.layout_box.width) (hh : 0 < s.layout_box.height)
    (hnodup : (s.views.map (fun u => u.id)).Nodup)
    (hv : v ∈ s.views) (hm : v.mapped = true) (hn : v.minimized = false) :
    ∃ v', find_view (taskbar_update (with_view_minimized s v.id)).views v.id = some v' ∧
      ((taskbar_predict_button_box s v.id true).isSome ↔ v'.taskbar_visible = true) ∧
      ∀ b, taskbar_predict_button_box s v.id true = some b →
        b = { x := v'.taskbar_x, y := v'.taskbar_y, width := v'.taskbar_width,
              height := v'.taskbar_height } := by
  have H : ∀ u ∈ s.views, u.id = v.id → u.mapped = true ∧ u.minimized = false := by
    intro u hu hid
    have : u = v := List.inj_on_of_nodup_map hnodup hu hv hid
    rw [this]
    exact ⟨hm, hn⟩
  have hp := predict_eq_published s v.id htree hbg hw hh H
  have hids : v.id ∈ (taskbar_update (with_view_minimized s v.id)).views.map (fun u => u.id) := by
    rw [taskbar_update_views (with_view_minimized s v.id) htree hbg rfl hw hh, update_loop_ids,
      clear_taskbar_view_state_ids]
    show v.id ∈ (update_view s.views v.id set_minimized).map (fun u => u.id)
    rw [update_view_ids s.views v.id set_minimized (fun _ => rfl)]
    exact List.mem_map_of_mem _ hv
  obtain ⟨v', hv'⟩ := find_view_of_id_mem _ _ hids
  refine ⟨v', hv', ?_, ?_⟩
  · rw [hp]
    unfold published_slot
    rw [hv']
    by_cases hvis : v'.taskbar_visible = true <;> simp [hvis]
  · intro b hb
    rw [hp] at hb
    unfold published_slot at hb
    rw [hv'] at hb
    by_cases hvis : v'.taskbar_visible = true
    · simp only [hvis, if_true, Option.some.injEq] at hb
      exact hb.symm
    · simp [hvis] at hb

theorem C1_prediction_agrees_with_layout_witness :
    ∃ v', find_view
        (taskbar_update (with_view_minimized demo_server_base demo_view_A.id)).views
        demo_view_A.id = some v' ∧
      ((taskbar_predict_button_box demo_server_base demo_view_A.id true).isSome ↔
        v'.taskbar_visible = true) ∧
      ∀ b, taskbar_predict_button_box demo_server_base demo_view_A.id true = some b →
        b = { x := v'.taskbar_x, y := v'.taskbar_y, width := v'.taskbar_width,
              height := v'.taskbar_height } :=
  C1_prediction_agrees_with_layout demo_server_base demo_view_A (by decide) (by decide)
    (by decide) (by decide) (by decide) (List.mem_cons_self _ _) (by decide) (by decide)

theorem button_width_formula (title : CString) :
    taskbar_button_width_for_title title =
      min (max (6 * (title.length : Int) - 1 + 16) 110) 240 := by
  unfold taskbar_button_width_for_title text_pixel_width TASKBAR_BUTTON_MIN_W
    TASKBAR_BUTTON_MAX_W TASKBAR_TEXT_PAD_X TASKBAR_TEXT_ADV TASKBAR_TEXT_SCALE TASKBAR_GLYPH_W
  simp only []
  split_ifs <;> omega

theorem update_loop_placed (box : wlr_box) (bar_y button_y button_h : Int) :
    ∀ (l : List flux_view) (cx : Int) (shown : Nat),
      (∀ v ∈ l, v.taskbar_visible = false) →
      (((taskbar_update_loop box bar_y button_y button_h cx shown l).1.filter
          (fun v => v.taskbar_visible)).map (fun v => v.id) <+:
        (l.filter (fun v => v.mapped && v.minimized)).map (fun v => v.id)) ∧
      (∀ v ∈ ((taskbar_update_loop box bar_y button_y button_h cx shown l).1.filter
          (fun v => v.taskbar_visible)).head?, v.taskbar_x = box.x + cx) ∧
      ((taskbar_update_loop box bar_y button_y button_h cx shown l).1.filter
          (fun v => v.taskbar_visible)).Chain'
        (fun a b => b.taskbar_x = a.taskbar_x + a.taskbar_width + TASKBAR_MARGIN) ∧
      (∀ v ∈ (taskbar_update_loop box bar_y button_y button_h cx shown l).1.filter
          (fun v => v.taskbar_visible),
        v.taskbar_width =
          min (taskbar_button_width_for_title (view_display_title v))
            (box.width - TASKBAR_MARGIN - (v.taskbar_x - box.x))) := by
  intro l
  induction l with
  | nil => intro cx shown _; simp [taskbar_update_loop]
  | cons view rest ih =>
    intro cx shown hclr
    have hrest : ∀ v ∈ rest, v.taskbar_visible = false :=
      fun v hv => hclr v (List.mem_cons_of_mem _ hv)
    have hhead : view.taskbar_visible = false := hclr view (List.mem_cons_self _ _)
    by_cases hmm : view.mapped = true ∧ view.minimized = true
    · by_cases hrem : box.width - TASKBAR_MARGIN - cx < TASKBAR_BUTTON_MIN_W
      · rw [update_loop_break _ _ _ _ _ _ _ _ hmm.1 hmm.2 hrem]
        have hnil : (view :: rest).filter (fun v => v.taskbar_visible) = [] := by
          rw [List.filter_eq_nil_iff]
          intro v hv
          simp [hclr v hv]
        rw [hnil]
        simp
      · rw [update_loop_place _ _ _ _ _ _ _ _ hmm.1 hmm.2 hrem]
        obtain ⟨i1, i2, i3, i4⟩ :=
          ih (cx + packed_width box cx view + TASKBAR_MARGIN) (shown + 1) hrest
        have hf : (place_slot box bar_y button_y button_h cx view).taskbar_visible = true := rfl
        have hg : (view.mapped && view.minimized) = true := by simp [hmm.1, hmm.2]
        have hF : (view :: rest).filter (fun v => v.mapped && v.minimized) =
            view :: rest.filter (fun v => v.mapped && v.minimized) := by
          simp [List.filter, hg]
        have hG : ∀ tl : List flux_view,
            (place_slot box bar_y button_y button_h cx view :: tl).filter
              (fun v => v.taskbar_visible) =
            place_slot box bar_y button_y button_h cx view ::
              tl.filter (fun v => v.taskbar_visible) := by
          intro tl
          simp [List.filter, hf]
        rw [hF, hG]
        simp only [List.map_cons, List.head?_cons, Option.mem_def, Option.some.injEq,
          List.mem_cons]
        refine ⟨?_, ?_, ?_, ?_⟩
        · exact (List.prefix_cons_inj _).2 i1
        · rintro v rfl
          rfl
        · rw [List.chain'_cons']
          refine ⟨fun y hy => ?_, i3⟩
          rw [i2 y hy]
          simp only [place_slot]
          omega
        · rintro v (rfl | hv)
          · simp only [place_slot]
            have : view_display_title (place_slot box bar_y button_y button_h cx view) =
                view_display_title view := rfl
            unfold packed_width
            have e : box.x + cx - box.x = cx := by omega
            rw [e]
            rfl
          · exact i4 v hv
    · rw [update_loop_skip _ _ _ _ _ _ _ _ hmm]
      obtain ⟨i1, i2, i3, i4⟩ := ih cx shown hrest
      have hf : ¬ (view.taskbar_visible = true) := by simp [hhead]
      have hg : ¬ ((view.mapped && view.minimized) = true) := by
        simpa using hmm
      have hF : (view :: rest).filter (fun v => v.mapped && v.minimized) =
          rest.filter (fun v => v.mapped && v.minimized) := by
        simp only [List.filter]
        split
        · rename_i hx
          exact absurd hx hg
        · rfl
      have hG : ∀ tl : List flux_view,
          (view :: tl).filter (fun v => v.taskbar_visible) =
            tl.filter (fun v => v.taskbar_visible) := by
        intro tl
        simp [List.filter, hhead]
      rw [hF, hG]
      exact ⟨i1, i2, i3, i4⟩

theorem taskbar_update_static (s : flux_server) :
    (taskbar_update s).taskbar_tree = s.taskbar_tree ∧
    (taskbar_update s).taskbar_bg_rect = s.taskbar_bg_rect ∧
    (taskbar_update s).layout_box = s.layout_box := by
  unfold taskbar_update
  simp only []
  split_ifs <;> exact ⟨rfl, rfl, rfl⟩

theorem view_destroy_notify_static (s : flux_server) (id : Nat) :
    (view_destroy_notify s id).taskbar_tree = s.taskbar_tree ∧
    (view_destroy_notify s id).taskbar_bg_rect = s.taskbar_bg_rect ∧
    (view_destroy_notify s id).layout_box = s.layout_box ∧
    (view_destroy_notify s id).taskbar_dirty = true ∧
    (view_destroy_notify s id).views = s.views.filter (fun v => v.id != id) := by
  unfold view_destroy_notify taskbar_mark_dirty
  simp only []
  split_ifs <;> simp

theorem pack_one (box : wlr_box) (bar_y button_y button_h : Int) (shown : Nat)
    (C : flux_view) (hC : C.mapped = true ∧ C.minimized = true)
    (h1 : ¬ box.width - TASKBAR_MARGIN - TASKBAR_MARGIN < TASKBAR_BUTTON_MIN_W) :
    (taskbar_update_loop box bar_y button_y button_h TASKBAR_MARGIN shown [C]).1 =
      [place_slot box bar_y button_y button_h TASKBAR_MARGIN C] := by
  rw [update_loop_place _ _ _ _ _ _ _ _ hC.1 hC.2 h1]
  rfl

theorem clear_filter_ids (l : List flux_view) :
    ((clear_taskbar_view_state l).filter (fun v => v.mapped && v.minimized)).map (fun v => v.id) =
      (l.filter (fun v => v.mapped && v.minimized)).map (fun v => v.id) := by
  unfold clear_taskbar_view_state
  rw [List.filter_map, List.map_map]
  rfl

theorem display_title_length (v : flux_view) :
    ((view_display_title v).length : Int) = spec_title_length v := by
  unfold view_display_title spec_title_length
  cases v.toplevel with
  | none => rfl
  | some tl =>
    simp only []
    cases tl.title with
    | none =>
      simp only []
      cases tl.app_id with
      | none => rfl
      | some a => cases a <;> rfl
    | some t =>
      cases t with
      | nil =>
        simp only []
        cases tl.app_id with
        | none => rfl
        | some a => cases a <;> rfl
      | cons c t => rfl

theorem packed_width_spec (box : wlr_box) (cx : Int) (v : flux_view) :
    packed_width box cx v =
      min (min (max (6 * spec_title_length v - 1 + 16) 110) 240) (box.width - 6 - cx) := by
  unfold packed_width
  rw [button_width_formula, display_title_length]
  rfl

theorem spec_title_length_clear (v : flux_view) :
    spec_title_length (clear_taskbar_slot v) = spec_title_length v := rfl

theorem update_loop_slots (box : wlr_box) (bar_y button_y button_h : Int) :
    ∀ (l : List flux_view) (cx : Int) (shown : Nat),
      (∀ v ∈ l, v.taskbar_visible = false) →
      ((taskbar_update_loop box bar_y button_y button_h cx shown l).1.filter
          (fun v => v.taskbar_visible)).map (fun v => (v.id, v.taskbar_x, v.taskbar_width)) =
        spec_greedy_slots box.x box.width cx
          ((l.filter (fun v => v.mapped && v.minimized)).map
            (fun v => (v.id, spec_title_length v))) := by
  intro l
  induction l with
  | nil => intro cx shown _; rfl
  | cons view rest ih =>
    intro cx shown hclr
    have hrest : ∀ v ∈ rest, v.taskbar_visible = false :=
      fun v hv => hclr v (List.mem_cons_of_mem _ hv)
    have hhead : view.taskbar_visible = false := hclr view (List.mem_cons_self _ _)
    by_cases hmm : view.mapped = true ∧ view.minimized = true
    · have hg : (view.mapped && view.minimized) = true := by simp [hmm.1, hmm.2]
      have hF : (view :: rest).filter (fun v => v.mapped && v.minimized) =
          view :: rest.filter (fun v => v.mapped && v.minimized) := by
        simp [List.filter, hg]
      rw [hF, List.map_cons]
      by_cases hrem : box.width - TASKBAR_MARGIN - cx < TASKBAR_BUTTON_MIN_W
      · rw [update_loop_break _ _ _ _ _ _ _ _ hmm.1 hmm.2 hrem]
        have hnil : (view :: rest).filter (fun v => v.taskbar_visible) = [] := by
          rw [List.filter_eq_nil_iff]
          intro v hv
          simp [hclr v hv]
        rw [hnil]
        have hrem2 : box.width - 6 - cx < 110 := hrem
        simp only [spec_greedy_slots, hrem2, if_true, List.map_nil]
      · rw [update_loop_place _ _ _ _ _ _ _ _ hmm.1 hmm.2 hrem]
        have hf : (place_slot box bar_y button_y button_h cx view).taskbar_visible = true := rfl
        have hG : ∀ tl : List flux_view,
            (place_slot box bar_y button_y button_h cx view :: tl).filter
              (fun v => v.taskbar_visible) =
            place_slot box bar_y button_y button_h cx view ::
              tl.filter (fun v => v.taskbar_visible) := by
          intro tl
          simp [List.filter, hf]
        have hrem2 : ¬ box.width - 6 - cx < 110 := hrem
        rw [hG, List.map_cons, ih _ _ hrest]
        simp only [spec_greedy_slots, hrem2, if_false]
        rw [← packed_width_spec box cx view]
        rfl
    · rw [update_loop_skip _ _ _ _ _ _ _ _ hmm]
      have hg : ¬ ((view.mapped && view.minimized) = true) := by simpa using hmm
      have hF : (view :: rest).filter (fun v => v.mapped && v.minimized) =
          rest.filter (fun v => v.mapped && v.minimized) := by
        simp only [List.filter]
        split
        · rename_i hx
          exact absurd hx hg
        · rfl
      have hG : ∀ tl : List flux_view,
          (view :: tl).filter (fun v => v.taskbar_visible) =
            tl.filter (fun v => v.taskbar_visible) := by
        intro tl
        simp [List.filter, hhead]
      rw [hF, hG]
      exact ih cx shown hrest

theorem clear_filter_buttons (l : List flux_view) :
    ((clear_taskbar_view_state l).filter (fun v => v.mapped && v.minimized)).map
        (fun v => (v.id, spec_title_length v)) =
      (l.filter (fun v => v.mapped && v.minimized)).map
        (fun v => (v.id, spec_title_length v)) := by
  unfold clear_taskbar_view_state
  rw [List.filter_map, List.map_map]
  rfl

theorem taskbar_two_views_scenario (s : flux_server) (htree : s.taskbar_tree = true)
    (hbg : s.taskbar_bg_rect = true) (hdirty : s.taskbar_dirty = true)
    (B C : flux_view) (hviews : s.views = [B, C]) (hne : B.id ≠ C.id)
    (hB : B.mapped = true ∧ B.minimized = true) (hC : C.mapped = true ∧ C.minimized = true)
    (hx : s.layout_box.x = 0) (hh : 0 < s.layout_box.height)
    (hroom : 110 ≤ s.layout_box.width - 6 -
      (6 + min (min (max (6 * spec_title_length B - 1 + 16) 110) 240)
        (s.layout_box.width - 6 - 6) + 6)) :
    ∃ B' C' C'', (taskbar_update s).views = [B', C'] ∧ B'.id = B.id ∧ C'.id = C.id ∧
      B'.taskbar_visible = true ∧ C'.taskbar_visible = true ∧
      B'.taskbar_x = 6 ∧
      B'.taskbar_width = min (min (max (6 * spec_title_length B - 1 + 16) 110) 240)
        (s.layout_box.width - 6 - 6) ∧
      C'.taskbar_x = 6 + B'.taskbar_width + 6 ∧
      (taskbar_update (view_destroy_notify (taskbar_update s) B.id)).views = [C''] ∧
      C''.id = C.id ∧ C''.taskbar_visible = true ∧ C''.taskbar_x = 6 := by
  have hwB := packed_width_spec s.layout_box TASKBAR_MARGIN (clear_taskbar_slot B)
  rw [spec_title_length_clear] at hwB
  have em : TASKBAR_MARGIN = 6 := rfl
  have emin : TASKBAR_BUTTON_MIN_W = 110 := rfl
  have r1 : ¬ s.layout_box.width - TASKBAR_MARGIN - TASKBAR_MARGIN < TASKBAR_BUTTON_MIN_W := by
    rw [em, emin]
    omega
  have r2 : ¬ s.layout_box.width - TASKBAR_MARGIN -
      (TASKBAR_MARGIN + packed_width s.layout_box TASKBAR_MARGIN (clear_taskbar_slot B) +
        TASKBAR_MARGIN) < TASKBAR_BUTTON_MIN_W := by
    rw [hwB, em, emin]
    omega
  have hw : 0 < s.layout_box.width := by omega
  have hv := taskbar_update_views s htree hbg hdirty hw hh
  rw [hviews] at hv
  have hv2 : clear_taskbar_view_state [B, C] = [clear_taskbar_slot B, clear_taskbar_slot C] := rfl
  rw [hv2] at hv
  have hp : (taskbar_update_loop s.layout_box (s.layout_box.y + s.layout_box.height - 30) 4 22
      TASKBAR_MARGIN 0 [clear_taskbar_slot B, clear_taskbar_slot C]).1 =
      [place_slot s.layout_box (s.layout_box.y + s.layout_box.height - 30) 4 22
          TASKBAR_MARGIN (clear_taskbar_slot B),
       place_slot s.layout_box (s.layout_box.y + s.layout_box.height - 30) 4 22
         (TASKBAR_MARGIN + packed_width s.layout_box TASKBAR_MARGIN (clear_taskbar_slot B) +
           TASKBAR_MARGIN) (clear_taskbar_slot C)] := by
    rw [update_loop_place _ _ _ _ _ _ (clear_taskbar_slot B) _ hB.1 hB.2 r1]
    simp only []
    rw [update_loop_place _ _ _ _ _ _ (clear_taskbar_slot C) _ hC.1 hC.2 r2]
    rfl
  rw [hp] at hv
  obtain ⟨t1, t2, t3⟩ := taskbar_update_static s
  obtain ⟨d1, d2, d3, d4, d5⟩ := view_destroy_notify_static (taskbar_update s) B.id
  have hv3 := taskbar_update_views (view_destroy_notify (taskbar_update s) B.id)
    (by rw [d1, t1, htree]) (by rw [d2, t2, hbg]) d4 (by rw [d3, t3]; exact hw)
    (by rw [d3, t3]; exact hh)
  rw [d5, hv, d3, t3] at hv3
  have hneb : (C.id != B.id) = true := by simpa using hne.symm
  have hf : List.filter (fun v => v.id != B.id)
      [place_slot s.layout_box (s.layout_box.y + s.layout_box.height - 30) 4 22
          TASKBAR_MARGIN (clear_taskbar_slot B),
       place_slot s.layout_box (s.layout_box.y + s.layout_box.height - 30) 4 22
          (TASKBAR_MARGIN + packed_width s.layout_box TASKBAR_MARGIN (clear_taskbar_slot B) +
            TASKBAR_MARGIN) (clear_taskbar_slot C)] =
      [place_slot s.layout_box (s.layout_box.y + s.layout_box.height - 30) 4 22
          (TASKBAR_MARGIN + packed_width s.layout_box TASKBAR_MARGIN (clear_taskbar_slot B) +
            TASKBAR_MARGIN) (clear_taskbar_slot C)] := by
    have e1 : ((place_slot s.layout_box (s.layout_box.y + s.layout_box.height - 30) 4 22
          TASKBAR_MARGIN (clear_taskbar_slot B)).id != B.id) = false := by
      simp [place_slot, clear_taskbar_slot]
    have e2 : ((place_slot s.layout_box (s.layout_box.y + s.layout_box.height - 30) 4 22
          (TASKBAR_MARGIN + packed_width s.layout_box TASKBAR_MARGIN (clear_taskbar_slot B) +
            TASKBAR_MARGIN) (clear_taskbar_slot C)).id != B.id) = true := hneb
    simp only [List.filter, e1, e2]
  rw [hf] at hv3
  have hv4 : ∀ v : flux_view, clear_taskbar_view_state [v] = [clear_taskbar_slot v] :=
    fun _ => rfl
  rw [hv4, pack_one _ _ _ _ _
    (clear_taskbar_slot (place_slot s.layout_box (s.layout_box.y + s.layout_box.height - 30) 4 22
      (TASKBAR_MARGIN + packed_width s.layout_box TASKBAR_MARGIN (clear_taskbar_slot B) +
        TASKBAR_MARGIN) (clear_taskbar_slot C))) hC r1] at hv3
  refine ⟨place_slot s.layout_box (s.layout_box.y + s.layout_box.height - 30) 4 22
      TASKBAR_MARGIN (clear_taskbar_slot B),
    place_slot s.layout_box (s.layout_box.y + s.layout_box.height - 30) 4 22
      (TASKBAR_MARGIN + packed_width s.layout_box TASKBAR_MARGIN (clear_taskbar_slot B) +
        TASKBAR_MARGIN) (clear_taskbar_slot C),
    place_slot s.layout_box (s.layout_box.y + s.layout_box.height - 30) 4 22 TASKBAR_MARGIN
      (clear_taskbar_slot (place_slot s.layout_box (s.layout_box.y + s.layout_box.height - 30)
        4 22 (TASKBAR_MARGIN + packed_width s.layout_box TASKBAR_MARGIN (clear_taskbar_slot B) +
          TASKBAR_MARGIN) (clear_taskbar_slot C))),
    hv, ?_, ?_, rfl, rfl, ?_, ?_, ?_, hv3, ?_, ?_, ?_⟩
  · simp only [place_slot, clear_taskbar_slot]
  · simp only [place_slot, clear_taskbar_slot]
  · simp only [place_slot, hx, TASKBAR_MARGIN]
    omega
  · simp only [place_slot]
    exact hwB
  · simp only [place_slot, hx, TASKBAR_MARGIN]
    omega
  · simp only [place_slot, clear_taskbar_slot]
  · simp only [place_slot]
  · simp only [place_slot, hx, TASKBAR_MARGIN]
    omega

/-- Claim C8. After a dirty `taskbar_update` with a non-empty layout box
`(bx, by, W, H)`, the placed views (those marked `taskbar_visible`) with their
`taskbar_x` and `taskbar_width` are exactly the greedy packing
`spec_greedy_slots` of the mapped minimized views in focus-stack order: the
first button is at `bx + 6`, each following one at the previous x plus the
previous width plus 6, each is
`min(clamp(6 * len(title) - 1 + 16, 110, 240), remaining)` wide with
`remaining = W - 6 - (taskbar_x - bx)`, and a view is placed exactly when
every mapped minimized view before it is placed and `remaining >= 110`. With an
empty layout box no view is placed. The title is the toplevel title if it is
not empty, else the app id if it is not empty, else `APP`. In particular, with
a focus stack `[B, C]` of two mapped minimized views, `bx = 0` and
`W - 6 - (6 + widthB + 6) >= 110`, both are placed, `B` at `x = 6` with width
`widthB = min(clamp(6 * len(titleB) + 15, 110, 240), W - 12)` and `C` at
`x = 6 + widthB + 6`, and after `view_destroy_notify` of `B` and a recompute,
`C` is placed at `x = 6`. -/
theorem C8_taskbar_greedy_packing (s : flux_server) (htree : s.taskbar_tree = true)
    (hbg : s.taskbar_bg_rect = true) (hdirty : s.taskbar_dirty = true) :
    (0 < s.layout_box.width → 0 < s.layout_box.height →
      ((taskbar_update s).views.filter (fun v => v.taskbar_visible)).map
          (fun v => (v.id, v.taskbar_x, v.taskbar_width)) =
        spec_greedy_slots s.layout_box.x s.layout_box.width 6
          ((s.views.filter (fun v => v.mapped && v.minimized)).map
            (fun v => (v.id, spec_title_length v)))) ∧
    (s.layout_box.width ≤ 0 ∨ s.layout_box.height ≤ 0 →
      (taskbar_update s).views.filter (fun v => v.taskbar_visible) = []) ∧
    (((taskbar_update s).views.filter (fun v => v.taskbar_visible)).map (fun v => v.id) <+:
      (s.views.filter (fun v => v.mapped && v.minimized)).map (fun v => v.id)) ∧
    (∀ v ∈ ((taskbar_update s).views.filter (fun v => v.taskbar_visible)).head?,
      v.taskbar_x = s.layout_box.x + 6) ∧
    ((taskbar_update s).views.filter (fun v => v.taskbar_visible)).Chain'
      (fun a b => b.taskbar_x = a.taskbar_x + a.taskbar_width + 6) ∧
    (∀ v ∈ (taskbar_update s).views.filter (fun v => v.taskbar_visible),
      v.taskbar_width =
        min (min (max (6 * spec_title_length v - 1 + 16) 110) 240)
          (s.layout_box.width - 6 - (v.taskbar_x - s.layout_box.x))) ∧
    (∀ B C : flux_view, s.views = [B, C] → B.id ≠ C.id →
      B.mapped = true ∧ B.minimized = true → C.mapped = true ∧ C.minimized = true →
      s.layout_box.x = 0 → 0 < s.layout_box.height →
      110 ≤ s.layout_box.width - 6 -
        (6 + min (min (max (6 * spec_title_length B - 1 + 16) 110) 240)
          (s.layout_box.width - 6 - 6) + 6) →
      ∃ B' C' C'', (taskbar_update s).views = [B', C'] ∧ B'.id = B.id ∧ C'.id = C.id ∧
        B'.taskbar_visible = true ∧ C'.taskbar_visible = true ∧
        B'.taskbar_x = 6 ∧
        B'.taskbar_width = min (min (max (6 * spec_title_length B - 1 + 16) 110) 240)
          (s.layout_box.width - 6 - 6) ∧
        C'.taskbar_x = 6 + B'.taskbar_width + 6 ∧
        (taskbar_update (view_destroy_notify (taskbar_update s) B.id)).views = [C''] ∧
        C''.id = C.id ∧ C''.taskbar_visible = true ∧ C''.taskbar_x = 6) := by
  have hempty : s.layout_box.width ≤ 0 ∨ s.layout_box.height ≤ 0 →
      (taskbar_update s).views.filter (fun v => v.taskbar_visible) = [] := by
    intro hb
    rw [taskbar_update_views_empty s htree hbg hb, List.filter_eq_nil_iff]
    intro v hv
    simp [clear_taskbar_view_state_visible s.views v hv]
  refine ⟨?_, hempty, ?_, ?_, ?_, ?_, fun B C hv hne hB hC hx hh hroom =>
    taskbar_two_views_scenario s htree hbg hdirty B C hv hne hB hC hx hh hroom⟩
  · intro hw hh
    rw [taskbar_update_views s htree hbg hdirty hw hh,
      update_loop_slots _ _ _ _ _ _ _ (clear_taskbar_view_state_visible _), clear_filter_buttons]
    rfl
  all_goals
    by_cases hb : s.layout_box.width ≤ 0 ∨ s.layout_box.height ≤ 0
    · rw [hempty hb]
      simp
    · rw [taskbar_update_views s htree hbg hdirty (by omega) (by omega)]
      obtain ⟨i1, i2, i3, i4⟩ := update_loop_placed s.layout_box
        (s.layout_box.y + s.layout_box.height - 30) 4 22 (clear_taskbar_view_state s.views)
        TASKBAR_MARGIN 0 (clear_taskbar_view_state_visible _)
      first
      | (rw [clear_filter_ids] at i1; exact i1)
      | exact i2
      | exact i3
      | (intro v hv
         rw [i4 v hv, button_width_formula, display_title_length]
         rfl)

/-- Claim C8 on the desktop `[B, C]` with a bar of width 1280: `B`, with a title
of 18 characters, is placed at 6 with width 123 and `C` at 135 with width 110;
after `B` is destroyed and the taskbar recomputed, `C` is at 6. -/
theorem C8_taskbar_greedy_packing_witness :
    ((taskbar_update demo_server_two).views.filter (fun v => v.taskbar_visible)).map
        (fun v => (v.id, v.taskbar_x, v.taskbar_width)) = [(5, 6, 123), (6, 135, 110)] ∧
    ∃ B' C' C'', (taskbar_update demo_server_two).views = [B', C'] ∧
      B'.id = demo_view_B.id ∧ C'.id = demo_view_C.id ∧
      B'.taskbar_visible = true ∧ C'.taskbar_visible = true ∧
      B'.taskbar_x = 6 ∧
      B'.taskbar_width = min (min (max (6 * spec_title_length demo_view_B - 1 + 16) 110) 240)
        (demo_server_two.layout_box.width - 6 - 6) ∧
      C'.taskbar_x = 6 + B'.taskbar_width + 6 ∧
      (taskbar_update
        (view_destroy_notify (taskbar_update demo_server_two) demo_view_B.id)).views = [C''] ∧
      C''.id = demo_view_C.id ∧ C''.taskbar_visible = true ∧ C''.taskbar_x = 6 :=
  ⟨((C8_taskbar_greedy_packing demo_server_two (by decide) (by decide) (by decide)).1 (by decide) (by decide)).trans
      (by decide),
    (C8_taskbar_greedy_packing demo_server_two (by decide) (by decide) (by decide)).2.2.2.2.2.2
      demo_view_B demo_view_C rfl (by decide) (by decide) (by decide) (by decide) (by decide)
      (by decide)⟩

/-! ## Theorems: pointer grabs -/

theorem same_grab_state_refl (a : flux_server) : same_grab_state a a := by
  unfold same_grab_state
  simp

theorem same_grab_state_trans {a b c : flux_server} (h1 : same_grab_state a b)
    (h2 : same_grab_state b c) : same_grab_state a c := by
  unfold same_grab_state at *
  obtain ⟨a1, a2, a3, a4, a5, a6, a7, a8, a9, a10, a11, a12, a13⟩ := h1
  obtain ⟨b1, b2, b3, b4, b5, b6, b7, b8, b9, b10, b11, b12, b13⟩ := h2
  exact ⟨a1.trans b1, a2.trans b2, a3.trans b3, a4.trans b4, a5.trans b5, a6.trans b6,
    a7.trans b7, a8.trans b8, a9.trans b9, a10.trans b10, a11.trans b11, a12.trans b12,
    a13.trans b13⟩

theorem clamp_cursor_same_grab (s : flux_server) :
    same_grab_state (clamp_cursor_to_layout s) s ∧ (clamp_cursor_to_layout s).views = s.views := by
  unfold clamp_cursor_to_layout same_grab_state
  simp only []
  split_ifs <;> simp

theorem focus_view_frame (s : flux_server) (id surface : Nat) :
    ∃ vs fs cl, focus_view s id surface =
      { s with views := vs, focused_surface := fs, call_log := cl } := by
  unfold focus_view
  simp only []
  repeat' (first | exact ⟨_, _, _, rfl⟩ | split)

theorem focus_view_same_grab (s : flux_server) (id surface : Nat) :
    same_grab_state (focus_view s id surface) s ∧
    (focus_view s id surface).cursor_x = s.cursor_x ∧
    (focus_view s id surface).cursor_y = s.cursor_y := by
  obtain ⟨vs, fs, cl, h⟩ := focus_view_frame s id surface
  rw [h]
  simp [same_grab_state]

theorem process_cursor_motion_frame (surface_at : Nat → ℚ → ℚ → Option surface_hit)
    (s : flux_server) (t : Nat) :
    ∃ vs fs cl, process_cursor_motion surface_at s t =
      { clamp_cursor_to_layout s with views := vs, focused_surface := fs, call_log := cl } := by
  unfold process_cursor_motion process_cursor_motion_passthrough process_cursor_motion_move
    process_cursor_motion_resize
  simp only []
  split
  · split_ifs
    · exact ⟨_, _, _, rfl⟩
    · split <;> exact ⟨_, _, _, rfl⟩
    · split
      · rename_i view hit _
        obtain ⟨vs, fs, cl, h⟩ := focus_view_frame (clamp_cursor_to_layout s) view.id hit.surface
        rw [h]
        exact ⟨_, _, _, rfl⟩
      · exact ⟨_, _, _, rfl⟩
  · split
    · rename_i view hit _
      obtain ⟨vs, fs, cl, h⟩ := focus_view_frame (clamp_cursor_to_layout s) view.id hit.surface
      rw [h]
      exact ⟨_, _, _, rfl⟩
    · exact ⟨_, _, _, rfl⟩

theorem process_cursor_motion_same_grab (surface_at : Nat → ℚ → ℚ → Option surface_hit)
    (s : flux_server) (t : Nat) :
    same_grab_state (process_cursor_motion surface_at s t) s := by
  obtain ⟨vs, fs, cl, h⟩ := process_cursor_motion_frame surface_at s t
  rw [h]
  have hc := (clamp_cursor_same_grab s).1
  unfold same_grab_state at hc ⊢
  exact hc

theorem find_view_update_view (l : List flux_view) (g : Nat) (f : flux_view → flux_view)
    (hf : ∀ v, (f v).id = v.id) :
    find_view (update_view l g f) g = (find_view l g).map f := by
  induction l with
  | nil => rfl
  | cons view rest ih =>
    by_cases hid : view.id = g
    · have : update_view (view :: rest) g f = f view :: update_view rest g f := by
        simp [update_view, hid]
      rw [this, find_view_cons_eq (f view) _ g (by rw [hf]; exact hid),
        find_view_cons_eq view _ g hid]
      rfl
    · have : update_view (view :: rest) g f = view :: update_view rest g f := by
        simp [update_view, hid]
      rw [this, find_view_cons_ne _ _ _ hid, find_view_cons_ne _ _ _ hid]
      exact ih

theorem resize_frame_box_min (server : flux_server) (view : flux_view) :
    (resize_frame_box server view).width ≥ 2 * view_border_px view + 120 ∧
    (resize_frame_box server view).height ≥ view_titlebar_px view + view_border_px view + 80 := by
  unfold resize_frame_box view_border_px view_titlebar_px MIN_CLIENT_WIDTH MIN_CLIENT_HEIGHT
  simp only []
  constructor <;> split_ifs <;> omega

theorem resize_frame_box_left (server : flux_server) (view : flux_view)
    (hl : server.resize_edges &&& WLR_EDGE_LEFT ≠ 0)
    (hr : server.resize_edges &&& WLR_EDGE_RIGHT = 0) :
    (resize_frame_box server view).x + (resize_frame_box server view).width =
      server.resize_init_x + server.resize_init_width ∧
    (resize_frame_box server view).x =
      server.resize_init_x + server.resize_init_width -
        max (server.resize_init_width -
              lround (server.cursor_x - server.resize_cursor_start_x))
          (2 * view_border_px view + 120) := by
  unfold resize_frame_box view_border_px MIN_CLIENT_WIDTH
  simp only [hl, hr, ne_eq, not_true_eq_false, not_false_eq_true, if_true, if_false, and_true]
  constructor <;> split_ifs <;> omega

theorem resize_frame_box_top (server : flux_server) (view : flux_view)
    (ht : server.resize_edges &&& WLR_EDGE_TOP ≠ 0)
    (hb : server.resize_edges &&& WLR_EDGE_BOTTOM = 0) :
    (resize_frame_box server view).y + (resize_frame_box server view).height =
      server.resize_init_y + server.resize_init_height ∧
    (resize_frame_box server view).y =
      server.resize_init_y + server.resize_init_height -
        max (server.resize_init_height -
              lround (server.cursor_y - server.resize_cursor_start_y))
          (view_titlebar_px view + view_border_px view + 80) := by
  unfold resize_frame_box view_border_px view_titlebar_px MIN_CLIENT_HEIGHT
  simp only [ht, hb, ne_eq, not_true_eq_false, not_false_eq_true, if_true, if_false, and_true]
  constructor <;> split_ifs <;> omega

theorem view_set_frame_size_of_min (v : flux_view) (w h : Int)
    (hw : w ≥ 2 * view_border_px v + 120) (hh : h ≥ view_titlebar_px v + view_border_px v + 80) :
    (view_set_frame_size v w h).width = w ∧ (view_set_frame_size v w h).height = h ∧
    (view_set_frame_size v w h).x = v.x ∧ (view_set_frame_size v w h).y = v.y ∧
    (view_set_frame_size v w h).id = v.id := by
  unfold view_set_frame_size
  refine ⟨?_, ?_, rfl, rfl, rfl⟩
  · simp only []
    split_ifs <;> omega
  · simp only []
    split_ifs <;> omega

theorem process_cursor_motion_resize_view (surface_at : Nat → ℚ → ℚ → Option surface_hit)
    (s : flux_server) (t g : Nat) (view : flux_view)
    (hmode : s.cursor_mode = CURSOR_RESIZE) (hg : s.grabbed_view = some g)
    (hfind : find_view s.views g = some view) :
    process_cursor_motion surface_at s t =
      process_cursor_motion_resize (clamp_cursor_to_layout s) view := by
  obtain ⟨hc, hv⟩ := clamp_cursor_same_grab s
  unfold same_grab_state at hc
  unfold process_cursor_motion
  simp only [hc.2.1, hg, hc.1, hmode, hv, hfind]
  simp

theorem resize_motion_view (surface_at : Nat → ℚ → ℚ → Option surface_hit)
    (s : flux_server) (t g : Nat) (view : flux_view)
    (hmode : s.cursor_mode = CURSOR_RESIZE) (hg : s.grabbed_view = some g)
    (hfind : find_view s.views g = some view) :
    find_view (process_cursor_motion surface_at s t).views g =
      some (view_set_frame_size
        { view with x := (resize_frame_box (clamp_cursor_to_layout s) view).x,
                    y := (resize_frame_box (clamp_cursor_to_layout s) view).y }
        (resize_frame_box (clamp_cursor_to_layout s) view).width
        (resize_frame_box (clamp_cursor_to_layout s) view).height) := by
  rw [process_cursor_motion_resize_view surface_at s t g view hmode hg hfind]
  have hid : view.id = g := (find_view_mem hfind).2
  subst hid
  have key := find_view_update_view (clamp_cursor_to_layout s).views view.id
    (fun v => view_set_frame_size
      { v with x := (resize_frame_box (clamp_cursor_to_layout s) view).x,
               y := (resize_frame_box (clamp_cursor_to_layout s) view).y }
      (resize_frame_box (clamp_cursor_to_layout s) view).width
      (resize_frame_box (clamp_cursor_to_layout s) view).height) (fun v => rfl)
  have hfind2 : find_view (clamp_cursor_to_layout s).views view.id = some view := by
    rw [(clamp_cursor_same_grab s).2]
    exact hfind
  rw [hfind2] at key
  exact key

theorem rat_floor_eq (q : ℚ) : Rat.floor q = ⌊q⌋ := rfl

theorem lround_intCast (n : Int) : lround (n : ℚ) = n := by
  unfold lround
  have h0 : ⌊(1 / 2 : ℚ)⌋ = 0 := by norm_num
  split_ifs with h
  · rw [rat_floor_eq, Int.floor_int_add, h0, add_zero]
  · rw [rat_floor_eq]
    have : (-(n : ℚ) + 1 / 2) = (((-n : Int) : ℚ) + 1 / 2) := by push_cast; ring
    rw [this, Int.floor_int_add, h0, add_zero, neg_neg]

/-- Claim C9. Resize clamps to the minimum size by moving only the dragged
edge. For every pointer motion handled while the grab mode is resizing and
the grabbed view is linked in the focus stack, the resulting frame has
`width >= 2 * border + 120` and `height >= titlebar + border + 80`; when the
edge mask contains left but not right, `x + width` equals the initial
`x + width` and `x = init_x + init_width - max(init_width - dx, min_width)`
with `dx` the rounded pointer displacement; and likewise for top but not
bottom with `y` and `height`. -/
theorem C9_resize_clamps_to_minimum (surface_at : Nat → ℚ → ℚ → Option surface_hit) (s : flux_server)
    (delta_x delta_y : ℚ) (t g : Nat) (view : flux_view)
    (hmode : s.cursor_mode = CURSOR_RESIZE) (hg : s.grabbed_view = some g)
    (hfind : find_view s.views g = some view) :
    ∃ v', find_view (cursor_motion_notify surface_at s delta_x delta_y t).views g = some v' ∧
      v'.width ≥ 2 * view_border_px view + 120 ∧
      v'.height ≥ view_titlebar_px view + view_border_px view + 80 ∧
      (s.resize_edges &&& WLR_EDGE_LEFT ≠ 0 → s.resize_edges &&& WLR_EDGE_RIGHT = 0 →
        v'.x + v'.width = s.resize_init_x + s.resize_init_width ∧
        v'.x = s.resize_init_x + s.resize_init_width -
          max (s.resize_init_width -
                lround ((cursor_motion_notify surface_at s delta_x delta_y t).cursor_x -
                  s.resize_cursor_start_x))
            (2 * view_border_px view + 120)) ∧
      (s.resize_edges &&& WLR_EDGE_TOP ≠ 0 → s.resize_edges &&& WLR_EDGE_BOTTOM = 0 →
        v'.y + v'.height = s.resize_init_y + s.resize_init_height ∧
        v'.y = s.resize_init_y + s.resize_init_height -
          max (s.resize_init_height -
                lround ((cursor_motion_notify surface_at s delta_x delta_y t).cursor_y -
                  s.resize_cursor_start_y))
            (view_titlebar_px view + view_border_px view + 80)) := by
  unfold cursor_motion_notify
  simp only []
  generalize hs1 : ({ s with cursor_x := s.cursor_x + delta_x,
                             cursor_y := s.cursor_y + delta_y } : flux_server) = s1
  have e1 : s1.cursor_mode = CURSOR_RESIZE := by rw [← hs1]; exact hmode
  have e2 : s1.grabbed_view = some g := by rw [← hs1]; exact hg
  have e3 : find_view s1.views g = some view := by rw [← hs1]; exact hfind
  have e4 : s1.resize_edges = s.resize_edges ∧ s1.resize_init_x = s.resize_init_x ∧
      s1.resize_init_y = s.resize_init_y ∧ s1.resize_init_width = s.resize_init_width ∧
      s1.resize_init_height = s.resize_init_height ∧
      s1.resize_cursor_start_x = s.resize_cursor_start_x ∧
      s1.resize_cursor_start_y = s.resize_cursor_start_y := by
    rw [← hs1]
    exact ⟨rfl, rfl, rfl, rfl, rfl, rfl, rfl⟩
  obtain ⟨f1, f2, f3, f4, f5, f6, f7⟩ := e4
  have hc := (clamp_cursor_same_grab s1).1
  unfold same_grab_state at hc
  obtain ⟨_, _, _, _, _, c6, c7, c8, c9, c10, c11, c12, _⟩ := hc
  have hcur : (process_cursor_motion surface_at s1 t).cursor_x = (clamp_cursor_to_layout s1).cursor_x ∧
      (process_cursor_motion surface_at s1 t).cursor_y = (clamp_cursor_to_layout s1).cursor_y := by
    rw [process_cursor_motion_resize_view surface_at s1 t g view e1 e2 e3]
    exact ⟨rfl, rfl⟩
  have hmin := resize_frame_box_min (clamp_cursor_to_layout s1) view
  obtain ⟨m1, m2, m3, m4, m5⟩ := view_set_frame_size_of_min
    { view with x := (resize_frame_box (clamp_cursor_to_layout s1) view).x,
                y := (resize_frame_box (clamp_cursor_to_layout s1) view).y }
    (resize_frame_box (clamp_cursor_to_layout s1) view).width
    (resize_frame_box (clamp_cursor_to_layout s1) view).height hmin.1 hmin.2
  refine ⟨_, resize_motion_view surface_at s1 t g view e1 e2 e3, ?_, ?_, ?_, ?_⟩
  · rw [m1]; exact hmin.1
  · rw [m2]; exact hmin.2
  · intro hl hr
    have := resize_frame_box_left (clamp_cursor_to_layout s1) view
      (by rw [c6, f1]; exact hl) (by rw [c6, f1]; exact hr)
    rw [m1, m3, hcur.1]
    rw [c7, c9, c11, f2, f4, f6] at this
    exact this
  · intro ht hb
    have := resize_frame_box_top (clamp_cursor_to_layout s1) view
      (by rw [c6, f1]; exact ht) (by rw [c6, f1]; exact hb)
    rw [m2, m4, hcur.2]
    rw [c8, c10, c12, f3, f5, f7] at this
    exact this

theorem C9_resize_clamps_to_minimum_witness :
    ∃ v', find_view (cursor_motion_notify no_surface demo_resizing_left (-30) (-20) 5).views 1
        = some v' ∧
      v'.width ≥ 2 * view_border_px demo_view_A + 120 ∧
      v'.height ≥ view_titlebar_px demo_view_A + view_border_px demo_view_A + 80 ∧
      (demo_resizing_left.resize_edges &&& WLR_EDGE_LEFT ≠ 0 →
        demo_resizing_left.resize_edges &&& WLR_EDGE_RIGHT = 0 →
        v'.x + v'.width =
          demo_resizing_left.resize_init_x + demo_resizing_left.resize_init_width ∧
        v'.x = demo_resizing_left.resize_init_x + demo_resizing_left.resize_init_width -
          max (demo_resizing_left.resize_init_width -
                lround ((cursor_motion_notify no_surface demo_resizing_left
                  (-30) (-20) 5).cursor_x - demo_resizing_left.resize_cursor_start_x))
            (2 * view_border_px demo_view_A + 120)) ∧
      (demo_resizing_left.resize_edges &&& WLR_EDGE_TOP ≠ 0 →
        demo_resizing_left.resize_edges &&& WLR_EDGE_BOTTOM = 0 →
        v'.y + v'.height =
          demo_resizing_left.resize_init_y + demo_resizing_left.resize_init_height ∧
        v'.y = demo_resizing_left.resize_init_y + demo_resizing_left.resize_init_height -
          max (demo_resizing_left.resize_init_height -
                lround ((cursor_motion_notify no_surface demo_resizing_left
                  (-30) (-20) 5).cursor_y - demo_resizing_left.resize_cursor_start_y))
            (view_titlebar_px demo_view_A + view_border_px demo_view_A + 80)) :=
  C9_resize_clamps_to_minimum no_surface demo_resizing_left (-30) (-20) 5 1 demo_view_A
    (by decide!) (by decide!) (by with_unfolding_all rfl)

theorem view_at_loop_cons_accept (surface_at : Nat → ℚ → ℚ → Option surface_hit) (lx ly : ℚ)
    (view : flux_view) (rest : List flux_view) (h : view_at_accepts view lx ly) :
    view_at_loop surface_at lx ly (view :: rest) =
      match surface_at view.id (lx - ((view.x + view.content_x : Int) : ℚ))
          (ly - ((view.y + view.content_y : Int) : ℚ)) with
      | some hit => (some view, some hit)
      | none => if !view.use_server_decorations then (none, none) else (some view, none) := by
  rw [view_at_loop]
  simp only [if_neg h.1, if_neg h.2]

theorem view_at_loop_cons_reject (surface_at : Nat → ℚ → ℚ → Option surface_hit) (lx ly : ℚ)
    (view : flux_view) (rest : List flux_view) (h : ¬ view_at_accepts view lx ly) :
    view_at_loop surface_at lx ly (view :: rest) = view_at_loop surface_at lx ly rest := by
  rw [view_at_loop]
  unfold view_at_accepts at h
  by_cases h1 : (!view.mapped || view.minimized || view.minimizing_animation ||
        view.restoring_animation) = true
  · simp only [if_pos h1]
  · have h2 : (lx < (view.x : ℚ) ∨ ly < (view.y : ℚ) ∨
        lx ≥ ((view.x + view.width : Int) : ℚ) ∨ ly ≥ ((view.y + view.height : Int) : ℚ)) := by
      by_contra hc
      exact h ⟨h1, hc⟩
    simp only [if_neg h1, if_pos h2]

theorem view_at_loop_some (surface_at : Nat → ℚ → ℚ → Option surface_hit) (lx ly : ℚ) :
    ∀ (l : List flux_view) (v : flux_view) (hit : Option surface_hit),
      view_at_loop surface_at lx ly l = (some v, hit) →
      v ∈ l ∧ view_at_accepts v lx ly ∧
      surface_at v.id (lx - ((v.x + v.content_x : Int) : ℚ))
        (ly - ((v.y + v.content_y : Int) : ℚ)) = hit ∧
      (hit = none → v.use_server_decorations = true) := by
  intro l
  induction l with
  | nil => intro v hit h; simp [view_at_loop] at h
  | cons view rest ih =>
    intro v hit h
    by_cases ha : view_at_accepts view lx ly
    · rw [view_at_loop_cons_accept _ _ _ _ _ ha] at h
      cases hs : surface_at view.id (lx - ((view.x + view.content_x : Int) : ℚ))
          (ly - ((view.y + view.content_y : Int) : ℚ)) with
      | some hh =>
        rw [hs] at h
        simp only [Prod.mk.injEq, Option.some.injEq] at h
        obtain ⟨rfl, rfl⟩ := h
        exact ⟨List.mem_cons_self _ _, ha, hs, by simp⟩
      | none =>
        rw [hs] at h
        by_cases hd : view.use_server_decorations = true
        · simp only [hd, Bool.not_true, Bool.false_eq_true, if_false, Prod.mk.injEq,
            Option.some.injEq] at h
          obtain ⟨rfl, rfl⟩ := h
          exact ⟨List.mem_cons_self _ _, ha, hs, fun _ => hd⟩
        · simp [hd] at h
    · rw [view_at_loop_cons_reject _ _ _ _ _ ha] at h
      obtain ⟨h1, h2⟩ := ih v hit h
      exact ⟨List.mem_cons_of_mem _ h1, h2⟩

theorem view_frame_at_loop_mem (lx ly : ℚ) :
    ∀ (l : List flux_view) (v : flux_view), view_frame_at_loop lx ly l = some v → v ∈ l := by
  intro l
  induction l with
  | nil => intro v h; simp [view_frame_at_loop] at h
  | cons view rest ih =>
    intro v h
    rw [view_frame_at_loop] at h
    simp only [] at h
    split_ifs at h
    · exact List.mem_cons_of_mem _ (ih v h)
    · exact List.mem_cons_of_mem _ (ih v h)
    · simp only [Option.some.injEq] at h
      rw [← h]
      exact List.mem_cons_self _ _

theorem taskbar_view_at_loop_none (lx ly : ℚ) :
    ∀ (l l2 : List flux_view), (∀ u ∈ l2, u ∈ l) →
      taskbar_view_at_loop lx ly l = none → taskbar_view_at_loop lx ly l2 = none := by
  intro l l2 hsub hl
  have key : ∀ (m : List flux_view), taskbar_view_at_loop lx ly m = none ↔
      ∀ u ∈ m, (!u.taskbar_visible || !u.mapped || !u.minimized) = true ∨
        ¬ (lx ≥ (u.taskbar_x : ℚ) ∧ ly ≥ (u.taskbar_y : ℚ) ∧
          lx < ((u.taskbar_x + u.taskbar_width : Int) : ℚ) ∧
          ly < ((u.taskbar_y + u.taskbar_height : Int) : ℚ)) := by
    intro m
    induction m with
    | nil => simp [taskbar_view_at_loop]
    | cons a m ih =>
      rw [taskbar_view_at_loop]
      simp only [List.mem_cons, forall_eq_or_imp]
      split_ifs with h1 h2
      · rw [ih]
        exact ⟨fun h => ⟨Or.inl h1, h⟩, fun h => h.2⟩
      · constructor
        · intro h
          simp at h
        · rintro ⟨h | h, _⟩
          · exact absurd h h1
          · exact absurd h2 h
      · rw [ih]
        exact ⟨fun h => ⟨Or.inr h2, h⟩, fun h => h.2⟩
  rw [key] at hl ⊢
  exact fun u hu => hl u (hsub u hu)

theorem find_view_of_nodup_mem (l : List flux_view) (v : flux_view)
    (hn : (l.map (fun u => u.id)).Nodup) (hv : v ∈ l) : find_view l v.id = some v := by
  obtain ⟨w, hw⟩ := find_view_of_id_mem l v.id (List.mem_map_of_mem _ hv)
  have hm := find_view_mem hw
  rw [hw, List.inj_on_of_nodup_map hn hm.1 hv hm.2]

theorem focus_view_cases (s : flux_server) (id surface : Nat) (v : flux_view)
    (h : find_view s.views id = some v) :
    focus_view s id surface = s ∨
    ∃ fs cl, focus_view s id surface =
      { s with views := v :: s.views.filter (fun u => u.id != id),
               focused_surface := fs, call_log := cl } := by
  unfold focus_view
  rw [h]
  simp only []
  repeat' (first | exact Or.inl rfl | exact Or.inr ⟨_, _, rfl⟩ | split)

theorem focus_view_views (s : flux_server) (id surface : Nat) (v : flux_view)
    (h : find_view s.views id = some v) :
    (focus_view s id surface).views = s.views ∨
    (focus_view s id surface).views = v :: s.views.filter (fun u => u.id != id) := by
  rcases focus_view_cases s id surface v h with h1 | ⟨fs, cl, h1⟩
  · rw [h1]
    exact Or.inl rfl
  · rw [h1]
    exact Or.inr rfl

theorem resize_margin_ssd (v : flux_view) (hssd : v.use_server_decorations = true)
    (hw : v.width ≥ 2 * BORDER_PX + MIN_CLIENT_WIDTH)
    (hh : v.height ≥ TITLEBAR_PX + BORDER_PX + MIN_CLIENT_HEIGHT) :
    view_resize_hit_margin v = 6 := by
  unfold BORDER_PX MIN_CLIENT_WIDTH at hw
  unfold TITLEBAR_PX BORDER_PX MIN_CLIENT_HEIGHT at hh
  have h1 : view_resize_hit_margin v = clamp_hit_margin v 6 := by
    unfold view_resize_hit_margin view_border_px BORDER_PX
    simp [hssd]
  rw [h1, clamp_hit_margin_eq]
  have e1 : Int.tdiv v.width 2 = v.width / 2 := Int.tdiv_eq_ediv (by omega) (by omega)
  have e2 : Int.tdiv v.height 2 = v.height / 2 := Int.tdiv_eq_ediv (by omega) (by omega)
  rw [e1, e2]
  omega

theorem resize_edges_corner (v : flux_view) (lx ly : ℚ)
    (hssd : v.use_server_decorations = true)
    (hw : v.width ≥ 2 * BORDER_PX + MIN_CLIENT_WIDTH)
    (hh : v.height ≥ TITLEBAR_PX + BORDER_PX + MIN_CLIENT_HEIGHT)
    (hr1 : lx ≥ ((v.x + v.width - view_resize_hit_margin v : Int) : ℚ))
    (hr2 : lx < ((v.x + v.width + view_resize_hit_margin v : Int) : ℚ))
    (hb1 : ly ≥ ((v.y + v.height - view_resize_hit_margin v : Int) : ℚ))
    (hb2 : ly < ((v.y + v.height + view_resize_hit_margin v : Int) : ℚ)) :
    view_resize_edges_at v lx ly = WLR_EDGE_RIGHT ||| WLR_EDGE_BOTTOM := by
  have hm := resize_margin_ssd v hssd hw hh
  unfold BORDER_PX MIN_CLIENT_WIDTH at hw
  unfold TITLEBAR_PX BORDER_PX MIN_CLIENT_HEIGHT at hh
  rw [hm] at hr1 hr2 hb1 hb2
  have hwq : (124 : ℚ) ≤ (v.width : ℚ) := by exact_mod_cast hw
  have hhq : (110 : ℚ) ≤ (v.height : ℚ) := by exact_mod_cast hh
  push_cast at hr1 hr2 hb1 hb2
  unfold view_resize_edges_at
  rw [hm]
  have c0 : ¬ (lx < ((v.x - 6 : Int) : ℚ) ∨ ly < ((v.y - 6 : Int) : ℚ) ∨
      lx ≥ ((v.x + v.width + 6 : Int) : ℚ) ∨ ly ≥ ((v.y + v.height + 6 : Int) : ℚ)) := by
    push_cast
    rintro (h | h | h | h) <;> linarith
  have c1 : decide (lx - (v.x : ℚ) < ((6 : Int) : ℚ)) = false := by
    rw [decide_eq_false_iff_not]; push_cast; linarith
  have c2 : decide (lx - (v.x : ℚ) ≥ ((v.width - 6 : Int) : ℚ)) = true := by
    rw [decide_eq_true_iff]; push_cast; linarith
  have c3 : decide (ly - (v.y : ℚ) < ((6 : Int) : ℚ)) = false := by
    rw [decide_eq_false_iff_not]; push_cast; linarith
  have c4 : decide (ly - (v.y : ℚ) ≥ ((v.height - 6 : Int) : ℚ)) = true := by
    rw [decide_eq_true_iff]; push_cast; linarith
  simp only [if_neg c0, c1, c2, c3, c4, Bool.false_eq_true, if_false, if_true]
  decide

theorem resize_frame_box_grow (server : flux_server) (view : flux_view) (dx dy : Int)
    (he : server.resize_edges = WLR_EDGE_RIGHT ||| WLR_EDGE_BOTTOM)
    (hssd : view.use_server_decorations = true)
    (hdx : lround (server.cursor_x - server.resize_cursor_start_x) = dx)
    (hdy : lround (server.cursor_y - server.resize_cursor_start_y) = dy)
    (hw : server.resize_init_width + dx ≥ 2 * BORDER_PX + MIN_CLIENT_WIDTH)
    (hh : server.resize_init_height + dy ≥ TITLEBAR_PX + BORDER_PX + MIN_CLIENT_HEIGHT) :
    resize_frame_box server view =
      { x := server.resize_init_x, y := server.resize_init_y,
        width := server.resize_init_width + dx, height := server.resize_init_height + dy } := by
  unfold resize_frame_box
  have e1 : ¬ ((WLR_EDGE_RIGHT ||| WLR_EDGE_BOTTOM) &&& WLR_EDGE_LEFT ≠ 0) := by decide
  have e2 : (WLR_EDGE_RIGHT ||| WLR_EDGE_BOTTOM) &&& WLR_EDGE_RIGHT ≠ 0 := by decide
  have e3 : ¬ ((WLR_EDGE_RIGHT ||| WLR_EDGE_BOTTOM) &&& WLR_EDGE_TOP ≠ 0) := by decide
  have e4 : (WLR_EDGE_RIGHT ||| WLR_EDGE_BOTTOM) &&& WLR_EDGE_BOTTOM ≠ 0 := by decide
  simp only [he, hssd, hdx, hdy, if_true, if_neg e1, if_pos e2, if_neg e3, if_pos e4,
    and_false, if_false]
  have f1 : ¬ (server.resize_init_width + dx < BORDER_PX * 2 + MIN_CLIENT_WIDTH) := by omega
  have f2 : ¬ (server.resize_init_height + dy < TITLEBAR_PX + BORDER_PX + MIN_CLIENT_HEIGHT) := by
    omega
  simp only [if_neg f1, if_neg f2, f1, f2, false_and, if_false]

theorem process_cursor_motion_idle (surface_at : Nat → ℚ → ℚ → Option surface_hit)
    (s : flux_server) (t : Nat) (hidle : s.cursor_mode = CURSOR_PASSTHROUGH) :
    process_cursor_motion surface_at s t =
      process_cursor_motion_passthrough surface_at (clamp_cursor_to_layout s) t := by
  have hc := (clamp_cursor_same_grab s).1
  unfold same_grab_state at hc
  unfold process_cursor_motion
  simp only [hc.1, hidle]
  split
  · simp
  · rfl

theorem frame_view_at_congr (surface_at : Nat → ℚ → ℚ → Option surface_hit)
    (a b : flux_server) (lx ly : ℚ) (h : a.views = b.views) :
    frame_view_at surface_at a lx ly = frame_view_at surface_at b lx ly := by
  unfold frame_view_at view_at view_frame_at
  rw [h]

theorem frame_view_at_mem (surface_at : Nat → ℚ → ℚ → Option surface_hit)
    (c : flux_server) (lx ly : ℚ) (v : flux_view)
    (h : frame_view_at surface_at c lx ly = some v) : v ∈ c.views := by
  unfold frame_view_at view_at view_frame_at at h
  cases hva : view_at_loop surface_at lx ly c.views with
  | mk ov oh =>
    rw [hva] at h
    cases ov with
    | some u =>
      simp only [Option.some.injEq] at h
      subst h
      exact (view_at_loop_some surface_at lx ly c.views u oh hva).1
    | none => exact view_frame_at_loop_mem lx ly c.views v h

theorem passthrough_keeps_candidate (surface_at : Nat → ℚ → ℚ → Option surface_hit)
    (c : flux_server) (t : Nat) (v : flux_view)
    (hnodup : (c.views.map (fun u => u.id)).Nodup)
    (hcand : frame_view_at surface_at c c.cursor_x c.cursor_y = some v) :
    frame_view_at surface_at (process_cursor_motion_passthrough surface_at c t)
      c.cursor_x c.cursor_y = some v ∧
    (∀ u ∈ (process_cursor_motion_passthrough surface_at c t).views, u ∈ c.views) ∧
    find_view (process_cursor_motion_passthrough surface_at c t).views v.id = some v := by
  have hmem := frame_view_at_mem surface_at c _ _ v hcand
  have hfind := find_view_of_nodup_mem c.views v hnodup hmem
  have same : ∀ p : flux_server, p.views = c.views →
      frame_view_at surface_at p c.cursor_x c.cursor_y = some v ∧
      (∀ u ∈ p.views, u ∈ c.views) ∧ find_view p.views v.id = some v := by
    intro p hp
    refine ⟨?_, ?_, ?_⟩
    · rw [frame_view_at_congr surface_at p c _ _ hp]; exact hcand
    · rw [hp]; exact fun u hu => hu
    · rw [hp]; exact hfind
  unfold process_cursor_motion_passthrough
  cases hva : view_at surface_at c c.cursor_x c.cursor_y with
  | mk ov oh =>
    cases ov with
    | none => exact same _ rfl
    | some u =>
      cases oh with
      | none => exact same _ rfl
      | some hit =>
        have hu : u = v := by
          unfold frame_view_at at hcand
          rw [hva] at hcand
          simpa using hcand
        subst hu
        simp only []
        rcases focus_view_cases c u.id hit.surface u hfind with h1 | ⟨fs, cl, h1⟩
        · rw [h1]
          exact same _ rfl
        · rw [h1]
          obtain ⟨_, hacc, hsa, _⟩ := view_at_loop_some surface_at _ _ c.views u (some hit) hva
          refine ⟨?_, ?_, ?_⟩
          · unfold frame_view_at view_at
            simp only []
            rw [view_at_loop_cons_accept _ _ _ _ _ hacc, hsa]
          · intro w hw
            simp only [List.mem_cons, List.mem_filter] at hw
            rcases hw with rfl | hw
            · exact hmem
            · exact hw.1
          · exact find_view_cons_eq _ _ _ rfl

theorem focus_view_find (s : flux_server) (id surface : Nat) (v : flux_view)
    (h : find_view s.views id = some v) :
    find_view (focus_view s id surface).views id = some v := by
  rcases focus_view_views s id surface v h with h1 | h1
  · rw [h1]; exact h
  · rw [h1]; exact find_view_cons_eq _ _ _ (find_view_mem h).2

theorem begin_compositor_resize_fields (p : flux_server) (v : flux_view) (e : Nat)
    (he : e ≠ WLR_EDGE_NONE) :
    (begin_compositor_resize p v e).cursor_mode = CURSOR_RESIZE ∧
    (begin_compositor_resize p v e).grabbed_view = some v.id ∧
    (begin_compositor_resize p v e).resize_edges = e ∧
    (begin_compositor_resize p v e).resize_init_x = v.x ∧
    (begin_compositor_resize p v e).resize_init_y = v.y ∧
    (begin_compositor_resize p v e).resize_init_width = v.width ∧
    (begin_compositor_resize p v e).resize_init_height = v.height ∧
    (begin_compositor_resize p v e).resize_cursor_start_x = p.cursor_x ∧
    (begin_compositor_resize p v e).resize_cursor_start_y = p.cursor_y ∧
    (begin_compositor_resize p v e).cursor_x = p.cursor_x ∧
    (begin_compositor_resize p v e).cursor_y = p.cursor_y ∧
    (begin_compositor_resize p v e).suppress_button_until_release = true ∧
    (begin_compositor_resize p v e).interactive_grab_from_client = false ∧
    (begin_compositor_resize p v e).views = (focus_view p v.id v.surface).views := by
  unfold begin_compositor_resize
  rw [if_neg he]
  obtain ⟨_, h1, h2⟩ := focus_view_same_grab p v.id v.surface
  exact ⟨rfl, rfl, rfl, rfl, rfl, rfl, rfl, h1, h2, h1, h2, rfl, rfl, rfl⟩

theorem press_on_corner (surface_at : Nat → ℚ → ℚ → Option surface_hit)
    (s : flux_server) (v : flux_view) (time_msec : Nat)
    (hnodup : (s.views.map (fun u => u.id)).Nodup)
    (hidle : s.cursor_mode = CURSOR_PASSTHROUGH)
    (hcand : frame_view_at surface_at (clamp_cursor_to_layout s)
      (clamp_cursor_to_layout s).cursor_x (clamp_cursor_to_layout s).cursor_y = some v)
    (hnotask : taskbar_view_at (clamp_cursor_to_layout s)
      (clamp_cursor_to_layout s).cursor_x (clamp_cursor_to_layout s).cursor_y = none)
    (hedges : view_resize_edges_at v (clamp_cursor_to_layout s).cursor_x
      (clamp_cursor_to_layout s).cursor_y = WLR_EDGE_RIGHT ||| WLR_EDGE_BOTTOM) :
    ∃ p : flux_server,
      cursor_button_notify surface_at s
        { time_msec := time_msec, button := BTN_LEFT,
          state := wl_pointer_button_state.PRESSED } =
        begin_compositor_resize p v (WLR_EDGE_RIGHT ||| WLR_EDGE_BOTTOM) ∧
      p.cursor_x = (clamp_cursor_to_layout s).cursor_x ∧
      p.cursor_y = (clamp_cursor_to_layout s).cursor_y ∧
      find_view p.views v.id = some v := by
  have hcv := (clamp_cursor_same_grab s).2
  have hnodup2 : ((clamp_cursor_to_layout s).views.map (fun u => u.id)).Nodup := by
    rw [hcv]; exact hnodup
  obtain ⟨k1, k2, k3⟩ := passthrough_keeps_candidate surface_at (clamp_cursor_to_layout s)
    time_msec v hnodup2 hcand
  have hp := process_cursor_motion_idle surface_at s time_msec hidle
  obtain ⟨vs, fs, cl, hfr⟩ := process_cursor_motion_frame surface_at s time_msec
  have hx : (process_cursor_motion surface_at s time_msec).cursor_x =
      (clamp_cursor_to_layout s).cursor_x := by rw [hfr]
  have hy : (process_cursor_motion surface_at s time_msec).cursor_y =
      (clamp_cursor_to_layout s).cursor_y := by rw [hfr]
  rw [← hp] at k1 k2 k3
  refine ⟨process_cursor_motion surface_at s time_msec, ?_, hx, hy, k3⟩
  unfold cursor_button_notify cursor_button_dispatch
  simp only [if_true]
  have ht : taskbar_view_at (process_cursor_motion surface_at s time_msec)
      (process_cursor_motion surface_at s time_msec).cursor_x
      (process_cursor_motion surface_at s time_msec).cursor_y = none := by
    rw [hx, hy]
    unfold taskbar_view_at at hnotask ⊢
    exact taskbar_view_at_loop_none _ _ _ _ k2 hnotask
  rw [ht]
  simp only []
  rw [hx, hy, k1]
  unfold cursor_button_frame_grab
  simp only [true_and, if_true, hx, hy, hedges]
  have hne : WLR_EDGE_RIGHT ||| WLR_EDGE_BOTTOM ≠ WLR_EDGE_NONE := by decide
  simp only [if_pos hne]

theorem view_destroy_notify_keeps_grab (s : flux_server) (id : Nat) :
    (view_destroy_notify s id).cursor_mode = s.cursor_mode ∧
    (view_destroy_notify s id).grabbed_view = s.grabbed_view := by
  unfold view_destroy_notify taskbar_mark_dirty
  simp only []
  split_ifs <;> simp

theorem view_unmap_notify_keeps_grab (s : flux_server) (id : Nat) :
    (view_unmap_notify s id).cursor_mode = s.cursor_mode ∧
    (view_unmap_notify s id).grabbed_view = s.grabbed_view := by
  unfold view_unmap_notify taskbar_mark_dirty
  simp only []
  split_ifs <;> simp

/-- Claim C2, evaluated on the code. In the resize grab of `A` (view 1), the
destroy notification of `A` unlinks the view but leaves the grab mode
resizing and `grabbed_view` pointing at the freed view; the unmap notification
of `A` likewise leaves the grab mode resizing and `grabbed_view` set. -/
theorem C2_destroy_unmap_keep_grab :
    demo_resizing.cursor_mode = CURSOR_RESIZE ∧ demo_resizing.grabbed_view = some 1 ∧
    (view_destroy_notify demo_resizing 1).cursor_mode = CURSOR_RESIZE ∧
    (view_destroy_notify demo_resizing 1).grabbed_view = some 1 ∧
    (find_view (view_destroy_notify demo_resizing 1).views 1).isNone = true ∧
    (view_unmap_notify demo_resizing 1).cursor_mode = CURSOR_RESIZE ∧
    (view_unmap_notify demo_resizing 1).grabbed_view = some 1 ∧
    ((find_view (view_unmap_notify demo_resizing 1).views 1).map
      (fun v => v.mapped)) = some false := by
  decide!

/-- Claim C10. Corner-resize scenario. In an idle state whose views have
pairwise distinct addresses, let `v` be the server-decorated view that
hit-testing finds at the pointer, with a frame of at least the minimum size,
no taskbar slot under the pointer, and the pointer within the resize margin of
both the right and the bottom edge of `v`. A press of the primary button enters
resizing with grabbed view `v` and edge mask exactly right + bottom; and a
following pointer motion whose displacement is the integer vector `(dx, dy)`,
with `width + dx` and `height + dy` at or above the minimum, sets the frame to
`width + dx` by `height + dy` and leaves `x` and `y` unchanged. -/
theorem C10_corner_resize_scenario (surface_at : Nat → ℚ → ℚ → Option surface_hit)
    (s : flux_server) (v : flux_view) (time_msec : Nat)
    (hnodup : (s.views.map (fun u => u.id)).Nodup)
    (hidle : s.cursor_mode = CURSOR_PASSTHROUGH)
    (hcand : frame_view_at surface_at (clamp_cursor_to_layout s)
      (clamp_cursor_to_layout s).cursor_x (clamp_cursor_to_layout s).cursor_y = some v)
    (hssd : v.use_server_decorations = true)
    (hw : v.width ≥ 2 * BORDER_PX + MIN_CLIENT_WIDTH)
    (hh : v.height ≥ TITLEBAR_PX + BORDER_PX + MIN_CLIENT_HEIGHT)
    (hnotask : taskbar_view_at (clamp_cursor_to_layout s)
      (clamp_cursor_to_layout s).cursor_x (clamp_cursor_to_layout s).cursor_y = none)
    (hr1 : (clamp_cursor_to_layout s).cursor_x ≥
      ((v.x + v.width - view_resize_hit_margin v : Int) : ℚ))
    (hr2 : (clamp_cursor_to_layout s).cursor_x <
      ((v.x + v.width + view_resize_hit_margin v : Int) : ℚ))
    (hb1 : (clamp_cursor_to_layout s).cursor_y ≥
      ((v.y + v.height - view_resize_hit_margin v : Int) : ℚ))
    (hb2 : (clamp_cursor_to_layout s).cursor_y <
      ((v.y + v.height + view_resize_hit_margin v : Int) : ℚ)) :
    (cursor_button_notify surface_at s
        { time_msec := time_msec, button := BTN_LEFT,
          state := wl_pointer_button_state.PRESSED }).cursor_mode = CURSOR_RESIZE ∧
    (cursor_button_notify surface_at s
        { time_msec := time_msec, button := BTN_LEFT,
          state := wl_pointer_button_state.PRESSED }).grabbed_view = some v.id ∧
    (cursor_button_notify surface_at s
        { time_msec := time_msec, button := BTN_LEFT,
          state := wl_pointer_button_state.PRESSED }).resize_edges =
      WLR_EDGE_RIGHT ||| WLR_EDGE_BOTTOM ∧
    ∀ (dx dy : Int) (t2 : Nat),
      (cursor_motion_notify surface_at
          (cursor_button_notify surface_at s
            { time_msec := time_msec, button := BTN_LEFT,
              state := wl_pointer_button_state.PRESSED }) dx dy t2).cursor_x =
        (cursor_button_notify surface_at s
            { time_msec := time_msec, button := BTN_LEFT,
              state := wl_pointer_button_state.PRESSED }).cursor_x + dx →
      (cursor_motion_notify surface_at
          (cursor_button_notify surface_at s
            { time_msec := time_msec, button := BTN_LEFT,
              state := wl_pointer_button_state.PRESSED }) dx dy t2).cursor_y =
        (cursor_button_notify surface_at s
            { time_msec := time_msec, button := BTN_LEFT,
              state := wl_pointer_button_state.PRESSED }).cursor_y + dy →
      v.width + dx ≥ 2 * BORDER_PX + MIN_CLIENT_WIDTH →
      v.height + dy ≥ TITLEBAR_PX + BORDER_PX + MIN_CLIENT_HEIGHT →
      ∃ v2, find_view
          (cursor_motion_notify surface_at
            (cursor_button_notify surface_at s
              { time_msec := time_msec, button := BTN_LEFT,
                state := wl_pointer_button_state.PRESSED }) dx dy t2).views v.id = some v2 ∧
        v2.width = v.width + dx ∧ v2.height = v.height + dy ∧ v2.x = v.x ∧ v2.y = v.y := by
  have hedges := resize_edges_corner v _ _ hssd hw hh hr1 hr2 hb1 hb2
  obtain ⟨p, hs1, px, py, pfind⟩ :=
    press_on_corner surface_at s v time_msec hnodup hidle hcand hnotask hedges
  rw [hs1]
  have hne : WLR_EDGE_RIGHT ||| WLR_EDGE_BOTTOM ≠ WLR_EDGE_NONE := by decide
  obtain ⟨r1, r2, r3, r4, r5, r6, r7, r8, r9, r10, r11, _, _, r14⟩ :=
    begin_compositor_resize_fields p v _ hne
  refine ⟨r1, r2, r3, ?_⟩
  intro dx dy t2 hcx hcy hminw hminh
  generalize hS1 : begin_compositor_resize p v (WLR_EDGE_RIGHT ||| WLR_EDGE_BOTTOM) = s1
    at r1 r2 r3 r4 r5 r6 r7 r8 r9 r10 r11 r14 hcx hcy ⊢
  have hfind1 : find_view s1.views v.id = some v := by
    rw [r14]; exact focus_view_find p v.id v.surface v pfind
  unfold cursor_motion_notify at hcx hcy ⊢
  simp only [] at hcx hcy ⊢
  generalize hS2 : ({ s1 with cursor_x := s1.cursor_x + (dx : ℚ),
                              cursor_y := s1.cursor_y + (dy : ℚ) } : flux_server) = s2
    at hcx hcy ⊢
  have e1 : s2.cursor_mode = CURSOR_RESIZE := by rw [← hS2]; exact r1
  have e2 : s2.grabbed_view = some v.id := by rw [← hS2]; exact r2
  have e3 : find_view s2.views v.id = some v := by rw [← hS2]; exact hfind1
  have e4 : s2.resize_edges = WLR_EDGE_RIGHT ||| WLR_EDGE_BOTTOM ∧ s2.resize_init_x = v.x ∧
      s2.resize_init_y = v.y ∧ s2.resize_init_width = v.width ∧
      s2.resize_init_height = v.height ∧ s2.resize_cursor_start_x = s1.cursor_x ∧
      s2.resize_cursor_start_y = s1.cursor_y := by
    rw [← hS2]
    exact ⟨r3, r4, r5, r6, r7, r8.trans r10.symm, r9.trans r11.symm⟩
  obtain ⟨f1, f2, f3, f4, f5, f6, f7⟩ := e4
  have hc := (clamp_cursor_same_grab s2).1
  unfold same_grab_state at hc
  obtain ⟨_, _, _, _, _, c6, c7, c8, c9, c10, c11, c12, _⟩ := hc
  have hmv := process_cursor_motion_resize_view surface_at s2 t2 v.id v e1 e2 e3
  have hcur : (clamp_cursor_to_layout s2).cursor_x = s1.cursor_x + (dx : ℚ) ∧
      (clamp_cursor_to_layout s2).cursor_y = s1.cursor_y + (dy : ℚ) := by
    rw [hmv] at hcx hcy
    exact ⟨hcx, hcy⟩
  have hdx : lround ((clamp_cursor_to_layout s2).cursor_x -
      (clamp_cursor_to_layout s2).resize_cursor_start_x) = dx := by
    rw [hcur.1, c11, f6, add_sub_cancel_left]
    exact lround_intCast dx
  have hdy : lround ((clamp_cursor_to_layout s2).cursor_y -
      (clamp_cursor_to_layout s2).resize_cursor_start_y) = dy := by
    rw [hcur.2, c12, f7, add_sub_cancel_left]
    exact lround_intCast dy
  have hbox := resize_frame_box_grow (clamp_cursor_to_layout s2) v dx dy
    (by rw [c6, f1]) hssd hdx hdy (by rw [c9, f4]; exact hminw) (by rw [c10, f5]; exact hminh)
  rw [c7, c8, c9, c10, f2, f3, f4, f5] at hbox
  have hview := resize_motion_view surface_at s2 t2 v.id v e1 e2 e3
  rw [hbox] at hview
  have hb : view_border_px v = BORDER_PX := by unfold view_border_px; simp [hssd]
  have ht : view_titlebar_px v = TITLEBAR_PX := by unfold view_titlebar_px; simp [hssd]
  obtain ⟨m1, m2, m3, m4, _⟩ := view_set_frame_size_of_min
    { v with x := v.x, y := v.y } (v.width + dx) (v.height + dy)
    (by
      show v.width + dx ≥ 2 * view_border_px v + 120
      rw [hb]
      exact hminw)
    (by
      show v.height + dy ≥ view_titlebar_px v + view_border_px v + 80
      rw [hb, ht]
      exact hminh)
  exact ⟨_, hview, m1, m2, m3, m4⟩

theorem C10_corner_resize_scenario_witness :
    ∃ v2, find_view
        (cursor_motion_notify no_surface
          (cursor_button_notify no_surface demo_server
            { time_msec := 0, button := BTN_LEFT,
              state := wl_pointer_button_state.PRESSED })
          ((50 : Int) : ℚ) ((30 : Int) : ℚ) 1).views demo_view_A.id = some v2 ∧
      v2.width = demo_view_A.width + 50 ∧ v2.height = demo_view_A.height + 30 ∧
      v2.x = demo_view_A.x ∧ v2.y = demo_view_A.y :=
  (C10_corner_resize_scenario no_surface demo_server demo_view_A 0 (by decide) (by decide)
    (by with_unfolding_all rfl) (by decide) (by decide) (by decide)
    (by with_unfolding_all rfl) (by decide!) (by decide!) (by decide!) (by decide!)).2.2.2
    50 30 1 (by decide!) (by decide!) (by decide) (by decide)


/-! ## Theorems: minimize and restore transitions -/

theorem update_view_const_eq (l : List flux_view) (id : Nat) (view w : flux_view)
    (f : flux_view → flux_view)
    (hn : (l.map (fun u => u.id)).Nodup) (hfind : find_view l id = some view)
    (hf : f view = w) :
    update_view l id (fun _ => w) = update_view l id f := by
  unfold update_view
  apply List.map_congr_left
  intro v hv
  by_cases hid : v.id = id
  · have h1 := find_view_of_nodup_mem l v hn hv
    rw [hid, hfind] at h1
    simp only [Option.some.injEq] at h1
    subst h1
    simp only [if_pos hid, hf]
  · simp only [if_neg hid]

theorem predict_loop_update (box : wlr_box) (bar_y button_y button_h : Int) (t : Nat)
    (incl : Bool) (id : Nat) (f : flux_view → flux_view)
    (hf : ∀ v, (f v).id = v.id ∧ (f v).mapped = v.mapped ∧ (f v).minimized = v.minimized ∧
      (f v).toplevel = v.toplevel) :
    ∀ (l : List flux_view) (cx : Int),
      taskbar_predict_loop box bar_y button_y button_h t incl cx (update_view l id f) =
        taskbar_predict_loop box bar_y button_y button_h t incl cx l := by
  intro l
  induction l with
  | nil => intro cx; rfl
  | cons view rest ih =>
    intro cx
    have hcons : update_view (view :: rest) id f =
        (if view.id = id then f view else view) :: update_view rest id f := rfl
    rw [hcons]
    by_cases hid : view.id = id
    · rw [if_pos hid]
      obtain ⟨h1, h2, h3, h4⟩ := hf view
      unfold taskbar_predict_loop
      simp only [h1, h2, h3, view_display_title, h4, ih]
    · rw [if_neg hid]
      unfold taskbar_predict_loop
      simp only [ih]

theorem predict_update (s : flux_server) (t : Nat) (incl : Bool) (id : Nat)
    (f : flux_view → flux_view)
    (hf : ∀ v, (f v).id = v.id ∧ (f v).mapped = v.mapped ∧ (f v).minimized = v.minimized ∧
      (f v).toplevel = v.toplevel)
    (s2 : flux_server) (hl : s2.layout_box = s.layout_box)
    (hv : s2.views = update_view s.views id f) :
    taskbar_predict_button_box s2 t incl = taskbar_predict_button_box s t incl := by
  unfold taskbar_predict_button_box
  simp only [hl, hv, predict_loop_update _ _ _ _ _ _ _ f hf]

theorem begin_minimize_shape (server : flux_server) (id time_msec : Nat) (view : flux_view)
    (hfind : find_view server.views id = some view)
    (hm : view.mapped = true) (hnm : view.minimized = false)
    (hna : view.minimizing_animation = false) (hnr : view.restoring_animation = false) :
    ∃ (mid : flux_server) (dst : ℚ × ℚ × ℚ),
      mid.layout_box = server.layout_box ∧
      mid.taskbar_dirty = server.taskbar_dirty ∧
      mid.views = update_view server.views id (fun _ =>
        { view with minimizing_animation := true,
                    minimize_animation_start_msec := time_msec,
                    restoring_animation := false,
                    restore_animation_start_msec := 0 }) ∧
      dst = taskbar_target_for_animation mid
        { view with minimizing_animation := true,
                    minimize_animation_start_msec := time_msec,
                    restoring_animation := false,
                    restore_animation_start_msec := 0 } true ∧
      view_begin_minimize_animation server id time_msec =
        { mid with views := update_view mid.views id (fun _ =>
            { view with
              minimizing_animation := true,
              minimize_animation_start_msec := time_msec,
              restoring_animation := false,
              restore_animation_start_msec := 0,
              anim_from_cx := (view.x : ℚ) + (view.width : ℚ) / 2,
              anim_from_cy := (view.y : ℚ) + (view.height : ℚ) / 2,
              anim_to_cx := dst.1,
              anim_to_cy := dst.2.1,
              anim_from_scale := 1,
              anim_to_scale := dst.2.2,
              anim_from_alpha := 1,
              anim_to_alpha := 35 / 100 }) } := by
  have hc : (!view.mapped || view.minimized || view.minimizing_animation ||
      view.restoring_animation) = false := by rw [hm, hnm, hna, hnr]; rfl
  unfold view_begin_minimize_animation
  rw [hfind]
  simp only [hc, Bool.false_eq_true, ↓reduceIte]
  split_ifs <;> exact ⟨_, _, by rfl, by rfl, by rfl, by rfl, rfl⟩

theorem find_view_update_const (l : List flux_view) (id : Nat) (v w : flux_view)
    (h : find_view l id = some v) (hw : w.id = id) :
    find_view (update_view l id (fun _ => w)) id = some w := by
  induction l with
  | nil => simp [find_view] at h
  | cons view rest ih =>
    have hcons : update_view (view :: rest) id (fun _ => w) =
        (if view.id = id then w else view) :: update_view rest id (fun _ => w) := rfl
    rw [hcons]
    by_cases hid : view.id = id
    · rw [if_pos hid, find_view_cons_eq _ _ _ hw]
    · rw [if_neg hid, find_view_cons_ne _ _ _ hid]
      rw [find_view_cons_ne _ _ _ hid] at h
      exact ih h

theorem begin_minimize_predict (server mid : flux_server) (id time_msec : Nat)
    (view : flux_view)
    (hnodup : (server.views.map (fun u => u.id)).Nodup)
    (hfind : find_view server.views id = some view)
    (hl : mid.layout_box = server.layout_box)
    (hv : mid.views = update_view server.views id (fun _ =>
        { view with minimizing_animation := true,
                    minimize_animation_start_msec := time_msec,
                    restoring_animation := false,
                    restore_animation_start_msec := 0 })) :
    taskbar_predict_button_box mid id true = taskbar_predict_button_box server id true := by
  apply predict_update server id true id
    (fun v => { v with minimizing_animation := true,
                       minimize_animation_start_msec := time_msec,
                       restoring_animation := false,
                       restore_animation_start_msec := 0 })
    (fun v => ⟨rfl, rfl, rfl, rfl⟩) mid hl
  rw [hv]
  exact update_view_const_eq server.views id view _ _ hnodup hfind rfl

/-- Claim C11. For the view found at address `id`: if it is unmapped, minimized,
minimizing or restoring, `view_begin_minimize_animation` returns the server
state as it was; if it is unmapped, not minimized, minimizing or restoring,
`view_begin_restore_animation` returns the server state as it was. Every field
of every view and of the server, the taskbar dirty flag included, is therefore
unchanged. -/
theorem C11_ineligible_starts_are_noops (server : flux_server) (id time_msec : Nat) (view : flux_view)
    (hfind : find_view server.views id = some view) :
    ((view.mapped = false ∨ view.minimized = true ∨ view.minimizing_animation = true ∨
        view.restoring_animation = true) →
      view_begin_minimize_animation server id time_msec = server) ∧
    ((view.mapped = false ∨ view.minimized = false ∨ view.minimizing_animation = true ∨
        view.restoring_animation = true) →
      view_begin_restore_animation server id time_msec = server) := by
  constructor
  · intro h
    have hc : (!view.mapped || view.minimized || view.minimizing_animation ||
        view.restoring_animation) = true := by
      rcases h with h | h | h | h <;> rw [h] <;> simp
    unfold view_begin_minimize_animation
    rw [hfind]
    simp only [hc, ↓reduceIte]
  · intro h
    have hc : (!view.mapped || !view.minimized || view.minimizing_animation ||
        view.restoring_animation) = true := by
      rcases h with h | h | h | h <;> rw [h] <;> simp
    unfold view_begin_restore_animation
    rw [hfind]
    simp only [hc, ↓reduceIte]

/-- Claim C11 on the idle desktop: a minimize of the minimized window `M` and a
restore of the window `A`, which is not minimized, change nothing. -/
theorem C11_ineligible_starts_are_noops_witness :
    view_begin_minimize_animation demo_server 2 0 = demo_server ∧
    view_begin_restore_animation demo_server 1 0 = demo_server :=
  ⟨(C11_ineligible_starts_are_noops demo_server 2 0 demo_view_M_slot (by with_unfolding_all rfl)).1 (Or.inr (Or.inl rfl)),
   (C11_ineligible_starts_are_noops demo_server 1 0 demo_view_A (by with_unfolding_all rfl)).2 (Or.inr (Or.inl rfl))⟩

theorem clampf_scale_cases (r : ℚ) :
    clampf r (12 / 100) (35 / 100) = max (12 / 100) (min r (35 / 100)) ∧
    (r < 12 / 100 → clampf r (12 / 100) (35 / 100) = 12 / 100) ∧
    (35 / 100 < r → clampf r (12 / 100) (35 / 100) = 35 / 100) ∧
    (12 / 100 ≤ r → r ≤ 35 / 100 → clampf r (12 / 100) (35 / 100) = r) ∧
    12 / 100 ≤ clampf r (12 / 100) (35 / 100) ∧ clampf r (12 / 100) (35 / 100) ≤ 35 / 100 := by
  unfold clampf
  refine ⟨?_, ?_, ?_, ?_, ?_, ?_⟩
  · split_ifs with h1 h2
    · rw [max_eq_left]
      exact le_trans (min_le_left _ _) (le_of_lt h1)
    · rw [min_eq_right (le_of_lt h2), max_eq_right (by norm_num)]
    · rw [min_eq_left (not_lt.mp h2), max_eq_right (not_lt.mp h1)]
  · intro h
    rw [if_pos h]
  · intro h
    rw [if_neg (by intro h2; linarith), if_pos h]
  · intro h1 h2
    rw [if_neg (not_lt.mpr h1), if_neg (not_lt.mpr h2)]
  · split_ifs with h1 h2
    · exact le_refl _
    · norm_num
    · exact not_lt.mp h1
  · split_ifs with h1 h2
    · norm_num
    · exact le_refl _
    · exact not_lt.mp h2

/-- Claim C17. Let the views have distinct addresses and let the view at `id` be
mapped, not minimized, with no running transition and a frame of positive
size. After `view_begin_minimize_animation` the view is minimizing, whether or
not the slot prediction succeeds; the tween starts at the center
`(x + width / 2, y + height / 2)` with scale 1 and opacity 1, and ends with
opacity 0.35. If `taskbar_predict_button_box` returns the box `b`, the tween
ends at the center of `b`, and with `r = min (b.width / width) (b.height /
height)` its end scale is `max 0.12 (min r 0.35)`: it is 0.12 when
`r < 0.12`, 0.35 when `r > 0.35` and `r` otherwise, and so lies in
[0.12, 0.35]. If the prediction fails, the tween ends at
`(layout.x + layout.width / 2, layout.y + layout.height - 12)` with scale
0.12, where `layout` is the layout box or its 1280x720 default. -/
theorem C17_minimize_start_endpoint (server : flux_server) (id time_msec : Nat) (view : flux_view)
    (hnodup : (server.views.map (fun u => u.id)).Nodup)
    (hfind : find_view server.views id = some view)
    (hm : view.mapped = true) (hnm : view.minimized = false)
    (hna : view.minimizing_animation = false) (hnr : view.restoring_animation = false)
    (_hw : 0 < view.width) (_hh : 0 < view.height) :
    ∃ after : flux_view,
      find_view (view_begin_minimize_animation server id time_msec).views id = some after ∧
      after.minimizing_animation = true ∧
      after.minimize_animation_start_msec = time_msec ∧
      after.minimized = false ∧ after.restoring_animation = false ∧
      after.anim_from_cx = (view.x : ℚ) + (view.width : ℚ) / 2 ∧
      after.anim_from_cy = (view.y : ℚ) + (view.height : ℚ) / 2 ∧
      after.anim_from_scale = 1 ∧ after.anim_from_alpha = 1 ∧
      after.anim_to_alpha = 35 / 100 ∧
      (∀ b : wlr_box, taskbar_predict_button_box server id true = some b →
        after.anim_to_cx = (b.x : ℚ) + (b.width : ℚ) / 2 ∧
        after.anim_to_cy = (b.y : ℚ) + (b.height : ℚ) / 2 ∧
        after.anim_to_scale =
          max (12 / 100)
            (min (min ((b.width : ℚ) / (view.width : ℚ)) ((b.height : ℚ) / (view.height : ℚ)))
              (35 / 100)) ∧
        (min ((b.width : ℚ) / (view.width : ℚ)) ((b.height : ℚ) / (view.height : ℚ)) < 12 / 100 →
          after.anim_to_scale = 12 / 100) ∧
        (35 / 100 < min ((b.width : ℚ) / (view.width : ℚ)) ((b.height : ℚ) / (view.height : ℚ)) →
          after.anim_to_scale = 35 / 100) ∧
        (12 / 100 ≤ min ((b.width : ℚ) / (view.width : ℚ)) ((b.height : ℚ) / (view.height : ℚ)) →
          min ((b.width : ℚ) / (view.width : ℚ)) ((b.height : ℚ) / (view.height : ℚ)) ≤ 35 / 100 →
          after.anim_to_scale =
            min ((b.width : ℚ) / (view.width : ℚ)) ((b.height : ℚ) / (view.height : ℚ))) ∧
        12 / 100 ≤ after.anim_to_scale ∧ after.anim_to_scale ≤ 35 / 100) ∧
      (taskbar_predict_button_box server id true = none →
        after.anim_to_cx = ((get_layout_box_or_default server).x : ℚ) +
          ((get_layout_box_or_default server).width : ℚ) / 2 ∧
        after.anim_to_cy = ((get_layout_box_or_default server).y : ℚ) +
          ((get_layout_box_or_default server).height : ℚ) - 12 ∧
        after.anim_to_scale = 12 / 100) := by
  obtain ⟨mid, dst, hl, _, hv, hdst, heq⟩ :=
    begin_minimize_shape server id time_msec view hfind hm hnm hna hnr
  have hid : view.id = id := (find_view_mem hfind).2
  have hpred := begin_minimize_predict server mid id time_msec view hnodup hfind hl hv
  have hmid : ∃ v1, find_view mid.views id = some v1 := by
    rw [hv]
    exact ⟨_, find_view_update_const _ _ _ _ hfind hid⟩
  obtain ⟨v1, hv1⟩ := hmid
  have hlay : get_layout_box_or_default mid = get_layout_box_or_default server := by
    unfold get_layout_box_or_default
    rw [hl]
  rw [heq]
  refine ⟨_, find_view_update_const _ _ _ _ hv1 hid, rfl, rfl, hnm, rfl, rfl, rfl, rfl, rfl,
    rfl, ?_, ?_⟩
  · intro b hb
    rw [← hpred] at hb
    have hb2 : taskbar_predict_button_box mid view.id true = some b := by rw [hid]; exact hb
    simp only [hdst, taskbar_target_for_animation, hb2, MINIMIZE_ANIMATION_MIN_SCALE]
    exact ⟨trivial, trivial, clampf_scale_cases _⟩
  · intro hb
    rw [← hpred] at hb
    have hb2 : taskbar_predict_button_box mid view.id true = none := by rw [hid]; exact hb
    simp only [hdst, taskbar_target_for_animation, hb2, MINIMIZE_ANIMATION_MIN_SCALE, hlay]
    exact ⟨trivial, trivial, trivial⟩

/-- Claim C17 for window `A` on the idle desktop: the minimize starts, from the
center of `A` and towards opacity 0.35. -/
theorem C17_minimize_start_endpoint_witness :
    ∃ after, find_view (view_begin_minimize_animation demo_server 1 100).views 1 = some after ∧
      after.minimizing_animation = true ∧
      after.anim_from_cx = (demo_view_A.x : ℚ) + (demo_view_A.width : ℚ) / 2 ∧
      after.anim_to_alpha = 35 / 100 ∧
      12 / 100 ≤ after.anim_to_scale ∧ after.anim_to_scale ≤ 35 / 100 := by
  obtain ⟨after, h1, h2, _, _, _, h6, _, _, _, h10, h11, h12⟩ :=
    C17_minimize_start_endpoint demo_server 1 100 demo_view_A
      (by decide) (by with_unfolding_all rfl) rfl rfl rfl rfl (by decide) (by decide)
  refine ⟨after, h1, h2, h6, h10, ?_⟩
  cases hp : taskbar_predict_button_box demo_server 1 true with
  | some b => exact (h11 b hp).2.2.2.2.2.2
  | none =>
    rw [(h12 hp).2.2]
    norm_num

/-- Claim C16, amended. When `view_begin_restore_animation` starts a restore (on
a mapped, minimized view with no running transition and a frame of positive
size), the from values of the tween are taken from the cached taskbar slot of
the view exactly when the view is marked taskbar-visible and the cached width
and height are positive, whether or not the taskbar is dirty. In every other
case the from center is the center of the box that
`taskbar_predict_button_box` returns for the view in the current state, or the
bottom center of the layout when the prediction fails. -/
theorem C16_restore_slot_source_amended (server : flux_server) (id time_msec : Nat) (view : flux_view)
    (hfind : find_view server.views id = some view)
    (hm : view.mapped = true) (hmin : view.minimized = true)
    (hna : view.minimizing_animation = false) (hnr : view.restoring_animation = false)
    (_hw : 0 < view.width) (_hh : 0 < view.height) :
    ∃ after : flux_view,
      find_view (view_begin_restore_animation server id time_msec).views id = some after ∧
      after.restoring_animation = true ∧ after.minimized = false ∧
      ((view.taskbar_visible = true ∧ view.taskbar_width > 0 ∧ view.taskbar_height > 0) →
        after.anim_from_cx = (view.taskbar_x : ℚ) + (view.taskbar_width : ℚ) / 2 ∧
        after.anim_from_cy = (view.taskbar_y : ℚ) + (view.taskbar_height : ℚ) / 2 ∧
        after.anim_from_scale =
          clampf (min ((view.taskbar_width : ℚ) / (view.width : ℚ))
            ((view.taskbar_height : ℚ) / (view.height : ℚ))) (12 / 100) (35 / 100)) ∧
      (¬ (view.taskbar_visible = true ∧ view.taskbar_width > 0 ∧ view.taskbar_height > 0) →
        (∀ b : wlr_box, taskbar_predict_button_box server id false = some b →
          after.anim_from_cx = (b.x : ℚ) + (b.width : ℚ) / 2 ∧
          after.anim_from_cy = (b.y : ℚ) + (b.height : ℚ) / 2 ∧
          after.anim_from_scale =
            clampf (min ((b.width : ℚ) / (view.width : ℚ)) ((b.height : ℚ) / (view.height : ℚ)))
              (12 / 100) (35 / 100)) ∧
        (taskbar_predict_button_box server id false = none →
          after.anim_from_cx = ((get_layout_box_or_default server).x : ℚ) +
            ((get_layout_box_or_default server).width : ℚ) / 2 ∧
          after.anim_from_cy = ((get_layout_box_or_default server).y : ℚ) +
            ((get_layout_box_or_default server).height : ℚ) - 12 ∧
          after.anim_from_scale = 12 / 100)) := by
  have hid : view.id = id := (find_view_mem hfind).2
  have hc : (!view.mapped || !view.minimized || view.minimizing_animation ||
      view.restoring_animation) = false := by rw [hm, hmin, hna, hnr]; rfl
  unfold view_begin_restore_animation
  rw [hfind]
  simp only [hc, Bool.false_eq_true, ↓reduceIte, taskbar_mark_dirty]
  refine ⟨_, find_view_update_const _ _ _ _ hfind (by exact hid), rfl, rfl, ?_, ?_⟩
  · intro hslot
    have hs : (decide (view.taskbar_visible = true ∧ view.taskbar_width > 0 ∧
        view.taskbar_height > 0)) = true := decide_eq_true hslot
    simp only [view_set_visible, hs, ↓reduceIte, MINIMIZE_ANIMATION_MIN_SCALE]
    exact ⟨trivial, trivial, trivial⟩
  · intro hslot
    have hs : (decide (view.taskbar_visible = true ∧ view.taskbar_width > 0 ∧
        view.taskbar_height > 0)) = false := decide_eq_false hslot
    constructor
    · intro b hb
      rw [← hid] at hb
      simp only [view_set_visible, hs, Bool.false_eq_true, ↓reduceIte,
        taskbar_target_for_animation, hb, MINIMIZE_ANIMATION_MIN_SCALE]
      exact ⟨trivial, trivial, trivial⟩
    · intro hb
      rw [← hid] at hb
      simp only [view_set_visible, hs, Bool.false_eq_true, ↓reduceIte,
        taskbar_target_for_animation, hb, MINIMIZE_ANIMATION_MIN_SCALE]
      exact ⟨trivial, trivial, trivial⟩

/-- Claim C16, amended, for the minimized window `M` on the idle desktop: its
restore starts from the center of its cached slot. -/
theorem C16_restore_slot_source_amended_witness :
    ∃ after, find_view (view_begin_restore_animation demo_server 2 9).views 2 = some after ∧
      after.restoring_animation = true ∧ after.minimized = false ∧
      after.anim_from_cx =
        (demo_view_M_slot.taskbar_x : ℚ) + (demo_view_M_slot.taskbar_width : ℚ) / 2 ∧
      after.anim_from_cy =
        (demo_view_M_slot.taskbar_y : ℚ) + (demo_view_M_slot.taskbar_height : ℚ) / 2 := by
  obtain ⟨after, h1, h2, h3, h4, _⟩ := C16_restore_slot_source_amended demo_server 2 9 demo_view_M_slot
    (by with_unfolding_all rfl) rfl rfl rfl rfl (by decide) (by decide)
  exact ⟨after, h1, h2, h3, (h4 ⟨rfl, by decide, by decide⟩).1,
    (h4 ⟨rfl, by decide, by decide⟩).2.1⟩

/-- Claim C16 as stated fails. On the desktop `[B, C]` both windows have a slot,
then `B` is destroyed, which marks the taskbar dirty and leaves the slot of
`C` where it was. A restore of `C` in this state starts from the center
x = 190 of the cached slot, although the taskbar is dirty and
`taskbar_predict_button_box` returns a box with center x = 61. -/
theorem C16_stale_slot_counterexample :
    ∃ before after b,
      demo_server_stale.taskbar_dirty = true ∧
      find_view demo_server_stale.views 6 = some before ∧
      before.mapped = true ∧ before.minimized = true ∧ before.taskbar_visible = true ∧
      find_view (view_begin_restore_animation demo_server_stale 6 9).views 6 = some after ∧
      after.restoring_animation = true ∧
      taskbar_predict_button_box demo_server_stale 6 false = some b ∧
      after.anim_from_cx = 190 ∧ (b.x : ℚ) + (b.width : ℚ) / 2 = 61 ∧
      after.anim_from_cx ≠ (b.x : ℚ) + (b.width : ℚ) / 2 :=
  ⟨_, _, _, by decide, by with_unfolding_all rfl, by with_unfolding_all rfl,
    by with_unfolding_all rfl, by with_unfolding_all rfl, by with_unfolding_all rfl,
    by with_unfolding_all rfl, by with_unfolding_all rfl, by decide!, by decide!, by decide!⟩

theorem clampf_mem (x lo hi : ℚ) (h : lo ≤ hi) : lo ≤ clampf x lo hi ∧ clampf x lo hi ≤ hi := by
  unfold clampf
  split_ifs with h1 h2
  · exact ⟨le_refl _, h⟩
  · exact ⟨h, le_refl _⟩
  · exact ⟨not_lt.mp h1, not_lt.mp h2⟩

theorem clampf_id (x lo hi : ℚ) (h1 : lo ≤ x) (h2 : x ≤ hi) : clampf x lo hi = x := by
  unfold clampf
  rw [if_neg (not_lt.mpr h1), if_neg (not_lt.mpr h2)]

theorem eased_progress_unit (p : ℚ) (hp0 : 0 ≤ p) (hp1 : p ≤ 1) :
    eased_progress p = p * p * (3 - 2 * p) ∧ 0 ≤ eased_progress p ∧ eased_progress p ≤ 1 := by
  have he : eased_progress p = p * p * (3 - 2 * p) := by
    unfold eased_progress
    simp only [clampf_id p 0 1 hp0 hp1]
  rw [he]
  refine ⟨rfl, ?_, ?_⟩
  · have h1 : 0 ≤ p * p := mul_nonneg hp0 hp0
    have h2 : 0 ≤ 3 - 2 * p := by linarith
    exact mul_nonneg h1 h2
  · have h1 : 0 ≤ (1 - p) * (1 - p) := mul_self_nonneg _
    have h2 : 0 ≤ 1 + 2 * p := by linarith
    have h3 : 0 ≤ (1 - p) * (1 - p) * (1 + 2 * p) := mul_nonneg h1 h2
    have h4 : 1 - p * p * (3 - 2 * p) = (1 - p) * (1 - p) * (1 + 2 * p) := by ring
    linarith

theorem lerp_between (a b e : ℚ) (he0 : 0 ≤ e) (he1 : e ≤ 1) :
    min a b ≤ a + (b - a) * e ∧ a + (b - a) * e ≤ max a b := by
  rcases le_total a b with h | h
  · rw [min_eq_left h, max_eq_right h]
    have h1 : 0 ≤ (b - a) * e := mul_nonneg (by linarith) he0
    have h2 : 0 ≤ (b - a) * (1 - e) := mul_nonneg (by linarith) (by linarith)
    constructor <;> nlinarith
  · rw [min_eq_right h, max_eq_left h]
    have h1 : 0 ≤ (a - b) * e := mul_nonneg (by linarith) he0
    have h2 : 0 ≤ (a - b) * (1 - e) := mul_nonneg (by linarith) (by linarith)
    constructor <;> nlinarith

theorem target_scale_range (server : flux_server) (view : flux_view) (incl : Bool) :
    12 / 100 ≤ (taskbar_target_for_animation server view incl).2.2 ∧
    (taskbar_target_for_animation server view incl).2.2 ≤ 35 / 100 := by
  unfold taskbar_target_for_animation
  split
  · exact clampf_mem _ _ _ (by norm_num)
  · simp only [MINIMIZE_ANIMATION_MIN_SCALE]
    constructor <;> norm_num

theorem running_state_core (v : flux_view) (h : tween_set_by_start v) (p : ℚ)
    (hp0 : 0 ≤ p) (hp1 : p ≤ 1) :
    (apply_running_animation_state v p).center_x =
      v.anim_from_cx + (v.anim_to_cx - v.anim_from_cx) * eased_progress p ∧
    (apply_running_animation_state v p).center_y =
      v.anim_from_cy + (v.anim_to_cy - v.anim_from_cy) * eased_progress p ∧
    (apply_running_animation_state v p).scale =
      v.anim_from_scale + (v.anim_to_scale - v.anim_from_scale) * eased_progress p ∧
    (apply_running_animation_state v p).alpha =
      v.anim_from_alpha + (v.anim_to_alpha - v.anim_from_alpha) * eased_progress p ∧
    12 / 100 ≤ (apply_running_animation_state v p).scale ∧
    (apply_running_animation_state v p).scale ≤ 1 ∧
    15 / 100 ≤ (apply_running_animation_state v p).alpha ∧
    (apply_running_animation_state v p).alpha ≤ 1 := by
  obtain ⟨_, he0, he1⟩ := eased_progress_unit p hp0 hp1
  have hs := lerp_between v.anim_from_scale v.anim_to_scale (eased_progress p) he0 he1
  have ha := lerp_between v.anim_from_alpha v.anim_to_alpha (eased_progress p) he0 he1
  have hsr : 12 / 100 ≤ v.anim_from_scale + (v.anim_to_scale - v.anim_from_scale) *
      eased_progress p ∧ v.anim_from_scale + (v.anim_to_scale - v.anim_from_scale) *
      eased_progress p ≤ 1 := by
    rcases h with ⟨h1, h2, h3, _, _⟩ | ⟨h1, h2, h3, _, _⟩
    · rw [h1] at hs ⊢
      rw [min_eq_right (by linarith), max_eq_left (by linarith)] at hs
      exact ⟨by linarith [hs.1], hs.2⟩
    · rw [h1] at hs ⊢
      rw [min_eq_left (by linarith), max_eq_right (by linarith)] at hs
      exact ⟨by linarith [hs.1], hs.2⟩
  have har : 15 / 100 ≤ v.anim_from_alpha + (v.anim_to_alpha - v.anim_from_alpha) *
      eased_progress p ∧ v.anim_from_alpha + (v.anim_to_alpha - v.anim_from_alpha) *
      eased_progress p ≤ 1 := by
    rcases h with ⟨_, _, _, h4, h5⟩ | ⟨_, _, _, h4, h5⟩
    · rw [h4, h5] at ha ⊢
      rw [min_eq_right (by norm_num), max_eq_left (by norm_num)] at ha
      exact ⟨by linarith [ha.1], ha.2⟩
    · rw [h4, h5] at ha ⊢
      rw [min_eq_left (by norm_num), max_eq_right (by norm_num)] at ha
      exact ⟨by linarith [ha.1], ha.2⟩
  have e1 : (apply_running_animation_state v p).scale =
      v.anim_from_scale + (v.anim_to_scale - v.anim_from_scale) * eased_progress p := by
    unfold apply_running_animation_state apply_window_transform
    simp only [MINIMIZE_ANIMATION_MIN_SCALE]
    exact clampf_id _ _ _ hsr.1 hsr.2
  have e2 : (apply_running_animation_state v p).alpha =
      v.anim_from_alpha + (v.anim_to_alpha - v.anim_from_alpha) * eased_progress p := by
    unfold apply_running_animation_state apply_window_transform
    simp only []
    exact clampf_id _ _ _ har.1 har.2
  refine ⟨rfl, rfl, e1, e2, ?_, ?_, ?_, ?_⟩
  · rw [e1]; exact hsr.1
  · rw [e1]; exact hsr.2
  · rw [e2]; exact har.1
  · rw [e2]; exact har.2

theorem begin_minimize_tween (server : flux_server) (id time_msec : Nat) (view after : flux_view)
    (hfind : find_view server.views id = some view)
    (hm : view.mapped = true) (hnm : view.minimized = false)
    (hna : view.minimizing_animation = false) (hnr : view.restoring_animation = false)
    (hafter : find_view (view_begin_minimize_animation server id time_msec).views id =
      some after) :
    tween_set_by_start after := by
  obtain ⟨mid, dst, _, _, hv, hdst, heq⟩ :=
    begin_minimize_shape server id time_msec view hfind hm hnm hna hnr
  have hid : view.id = id := (find_view_mem hfind).2
  have hmid : ∃ v1, find_view mid.views id = some v1 := by
    rw [hv]
    exact ⟨_, find_view_update_const _ _ _ _ hfind hid⟩
  obtain ⟨v1, hv1⟩ := hmid
  rw [heq] at hafter
  simp only [] at hafter
  rw [find_view_update_const _ _ _ _ hv1 (by exact hid)] at hafter
  simp only [Option.some.injEq] at hafter
  subst hafter
  have hr := target_scale_range mid
    { view with minimizing_animation := true,
                minimize_animation_start_msec := time_msec,
                restoring_animation := false,
                restore_animation_start_msec := 0 } true
  rw [← hdst] at hr
  exact Or.inl ⟨rfl, hr.1, hr.2, rfl, rfl⟩

theorem begin_restore_tween (server : flux_server) (id time_msec : Nat) (view after : flux_view)
    (hfind : find_view server.views id = some view)
    (hm : view.mapped = true) (hmin : view.minimized = true)
    (hna : view.minimizing_animation = false) (hnr : view.restoring_animation = false)
    (hafter : find_view (view_begin_restore_animation server id time_msec).views id =
      some after) :
    tween_set_by_start after := by
  have hid : view.id = id := (find_view_mem hfind).2
  have hc : (!view.mapped || !view.minimized || view.minimizing_animation ||
      view.restoring_animation) = false := by rw [hm, hmin, hna, hnr]; rfl
  unfold view_begin_restore_animation at hafter
  rw [hfind] at hafter
  simp only [hc, Bool.false_eq_true, ↓reduceIte, taskbar_mark_dirty] at hafter
  rw [find_view_update_const _ _ _ _ hfind (by exact hid)] at hafter
  simp only [Option.some.injEq] at hafter
  subst hafter
  refine Or.inr ⟨rfl, ?_, ?_, rfl, rfl⟩
  · simp only [view_set_visible]
    split_ifs
    · exact (clampf_mem _ _ _ (by norm_num)).1
    · exact (target_scale_range server view false).1
  · simp only [view_set_visible]
    split_ifs
    · exact (clampf_mem _ _ _ (by unfold MINIMIZE_ANIMATION_MIN_SCALE; norm_num)).2
    · exact (target_scale_range server view false).2

/-- Claim C13. Let `after` be the view as `view_begin_minimize_animation` (on a
mapped view that is not minimized and has no running transition) or
`view_begin_restore_animation` (on a mapped minimized view with no running
transition) leaves it. With exact arithmetic, for every progress `p` in [0, 1]:
the eased value is `p * p * (3 - 2 * p)` and lies in [0, 1]; the scale and the
opacity that `apply_running_animation_state` applies lie between the tween's
from and to values, and inside [0.12, 1] and [0.15, 1]; at `p = 0` the applied
center, scale and opacity are the from values and at `p = 1` the to values. -/
theorem C13_tween_between_endpoints (server : flux_server) (id time_msec : Nat) (view after : flux_view)
    (hfind : find_view server.views id = some view)
    (hm : view.mapped = true)
    (hna : view.minimizing_animation = false) (hnr : view.restoring_animation = false)
    (hafter :
      (view.minimized = false ∧
        find_view (view_begin_minimize_animation server id time_msec).views id = some after) ∨
      (view.minimized = true ∧
        find_view (view_begin_restore_animation server id time_msec).views id = some after))
    (p : ℚ) (hp0 : 0 ≤ p) (hp1 : p ≤ 1) :
    eased_progress p = p * p * (3 - 2 * p) ∧
    0 ≤ eased_progress p ∧ eased_progress p ≤ 1 ∧
    min after.anim_from_scale after.anim_to_scale ≤ (apply_running_animation_state after p).scale ∧
    (apply_running_animation_state after p).scale ≤
      max after.anim_from_scale after.anim_to_scale ∧
    min after.anim_from_alpha after.anim_to_alpha ≤ (apply_running_animation_state after p).alpha ∧
    (apply_running_animation_state after p).alpha ≤
      max after.anim_from_alpha after.anim_to_alpha ∧
    12 / 100 ≤ (apply_running_animation_state after p).scale ∧
    (apply_running_animation_state after p).scale ≤ 1 ∧
    15 / 100 ≤ (apply_running_animation_state after p).alpha ∧
    (apply_running_animation_state after p).alpha ≤ 1 ∧
    (p = 0 →
      (apply_running_animation_state after p).center_x = after.anim_from_cx ∧
      (apply_running_animation_state after p).center_y = after.anim_from_cy ∧
      (apply_running_animation_state after p).scale = after.anim_from_scale ∧
      (apply_running_animation_state after p).alpha = after.anim_from_alpha) ∧
    (p = 1 →
      (apply_running_animation_state after p).center_x = after.anim_to_cx ∧
      (apply_running_animation_state after p).center_y = after.anim_to_cy ∧
      (apply_running_animation_state after p).scale = after.anim_to_scale ∧
      (apply_running_animation_state after p).alpha = after.anim_to_alpha) := by
  have ht : tween_set_by_start after := by
    rcases hafter with ⟨h1, h2⟩ | ⟨h1, h2⟩
    · exact begin_minimize_tween server id time_msec view after hfind hm h1 hna hnr h2
    · exact begin_restore_tween server id time_msec view after hfind hm h1 hna hnr h2
  obtain ⟨he, he0, he1⟩ := eased_progress_unit p hp0 hp1
  obtain ⟨c1, c2, c3, c4, r1, r2, r3, r4⟩ := running_state_core after ht p hp0 hp1
  have hs := lerp_between after.anim_from_scale after.anim_to_scale (eased_progress p) he0 he1
  have ha := lerp_between after.anim_from_alpha after.anim_to_alpha (eased_progress p) he0 he1
  refine ⟨he, he0, he1, ?_, ?_, ?_, ?_, r1, r2, r3, r4, ?_, ?_⟩
  · rw [c3]; exact hs.1
  · rw [c3]; exact hs.2
  · rw [c4]; exact ha.1
  · rw [c4]; exact ha.2
  · intro h0
    have e0 : eased_progress p = 0 := by rw [he, h0]; norm_num
    rw [c1, c2, c3, c4, e0]
    simp
  · intro h1
    have e1 : eased_progress p = 1 := by rw [he, h1]; norm_num
    rw [c1, c2, c3, c4, e1]
    simp

/-- Claim C13 for window `A` halfway through its minimize: the applied scale and
opacity are inside their ranges. -/
theorem C13_tween_between_endpoints_witness :
    12 / 100 ≤ (apply_running_animation_state demo_view_A_minimizing (1 / 2)).scale ∧
    (apply_running_animation_state demo_view_A_minimizing (1 / 2)).scale ≤ 1 ∧
    15 / 100 ≤ (apply_running_animation_state demo_view_A_minimizing (1 / 2)).alpha ∧
    (apply_running_animation_state demo_view_A_minimizing (1 / 2)).alpha ≤ 1 :=
  have h := (C13_tween_between_endpoints demo_server 1 100 demo_view_A demo_view_A_minimizing
    (by with_unfolding_all rfl) rfl rfl rfl (Or.inl ⟨rfl, by with_unfolding_all rfl⟩) (1 / 2)
    (by norm_num) (by norm_num)).2.2.2.2.2.2.2
  ⟨h.1, h.2.1, h.2.2.1, h.2.2.2.1⟩

theorem find_view_update_other (l : List flux_view) (id other : Nat) (w : flux_view)
    (hne : other ≠ id) (hw : w.id = other) :
    find_view (update_view l other (fun _ => w)) id = find_view l id := by
  induction l with
  | nil => rfl
  | cons view rest ih =>
    have hcons : update_view (view :: rest) other (fun _ => w) =
        (if view.id = other then w else view) :: update_view rest other (fun _ => w) := rfl
    rw [hcons]
    by_cases hid : view.id = other
    · rw [if_pos hid, find_view_cons_ne _ _ _ (by rw [hw]; exact hne),
        find_view_cons_ne _ _ _ (by rw [hid]; exact hne), ih]
    · rw [if_neg hid]
      by_cases hv : view.id = id
      · rw [find_view_cons_eq _ _ _ hv, find_view_cons_eq _ _ _ hv]
      · rw [find_view_cons_ne _ _ _ hv, find_view_cons_ne _ _ _ hv, ih]

theorem find_view_filter_other (l : List flux_view) (id other : Nat) (hne : other ≠ id) :
    find_view (l.filter (fun u => u.id != other)) id = find_view l id := by
  induction l with
  | nil => rfl
  | cons view rest ih =>
    by_cases hid : view.id = other
    · have hF : (view :: rest).filter (fun u => u.id != other) =
          rest.filter (fun u => u.id != other) :=
        List.filter_cons_of_neg (by simp [hid])
      rw [hF, find_view_cons_ne _ _ _ (by rw [hid]; exact hne), ih]
    · have hF : (view :: rest).filter (fun u => u.id != other) =
          view :: rest.filter (fun u => u.id != other) :=
        List.filter_cons_of_pos (by simp [hid])
      rw [hF]
      by_cases hv : view.id = id
      · rw [find_view_cons_eq _ _ _ hv, find_view_cons_eq _ _ _ hv]
      · rw [find_view_cons_ne _ _ _ hv, find_view_cons_ne _ _ _ hv, ih]

theorem focus_view_find_other (s : flux_server) (id other surface : Nat) (hne : other ≠ id) :
    find_view (focus_view s other surface).views id = find_view s.views id := by
  cases h : find_view s.views other with
  | none =>
    have : focus_view s other surface = s := by
      unfold focus_view
      rw [h]
    rw [this]
  | some v =>
    rcases focus_view_views s other surface v h with h1 | h1
    · rw [h1]
    · rw [h1, find_view_cons_ne _ _ _ (by rw [(find_view_mem h).2]; exact hne),
        find_view_filter_other _ _ _ hne]

theorem focus_view_mem (s : flux_server) (id surface : Nat) :
    ∀ u ∈ (focus_view s id surface).views, u ∈ s.views := by
  intro u hu
  cases h : find_view s.views id with
  | none =>
    have : focus_view s id surface = s := by
      unfold focus_view
      rw [h]
    rw [this] at hu
    exact hu
  | some v =>
    rcases focus_view_views s id surface v h with h1 | h1
    · rw [h1] at hu; exact hu
    · rw [h1] at hu
      rcases List.mem_cons.mp hu with h2 | h2
      · rw [h2]; exact (find_view_mem h).1
      · exact (List.mem_filter.mp h2).1

theorem focus_view_dirty (s : flux_server) (id surface : Nat) :
    (focus_view s id surface).taskbar_dirty = s.taskbar_dirty := by
  obtain ⟨vs, fs, cl, h⟩ := focus_view_frame s id surface
  rw [h]

theorem update_view_const_mem (l : List flux_view) (id : Nat) (w : flux_view) :
    ∀ u ∈ update_view l id (fun _ => w), u = w ∨ u ∈ l := by
  intro u hu
  unfold update_view at hu
  obtain ⟨a, ha, hau⟩ := List.mem_map.mp hu
  by_cases hid : a.id = id
  · rw [if_pos hid] at hau
    exact Or.inl hau.symm
  · rw [if_neg hid] at hau
    rw [← hau]
    exact Or.inr ha

theorem view_update_geometry_keeps (v : flux_view) :
    (view_update_geometry v).id = v.id ∧
    (view_update_geometry v).x = v.x ∧ (view_update_geometry v).y = v.y ∧
    (view_update_geometry v).mapped = v.mapped ∧
    (view_update_geometry v).minimized = v.minimized ∧
    (view_update_geometry v).minimizing_animation = v.minimizing_animation ∧
    (view_update_geometry v).restoring_animation = v.restoring_animation ∧
    (view_update_geometry v).surface = v.surface ∧
    (view_update_geometry v).use_server_decorations = v.use_server_decorations :=
  ⟨rfl, rfl, rfl, rfl, rfl, rfl, rfl, rfl, rfl⟩

theorem progress_complete_iff (e : Nat) :
    ((e : ℚ) / ((180 : Nat) : ℚ) ≥ 1) ↔ 180 ≤ e := by
  rw [ge_iff_le, le_div_iff₀ (by norm_num), one_mul]
  exact Nat.cast_le

theorem tick_body_cases (s : flux_server) (t id : Nat) :
    view_tick_animations_body s t id = (s, false) ∨
    view_tick_animations_body s t id = (s, true) ∨
    (∃ view, find_view s.views id = some view ∧ view.mapped = true ∧
      view.minimizing_animation = true ∧
      view_tick_animations_body s t id =
        (taskbar_mark_dirty { s with views := update_view s.views id (fun _ =>
          view_set_visible
            { reset_window_animation_state { view with minimizing_animation := false } with
              minimized := true } false) }, false)) ∨
    (∃ view, find_view s.views id = some view ∧ view.mapped = true ∧
      view.minimizing_animation = false ∧ view.restoring_animation = true ∧
      view_tick_animations_body s t id =
        (focus_view { s with views := update_view s.views id (fun _ =>
            reset_window_animation_state { view with restoring_animation := false }) } id
          (reset_window_animation_state { view with restoring_animation := false }).surface,
         false)) := by
  unfold view_tick_animations_body
  cases h : find_view s.views id with
  | none => exact Or.inl rfl
  | some view =>
    simp only []
    split_ifs with h1 h2 h3 h4 h5
    · exact Or.inl rfl
    · exact Or.inr (Or.inr (Or.inl ⟨view, rfl, by simpa using h1, h2, rfl⟩))
    · exact Or.inr (Or.inl rfl)
    · exact Or.inr (Or.inr (Or.inr ⟨view, rfl, by simpa using h1, by simpa using h2, h4, rfl⟩))
    · exact Or.inr (Or.inl rfl)
    · exact Or.inl rfl

theorem tick_body_minimizing (s : flux_server) (t id : Nat) (view : flux_view)
    (hfind : find_view s.views id = some view) (hm : view.mapped = true)
    (hmin : view.minimizing_animation = true) :
    (uint32_sub t view.minimize_animation_start_msec < 180 →
      view_tick_animations_body s t id = (s, true)) ∧
    (180 ≤ uint32_sub t view.minimize_animation_start_msec →
      view_tick_animations_body s t id =
        (taskbar_mark_dirty { s with views := update_view s.views id (fun _ =>
          view_set_visible
            { reset_window_animation_state { view with minimizing_animation := false } with
              minimized := true } false) }, false)) := by
  unfold view_tick_animations_body
  rw [hfind]
  simp only []
  rw [if_neg (by simp [hm]), if_pos hmin]
  simp only [MINIMIZE_ANIMATION_DURATION_MS, progress_complete_iff]
  constructor
  · intro h
    rw [if_neg (by omega)]
  · intro h
    rw [if_pos h]

theorem tick_body_restoring (s : flux_server) (t id : Nat) (view : flux_view)
    (hfind : find_view s.views id = some view) (hm : view.mapped = true)
    (hmin : view.minimizing_animation = false) (hr : view.restoring_animation = true) :
    (uint32_sub t view.restore_animation_start_msec < 180 →
      view_tick_animations_body s t id = (s, true)) ∧
    (180 ≤ uint32_sub t view.restore_animation_start_msec →
      view_tick_animations_body s t id =
        (focus_view { s with views := update_view s.views id (fun _ =>
            reset_window_animation_state { view with restoring_animation := false }) } id
          (reset_window_animation_state { view with restoring_animation := false }).surface,
         false)) := by
  unfold view_tick_animations_body
  rw [hfind]
  simp only []
  rw [if_neg (by simp [hm]), if_neg (by simp [hmin]), if_pos hr]
  simp only [RESTORE_ANIMATION_DURATION_MS, progress_complete_iff]
  constructor
  · intro h
    rw [if_neg (by omega)]
  · intro h
    rw [if_pos h]

theorem tick_body_other (s : flux_server) (t id other : Nat) (hne : other ≠ id) :
    find_view (view_tick_animations_body s t other).1.views id = find_view s.views id := by
  rcases tick_body_cases s t other with h | h | ⟨view, hf, _, _, h⟩ | ⟨view, hf, _, _, _, h⟩
  · rw [h]
  · rw [h]
  · rw [h]
    exact find_view_update_other _ _ _ _ hne (find_view_mem hf).2
  · rw [h]
    simp only []
    rw [focus_view_find_other _ _ _ _ hne]
    exact find_view_update_other _ _ _ _ hne (find_view_mem hf).2

theorem tick_body_dirty (s : flux_server) (t id : Nat) (hd : s.taskbar_dirty = true) :
    (view_tick_animations_body s t id).1.taskbar_dirty = true := by
  rcases tick_body_cases s t id with h | h | ⟨view, _, _, _, h⟩ | ⟨view, _, _, _, _, h⟩
  · rw [h]; exact hd
  · rw [h]; exact hd
  · rw [h]; rfl
  · rw [h]
    simp only []
    rw [focus_view_dirty]
    exact hd

theorem tick_loop_append (t : Nat) (l1 l2 : List Nat) (acc : flux_server × Bool) :
    view_tick_animations_loop t (l1 ++ l2) acc =
      view_tick_animations_loop t l2 (view_tick_animations_loop t l1 acc) := by
  induction l1 generalizing acc with
  | nil => rfl
  | cons a l ih =>
    simp only [List.cons_append, view_tick_animations_loop]
    exact ih _

theorem tick_loop_other (t id : Nat) (l : List Nat) (hnot : id ∉ l)
    (acc : flux_server × Bool) :
    find_view (view_tick_animations_loop t l acc).1.views id = find_view acc.1.views id ∧
    (acc.1.taskbar_dirty = true → (view_tick_animations_loop t l acc).1.taskbar_dirty = true) ∧
    (acc.2 = true → (view_tick_animations_loop t l acc).2 = true) := by
  induction l generalizing acc with
  | nil => exact ⟨rfl, fun h => h, fun h => h⟩
  | cons a l ih =>
    have ha : a ≠ id := fun h => hnot (by rw [h]; exact List.mem_cons_self _ _)
    have hl : id ∉ l := fun h => hnot (List.mem_cons_of_mem _ h)
    simp only [view_tick_animations_loop]
    obtain ⟨h1, h2, h3⟩ := ih hl ((view_tick_animations_body acc.1 t a).1,
      acc.2 || (view_tick_animations_body acc.1 t a).2)
    refine ⟨?_, ?_, ?_⟩
    · rw [h1]
      exact tick_body_other acc.1 t id a ha
    · intro hd
      exact h2 (tick_body_dirty acc.1 t a hd)
    · intro hr
      apply h3
      simp only [hr, Bool.true_or]

theorem tick_focus_on (s : flux_server) (t id : Nat)
    (hnodup : (s.views.map (fun u => u.id)).Nodup)
    (hmem : id ∈ s.views.map (fun u => u.id)) :
    ∃ pre : flux_server × Bool,
      find_view pre.1.views id = find_view s.views id ∧
      find_view (view_tick_animations s t).1.views id =
        find_view (view_tick_animations_body pre.1 t id).1.views id ∧
      ((view_tick_animations_body pre.1 t id).1.taskbar_dirty = true →
        (view_tick_animations s t).1.taskbar_dirty = true) ∧
      ((view_tick_animations_body pre.1 t id).2 = true →
        (view_tick_animations s t).2 = true) := by
  obtain ⟨l1, l2, hsplit⟩ := List.append_of_mem hmem
  rw [hsplit] at hnodup
  have hn1 : id ∉ l1 := fun h =>
    (List.nodup_append.mp hnodup).2.2 h (List.mem_cons_self _ _)
  have hn2 : id ∉ l2 := (List.nodup_cons.mp (List.nodup_append.mp hnodup).2.1).1
  obtain ⟨p1, _, _⟩ := tick_loop_other t id l1 hn1 (s, false)
  refine ⟨view_tick_animations_loop t l1 (s, false), p1, ?_, ?_, ?_⟩
  all_goals
    unfold view_tick_animations
    rw [hsplit, tick_loop_append]
    simp only [view_tick_animations_loop]
  · exact (tick_loop_other t id l2 hn2 _).1
  · exact fun h => (tick_loop_other t id l2 hn2 _).2.1 h
  · intro h
    apply (tick_loop_other t id l2 hn2 _).2.2
    simp only [h, Bool.or_true]

/-- Claim C14. Let the views have distinct addresses and let the view at `id` be
mapped, minimizing and not minimized, with start time `s`. If
`(t - s) mod 2^32 < 180`, `view_tick_animations` at time `t` leaves the view as
it was (minimizing, not minimized) and returns true. If
`(t - s) mod 2^32 >= 180`, the view is afterwards not minimizing and minimized,
the taskbar dirty flag is set, and `x` and `y` of the view are unchanged. -/
theorem C14_minimize_completes_at_180ms (s : flux_server) (t id : Nat) (view : flux_view)
    (hnodup : (s.views.map (fun u => u.id)).Nodup)
    (hfind : find_view s.views id = some view)
    (hm : view.mapped = true) (hmin : view.minimizing_animation = true)
    (hnm : view.minimized = false) :
    (uint32_sub t view.minimize_animation_start_msec < 180 →
      ∃ after, find_view (view_tick_animations s t).1.views id = some after ∧
        after = view ∧
        after.minimizing_animation = true ∧ after.minimized = false ∧
        (view_tick_animations s t).2 = true) ∧
    (180 ≤ uint32_sub t view.minimize_animation_start_msec →
      ∃ after, find_view (view_tick_animations s t).1.views id = some after ∧
        after.minimizing_animation = false ∧ after.minimized = true ∧
        (view_tick_animations s t).1.taskbar_dirty = true ∧
        after.x = view.x ∧ after.y = view.y) := by
  have hmem : id ∈ s.views.map (fun u => u.id) := by
    have := find_view_mem hfind
    rw [← this.2]
    exact List.mem_map_of_mem _ this.1
  obtain ⟨pre, hpre, hv, hd, hr⟩ := tick_focus_on s t id hnodup hmem
  rw [hfind] at hpre
  obtain ⟨b1, b2⟩ := tick_body_minimizing pre.1 t id view hpre hm hmin
  constructor
  · intro h
    rw [b1 h] at hv hr
    exact ⟨view, by rw [hv]; exact hpre, rfl, hmin, hnm, hr rfl⟩
  · intro h
    rw [b2 h] at hv hd
    have hf := find_view_update_const pre.1.views id view
      (view_set_visible
        { reset_window_animation_state { view with minimizing_animation := false } with
          minimized := true } false) hpre (find_view_mem hfind).2
    refine ⟨view_set_visible
        { reset_window_animation_state { view with minimizing_animation := false } with
          minimized := true } false, ?_, rfl, rfl, hd rfl, rfl, rfl⟩
    rw [hv]
    exact hf

/-- Claim C14 for window `A`, which began to minimize at time 100: the tick at
150 leaves it minimizing, the tick at 300 completes the minimize. -/
theorem C14_minimize_completes_at_180ms_witness :
    (∃ after, find_view (view_tick_animations demo_minimizing 150).1.views 1 = some after ∧
      after = demo_view_A_minimizing ∧
      after.minimizing_animation = true ∧ after.minimized = false ∧
      (view_tick_animations demo_minimizing 150).2 = true) ∧
    (∃ after, find_view (view_tick_animations demo_minimizing 300).1.views 1 = some after ∧
      after.minimizing_animation = false ∧ after.minimized = true ∧
      (view_tick_animations demo_minimizing 300).1.taskbar_dirty = true ∧
      after.x = demo_view_A_minimizing.x ∧ after.y = demo_view_A_minimizing.y) :=
  ⟨(C14_minimize_completes_at_180ms demo_minimizing 150 1 demo_view_A_minimizing (by decide)
      (by with_unfolding_all rfl) rfl rfl rfl).1 (by decide),
   (C14_minimize_completes_at_180ms demo_minimizing 300 1 demo_view_A_minimizing (by decide)
      (by with_unfolding_all rfl) rfl rfl rfl).2 (by decide)⟩

theorem uint32_sub_not_later (t start : Nat) (hs : start < 4294967296) (ht : t ≤ start) :
    (t = start → uint32_sub t start = 0) ∧
    (t < start → uint32_sub t start = 4294967296 - (start - t)) := by
  unfold uint32_sub
  constructor
  · intro h
    subst h
    omega
  · intro h
    omega

/-- Claim C15, amended. Let the views have distinct addresses and let the view at
`id` be mapped with a running minimize or restore that started at `start`, and
let `t <= start < 2^32`. The elapsed time is `(t - start) mod 2^32`. If
`t = start` (or `start - t > 2^32 - 180`), the tick at `t` leaves the view as
it was, in its running transition, and returns true. If `t < start` and
`start - t <= 2^32 - 180`, the tick at `t` completes the transition: the view
is no longer minimizing, a minimize leaves it minimized and a restore leaves
it not restoring. -/
theorem C15_tick_at_start_time_amended (s : flux_server) (t id start : Nat) (view : flux_view)
    (hnodup : (s.views.map (fun u => u.id)).Nodup)
    (hfind : find_view s.views id = some view)
    (hm : view.mapped = true)
    (hrun :
      (view.minimizing_animation = true ∧ view.minimize_animation_start_msec = start) ∨
      (view.minimizing_animation = false ∧ view.restoring_animation = true ∧
        view.restore_animation_start_msec = start))
    (hs : start < 4294967296) (ht : t ≤ start) :
    ((t = start ∨ 4294967116 < start - t) →
      find_view (view_tick_animations s t).1.views id = some view ∧
      (view_tick_animations s t).2 = true) ∧
    (t < start → start - t ≤ 4294967116 →
      ∃ after, find_view (view_tick_animations s t).1.views id = some after ∧
        after.minimizing_animation = false ∧
        (view.minimizing_animation = true → after.minimized = true) ∧
        (view.minimizing_animation = false → after.restoring_animation = false)) := by
  have hmem : id ∈ s.views.map (fun u => u.id) := by
    have := find_view_mem hfind
    rw [← this.2]
    exact List.mem_map_of_mem _ this.1
  have hid : view.id = id := (find_view_mem hfind).2
  obtain ⟨pre, hpre, hv, _, hr⟩ := tick_focus_on s t id hnodup hmem
  rw [hfind] at hpre
  obtain ⟨u1, u2⟩ := uint32_sub_not_later t start hs ht
  rcases hrun with ⟨hmin, hst⟩ | ⟨hmin, hres, hst⟩
  · obtain ⟨b1, b2⟩ := tick_body_minimizing pre.1 t id view hpre hm hmin
    constructor
    · intro h
      have hlt : uint32_sub t start < 180 := by
        rcases h with h | h
        · rw [u1 h]; decide
        · rw [u2 (by omega)]; omega
      rw [b1 (by rw [hst]; exact hlt)] at hv hr
      exact ⟨by rw [hv]; exact hpre, hr rfl⟩
    · intro h1 h2
      have hge : 180 ≤ uint32_sub t start := by rw [u2 h1]; omega
      rw [b2 (by rw [hst]; exact hge)] at hv
      have hf := find_view_update_const pre.1.views id view
        (view_set_visible
          { reset_window_animation_state { view with minimizing_animation := false } with
            minimized := true } false) hpre hid
      refine ⟨view_set_visible
        { reset_window_animation_state { view with minimizing_animation := false } with
          minimized := true } false, ?_, rfl, fun _ => rfl, fun h => ?_⟩
      · rw [hv]
        exact hf
      · rw [hmin] at h
        exact absurd h (by decide)
  · obtain ⟨b1, b2⟩ := tick_body_restoring pre.1 t id view hpre hm hmin hres
    constructor
    · intro h
      have hlt : uint32_sub t start < 180 := by
        rcases h with h | h
        · rw [u1 h]; decide
        · rw [u2 (by omega)]; omega
      rw [b1 (by rw [hst]; exact hlt)] at hv hr
      exact ⟨by rw [hv]; exact hpre, hr rfl⟩
    · intro h1 h2
      have hge : 180 ≤ uint32_sub t start := by rw [u2 h1]; omega
      rw [b2 (by rw [hst]; exact hge)] at hv
      have hf := find_view_update_const pre.1.views id view
        (reset_window_animation_state { view with restoring_animation := false }) hpre hid
      refine ⟨reset_window_animation_state { view with restoring_animation := false },
        ?_, hmin, fun h => ?_, fun _ => rfl⟩
      · rw [hv]
        exact focus_view_find _ _ _ _ hf
      · rw [hmin] at h
        exact absurd h (by decide)

/-- Claim C15, amended, for window `A`, which began to minimize at time 100: the
tick at time 100 leaves it as it was and reports a running animation. -/
theorem C15_tick_at_start_time_amended_witness :
    find_view (view_tick_animations demo_minimizing 100).1.views 1 =
      some demo_view_A_minimizing ∧
    (view_tick_animations demo_minimizing 100).2 = true :=
  (C15_tick_at_start_time_amended demo_minimizing 100 1 100 demo_view_A_minimizing (by decide)
    (by with_unfolding_all rfl) rfl (Or.inl ⟨rfl, rfl⟩) (by decide) (by decide)).1
    (Or.inl rfl)

/-- Claim C15 as stated fails. Window `A` began to minimize at time 100. The
tick at time 99, which is not later than the start, has elapsed time
`2^32 - 1` and completes the transition: `A` is minimized afterwards. -/
theorem C15_earlier_timestamp_counterexample :
    ∃ before after,
      find_view demo_minimizing.views 1 = some before ∧
      before.mapped = true ∧ before.minimizing_animation = true ∧
      before.minimize_animation_start_msec = 100 ∧ (99 : Nat) ≤ 100 ∧
      find_view (view_tick_animations demo_minimizing 99).1.views 1 = some after ∧
      after.minimizing_animation = false ∧ after.minimized = true :=
  ⟨_, _, by with_unfolding_all rfl, by with_unfolding_all rfl, by with_unfolding_all rfl,
    by with_unfolding_all rfl, by decide, by with_unfolding_all rfl,
    by with_unfolding_all rfl, by with_unfolding_all rfl⟩

theorem begin_minimize_ineligible (server : flux_server) (id time_msec : Nat) :
    find_view server.views id = none ∨
    (∃ view, find_view server.views id = some view ∧
      (!view.mapped || view.minimized || view.minimizing_animation ||
        view.restoring_animation) = true) →
    view_begin_minimize_animation server id time_msec = server := by
  intro h
  unfold view_begin_minimize_animation
  rcases h with h | ⟨view, h, hc⟩
  · rw [h]
  · rw [h]
    simp only [hc, ↓reduceIte]

theorem begin_restore_ineligible (server : flux_server) (id time_msec : Nat) :
    find_view server.views id = none ∨
    (∃ view, find_view server.views id = some view ∧
      (!view.mapped || !view.minimized || view.minimizing_animation ||
        view.restoring_animation) = true) →
    view_begin_restore_animation server id time_msec = server := by
  intro h
  unfold view_begin_restore_animation
  rcases h with h | ⟨view, h, hc⟩
  · rw [h]
  · rw [h]
    simp only [hc, ↓reduceIte]

theorem begin_restore_shape (server : flux_server) (id time_msec : Nat) (view : flux_view)
    (hfind : find_view server.views id = some view)
    (hc : (!view.mapped || !view.minimized || view.minimizing_animation ||
      view.restoring_animation) = false) :
    ∃ w : flux_view,
      view_begin_restore_animation server id time_msec =
        taskbar_mark_dirty { server with views := update_view server.views id (fun _ => w) } ∧
      w.id = view.id ∧ w.mapped = view.mapped ∧
      w.minimized = false ∧ w.minimizing_animation = false ∧ w.restoring_animation = true ∧
      w.restore_animation_start_msec = time_msec ∧ w.x = view.x ∧ w.y = view.y := by
  unfold view_begin_restore_animation
  rw [hfind]
  simp only [hc, Bool.false_eq_true, ↓reduceIte]
  exact ⟨_, rfl, rfl, rfl, rfl, rfl, rfl, rfl, rfl, rfl⟩

theorem at_most_one_of_two_clear (v : flux_view)
    (h : (v.minimized = false ∧ v.minimizing_animation = false) ∨
      (v.minimized = false ∧ v.restoring_animation = false) ∨
      (v.minimizing_animation = false ∧ v.restoring_animation = false)) :
    at_most_one_transition_flag v := by
  unfold at_most_one_transition_flag
  rcases h with ⟨h1, h2⟩ | ⟨h1, h2⟩ | ⟨h1, h2⟩ <;> simp [h1, h2]

theorem update_const_flags (l : List flux_view) (id : Nat) (w : flux_view)
    (hl : ∀ v ∈ l, at_most_one_transition_flag v) (hw : at_most_one_transition_flag w) :
    ∀ v ∈ update_view l id (fun _ => w), at_most_one_transition_flag v := by
  intro v hv
  rcases update_view_const_mem l id w v hv with h | h
  · rw [h]; exact hw
  · exact hl v h

theorem begin_minimize_flags (s : flux_server) (id time_msec : Nat)
    (h : ∀ v ∈ s.views, at_most_one_transition_flag v) :
    ∀ v ∈ (view_begin_minimize_animation s id time_msec).views,
      at_most_one_transition_flag v := by
  cases hf : find_view s.views id with
  | none =>
    rw [begin_minimize_ineligible s id time_msec (Or.inl hf)]
    exact h
  | some view =>
    by_cases hc : (!view.mapped || view.minimized || view.minimizing_animation ||
        view.restoring_animation) = true
    · rw [begin_minimize_ineligible s id time_msec (Or.inr ⟨view, hf, hc⟩)]
      exact h
    · simp only [Bool.or_eq_true, Bool.not_eq_true', not_or, Bool.not_eq_true] at hc
      obtain ⟨⟨⟨h1, h2⟩, h3⟩, h4⟩ := hc
      have hm : view.mapped = true := by simpa using h1
      obtain ⟨mid, dst, _, _, hv, _, heq⟩ :=
        begin_minimize_shape s id time_msec view hf hm h2 h3 h4
      rw [heq]
      simp only []
      apply update_const_flags
      · rw [hv]
        apply update_const_flags _ _ _ h
        exact at_most_one_of_two_clear _ (Or.inr (Or.inl ⟨h2, rfl⟩))
      · exact at_most_one_of_two_clear _ (Or.inr (Or.inl ⟨h2, rfl⟩))

theorem begin_restore_flags (s : flux_server) (id time_msec : Nat)
    (h : ∀ v ∈ s.views, at_most_one_transition_flag v) :
    ∀ v ∈ (view_begin_restore_animation s id time_msec).views,
      at_most_one_transition_flag v := by
  cases hf : find_view s.views id with
  | none =>
    rw [begin_restore_ineligible s id time_msec (Or.inl hf)]
    exact h
  | some view =>
    by_cases hc : (!view.mapped || !view.minimized || view.minimizing_animation ||
        view.restoring_animation) = true
    · rw [begin_restore_ineligible s id time_msec (Or.inr ⟨view, hf, hc⟩)]
      exact h
    · have hc2 : (!view.mapped || !view.minimized || view.minimizing_animation ||
          view.restoring_animation) = false := by simpa using hc
      obtain ⟨w, heq, _, _, w1, w2, _⟩ := begin_restore_shape s id time_msec view hf hc2
      rw [heq]
      exact update_const_flags _ _ _ h (at_most_one_of_two_clear _ (Or.inl ⟨w1, w2⟩))

theorem tick_body_flags (s : flux_server) (t id : Nat)
    (h : ∀ v ∈ s.views, at_most_one_transition_flag v) :
    ∀ v ∈ (view_tick_animations_body s t id).1.views, at_most_one_transition_flag v := by
  rcases tick_body_cases s t id with e | e | ⟨view, hf, _, hmin, e⟩ | ⟨view, hf, _, hmin, _, e⟩
  · rw [e]; exact h
  · rw [e]; exact h
  · rw [e]
    have hview := h view (find_view_mem hf).1
    unfold at_most_one_transition_flag at hview
    have hres : view.restoring_animation = false := by
      have := hview.2.2
      simpa [hmin] using this
    exact update_const_flags _ _ _ h
      (at_most_one_of_two_clear _ (Or.inr (Or.inr ⟨rfl, hres⟩)))
  · rw [e]
    intro v hv
    have hv2 := focus_view_mem _ _ _ v hv
    refine update_const_flags _ _ _ h ?_ v hv2
    exact at_most_one_of_two_clear _ (Or.inr (Or.inr ⟨hmin, rfl⟩))

theorem tick_loop_flags (t : Nat) (ids : List Nat) (acc : flux_server × Bool)
    (h : ∀ v ∈ acc.1.views, at_most_one_transition_flag v) :
    ∀ v ∈ (view_tick_animations_loop t ids acc).1.views, at_most_one_transition_flag v := by
  induction ids generalizing acc with
  | nil => exact h
  | cons a l ih =>
    simp only [view_tick_animations_loop]
    exact ih _ (tick_body_flags acc.1 t a h)

theorem map_notify_flags (s : flux_server) (id : Nat)
    (h : ∀ v ∈ s.views, at_most_one_transition_flag v) :
    ∀ v ∈ (view_map_notify s id).views, at_most_one_transition_flag v := by
  unfold view_map_notify
  cases hf : find_view s.views id with
  | none => exact h
  | some view =>
    simp only [taskbar_mark_dirty]
    intro v hv
    have hv2 := focus_view_mem _ _ _ v hv
    exact update_const_flags _ _ _ h
      (at_most_one_of_two_clear _ (Or.inl ⟨rfl, rfl⟩)) v hv2

theorem unmap_notify_flags (s : flux_server) (id : Nat)
    (h : ∀ v ∈ s.views, at_most_one_transition_flag v) :
    ∀ v ∈ (view_unmap_notify s id).views, at_most_one_transition_flag v := by
  have hviews : (view_unmap_notify s id).views = update_view s.views id (fun view =>
      view_set_visible
        { view with mapped := false, minimizing_animation := false,
                    restoring_animation := false } false) := by
    unfold view_unmap_notify taskbar_mark_dirty
    simp only []
    split_ifs <;> rfl
  rw [hviews]
  intro v hv
  unfold update_view at hv
  obtain ⟨a, ha, hau⟩ := List.mem_map.mp hv
  by_cases hid : a.id = id
  · rw [if_pos hid] at hau
    rw [← hau]
    exact at_most_one_of_two_clear _ (Or.inr (Or.inr ⟨rfl, rfl⟩))
  · rw [if_neg hid] at hau
    rw [← hau]
    exact h a ha

theorem new_toplevel_flags (s : flux_server) (id surface : Nat) (tl : Option xdg_toplevel)
    (sw sh : Int) (geo : wlr_box)
    (h : ∀ v ∈ s.views, at_most_one_transition_flag v) :
    ∀ v ∈ (new_xdg_toplevel_notify s id surface tl sw sh geo).views,
      at_most_one_transition_flag v := by
  unfold new_xdg_toplevel_notify taskbar_mark_dirty
  simp only []
  intro v hv
  rcases List.mem_cons.mp hv with h1 | h1
  · rw [h1]
    exact at_most_one_of_two_clear _ (Or.inl ⟨rfl, rfl⟩)
  · have hp : (place_new_view s
        { calloc_view id surface tl with
          surface_width := sw, surface_height := sh, reported_geo := geo }).1.views =
        s.views := by
      unfold place_new_view
      simp only []
      split_ifs <;> rfl
    rw [hp] at h1
    exact h v h1

theorem handle_lifecycle_event_flags (s : flux_server) (ev : lifecycle_event)
    (h : ∀ v ∈ s.views, at_most_one_transition_flag v) :
    ∀ v ∈ (handle_lifecycle_event s ev).views, at_most_one_transition_flag v := by
  cases ev with
  | create id surface tl w hh geo => exact new_toplevel_flags s id surface tl w hh geo h
  | map id => exact map_notify_flags s id h
  | unmap id => exact unmap_notify_flags s id h
  | begin_minimize id t => exact begin_minimize_flags s id t h
  | begin_restore id t => exact begin_restore_flags s id t h
  | tick t => exact tick_loop_flags t _ (s, false) h

/-- Claim C12. Let every view of the state `s0` have at most one of the flags
`minimized`, `minimizing_animation`, `restoring_animation` set (as every
freshly created view has, all three being clear). Then after any sequence of
the events new toplevel, map, unmap, `view_begin_minimize_animation`,
`view_begin_restore_animation` and `view_tick_animations`, every view has at
most one of the three flags set; in particular no view is both minimizing and
restoring. -/
theorem C12_transition_flags_exclusive (s0 : flux_server) (events : List lifecycle_event)
    (h0 : ∀ v ∈ s0.views, at_most_one_transition_flag v) :
    ∀ v ∈ (run_lifecycle_events s0 events).views,
      at_most_one_transition_flag v ∧
      ¬ (v.minimizing_animation = true ∧ v.restoring_animation = true) := by
  have key : ∀ v ∈ (run_lifecycle_events s0 events).views, at_most_one_transition_flag v := by
    unfold run_lifecycle_events
    induction events generalizing s0 with
    | nil => exact h0
    | cons ev rest ih =>
      simp only [List.foldl_cons]
      exact ih _ (handle_lifecycle_event_flags s0 ev h0)
  intro v hv
  exact ⟨key v hv, (key v hv).2.2⟩

/-- Claim C12 on a desktop where window 7 is created, mapped, minimized, restored
and unmapped while `A` minimizes: window 7 ends with at most one flag set. -/
theorem C12_transition_flags_exclusive_witness :
    ∃ v, find_view (run_lifecycle_events demo_server_base demo_lifecycle_on_desktop).views 7
        = some v ∧
      at_most_one_transition_flag v ∧
      ¬ (v.minimizing_animation = true ∧ v.restoring_animation = true) := by
  have h : ∃ v, find_view
      (run_lifecycle_events demo_server_base demo_lifecycle_on_desktop).views 7 = some v :=
    ⟨_, by with_unfolding_all rfl⟩
  obtain ⟨v, hv⟩ := h
  exact ⟨v, hv, C12_transition_flags_exclusive demo_server_base demo_lifecycle_on_desktop (by decide) v
    (find_view_mem hv).1⟩

/-! ## Theorems: client requests and forwarded buttons -/

theorem forwarded_buttons_append (s : flux_server) (calls : List wlr_call)
    (vs : List flux_view) (fs : Option Nat) :
    forwarded_buttons { s with views := vs, focused_surface := fs,
                               call_log := s.call_log ++ calls } =
      forwarded_buttons s ++ calls.filter is_pointer_notify_button := by
  unfold forwarded_buttons
  simp only [List.filter_append]

theorem focus_view_forwarded (s : flux_server) (id surface : Nat) :
    forwarded_buttons (focus_view s id surface) = forwarded_buttons s := by
  unfold focus_view forwarded_buttons
  simp only []
  repeat' split
  all_goals simp [List.filter_append, is_pointer_notify_button]

theorem clamp_cursor_forwarded (s : flux_server) :
    forwarded_buttons (clamp_cursor_to_layout s) = forwarded_buttons s := by
  unfold clamp_cursor_to_layout forwarded_buttons
  simp only []
  split_ifs <;> rfl

theorem process_cursor_motion_forwarded (surface_at : Nat → ℚ → ℚ → Option surface_hit)
    (s : flux_server) (t : Nat) :
    forwarded_buttons (process_cursor_motion surface_at s t) = forwarded_buttons s := by
  have hpass : ∀ c : flux_server,
      forwarded_buttons (process_cursor_motion_passthrough surface_at c t) =
        forwarded_buttons c := by
    intro c
    unfold process_cursor_motion_passthrough
    split
    · rename_i view hit _
      have h := focus_view_forwarded c view.id hit.surface
      unfold forwarded_buttons at h ⊢
      simp only [List.filter_append, h]
      simp [is_pointer_notify_button]
    · unfold forwarded_buttons
      simp [List.filter_append, is_pointer_notify_button]
  rw [← clamp_cursor_forwarded s]
  unfold process_cursor_motion
  simp only []
  split
  · split_ifs
    · rfl
    · split
      · unfold process_cursor_motion_resize forwarded_buttons
        simp [List.filter_append, is_pointer_notify_button]
      · rfl
    · exact hpass _
  · exact hpass _

theorem validate_rejects (validate_serial : Nat → Nat → Bool) (view : flux_view)
    (seat : Option Nat) (serial : Nat)
    (h : view.mapped = false ∨ view.minimized = true ∨ view.minimizing_animation = true ∨
      view.restoring_animation = true ∨ validate_serial view.surface serial = false ∨
      seat = none) :
    validate_interactive_request validate_serial view seat serial = false := by
  unfold validate_interactive_request
  rcases h with h | h | h | h | h | h
  · split_ifs with h1 h2 <;> first | rfl | (simp [h] at h2)
  · split_ifs with h1 h2 <;> first | rfl | (simp [h] at h2)
  · split_ifs with h1 h2 <;> first | rfl | (simp [h] at h2)
  · split_ifs with h1 h2 <;> first | rfl | (simp [h] at h2)
  · split_ifs with h1 h2 <;> first | rfl | exact h
  · split_ifs with h1 h2 <;> first | rfl | (simp [h] at h1)

/-- Claim C19. For the view found at address `id`: a move request for it is
ignored, the whole server state staying as it was, if the view is unmapped,
minimized, minimizing or restoring, if the serial fails validation, or if the
request has no seat client; a resize request is ignored in the same cases and
also when its edge mask is empty. Grab mode, grabbed view, resize edges, grab
anchors and the suppression and client-initiated flags are therefore
unchanged. -/
theorem C19_invalid_requests_change_nothing (validate_serial : Nat → Nat → Bool) (s : flux_server) (id : Nat)
    (view : flux_view) (hfind : find_view s.views id = some view) :
    (∀ event : wlr_xdg_toplevel_move_event,
      (view.mapped = false ∨ view.minimized = true ∨ view.minimizing_animation = true ∨
        view.restoring_animation = true ∨
        validate_serial view.surface event.serial = false ∨ event.seat = none) →
      view_request_move_notify validate_serial s id event = s) ∧
    (∀ event : wlr_xdg_toplevel_resize_event,
      (view.mapped = false ∨ view.minimized = true ∨ view.minimizing_animation = true ∨
        view.restoring_animation = true ∨
        validate_serial view.surface event.serial = false ∨ event.seat = none ∨
        event.edges = WLR_EDGE_NONE) →
      view_request_resize_notify validate_serial s id event = s) := by
  constructor
  · intro event h
    unfold view_request_move_notify
    rw [hfind]
    simp only [validate_rejects validate_serial view event.seat event.serial h,
      Bool.not_false, ↓reduceIte]
  · intro event h
    unfold view_request_resize_notify
    rw [hfind]
    simp only []
    by_cases hv : validate_interactive_request validate_serial view event.seat
        event.serial = true
    · have he : event.edges = WLR_EDGE_NONE := by
        rcases h with h | h | h | h | h | h | h
        · rw [validate_rejects validate_serial view event.seat event.serial (Or.inl h)] at hv
          exact absurd hv (by decide)
        · rw [validate_rejects validate_serial view event.seat event.serial
            (Or.inr (Or.inl h))] at hv
          exact absurd hv (by decide)
        · rw [validate_rejects validate_serial view event.seat event.serial
            (Or.inr (Or.inr (Or.inl h)))] at hv
          exact absurd hv (by decide)
        · rw [validate_rejects validate_serial view event.seat event.serial
            (Or.inr (Or.inr (Or.inr (Or.inl h))))] at hv
          exact absurd hv (by decide)
        · rw [validate_rejects validate_serial view event.seat event.serial
            (Or.inr (Or.inr (Or.inr (Or.inr (Or.inl h)))))] at hv
          exact absurd hv (by decide)
        · rw [validate_rejects validate_serial view event.seat event.serial
            (Or.inr (Or.inr (Or.inr (Or.inr (Or.inr h)))))] at hv
          exact absurd hv (by decide)
        · exact h
      simp only [hv, Bool.not_true, Bool.false_eq_true, ↓reduceIte, he]
    · have hv2 : validate_interactive_request validate_serial view event.seat
          event.serial = false := by simpa using hv
      simp only [hv2, Bool.not_false, ↓reduceIte]

/-- Claim C19 on the idle desktop: a move request for the minimized window `M`
and a resize request for `A` with an empty edge mask change nothing. -/
theorem C19_invalid_requests_change_nothing_witness :
    view_request_move_notify accept_serial demo_server 2 demo_move_request = demo_server ∧
    view_request_resize_notify accept_serial demo_server 1
      { seat := some 0, serial := 5, edges := WLR_EDGE_NONE } = demo_server :=
  ⟨(C19_invalid_requests_change_nothing accept_serial demo_server 2 demo_view_M_slot (by with_unfolding_all rfl)).1
      demo_move_request (Or.inr (Or.inl rfl)),
   (C19_invalid_requests_change_nothing accept_serial demo_server 1 demo_view_A (by with_unfolding_all rfl)).2
      { seat := some 0, serial := 5, edges := WLR_EDGE_NONE }
      (Or.inr (Or.inr (Or.inr (Or.inr (Or.inr (Or.inr rfl))))))⟩

theorem begin_compositor_move_fields (p : flux_server) (v : flux_view) :
    (begin_compositor_move p v).cursor_mode = CURSOR_MOVE ∧
    (begin_compositor_move p v).grabbed_view = some v.id ∧
    (begin_compositor_move p v).suppress_button_until_release = true ∧
    (begin_compositor_move p v).interactive_grab_from_client = false :=
  ⟨rfl, rfl, rfl, rfl⟩

theorem press_on_edge (surface_at : Nat → ℚ → ℚ → Option surface_hit)
    (s : flux_server) (v : flux_view) (time_msec : Nat) (e : Nat)
    (hnodup : (s.views.map (fun u => u.id)).Nodup)
    (hidle : s.cursor_mode = CURSOR_PASSTHROUGH)
    (hcand : frame_view_at surface_at (clamp_cursor_to_layout s)
      (clamp_cursor_to_layout s).cursor_x (clamp_cursor_to_layout s).cursor_y = some v)
    (hnotask : taskbar_view_at (clamp_cursor_to_layout s)
      (clamp_cursor_to_layout s).cursor_x (clamp_cursor_to_layout s).cursor_y = none)
    (hedges : view_resize_edges_at v (clamp_cursor_to_layout s).cursor_x
      (clamp_cursor_to_layout s).cursor_y = e)
    (he : e ≠ WLR_EDGE_NONE) :
    cursor_button_notify surface_at s
        { time_msec := time_msec, button := BTN_LEFT,
          state := wl_pointer_button_state.PRESSED } =
      begin_compositor_resize (process_cursor_motion surface_at s time_msec) v e ∧
    (process_cursor_motion surface_at s time_msec).cursor_x =
      (clamp_cursor_to_layout s).cursor_x ∧
    (process_cursor_motion surface_at s time_msec).cursor_y =
      (clamp_cursor_to_layout s).cursor_y := by
  have hcv := (clamp_cursor_same_grab s).2
  have hnodup2 : ((clamp_cursor_to_layout s).views.map (fun u => u.id)).Nodup := by
    rw [hcv]; exact hnodup
  obtain ⟨k1, k2, k3⟩ := passthrough_keeps_candidate surface_at (clamp_cursor_to_layout s)
    time_msec v hnodup2 hcand
  have hp := process_cursor_motion_idle surface_at s time_msec hidle
  obtain ⟨vs, fs, cl, hfr⟩ := process_cursor_motion_frame surface_at s time_msec
  have hx : (process_cursor_motion surface_at s time_msec).cursor_x =
      (clamp_cursor_to_layout s).cursor_x := by rw [hfr]
  have hy : (process_cursor_motion surface_at s time_msec).cursor_y =
      (clamp_cursor_to_layout s).cursor_y := by rw [hfr]
  rw [← hp] at k1 k2 k3
  refine ⟨?_, hx, hy⟩
  unfold cursor_button_notify cursor_button_dispatch
  simp only [if_true]
  have ht : taskbar_view_at (process_cursor_motion surface_at s time_msec)
      (process_cursor_motion surface_at s time_msec).cursor_x
      (process_cursor_motion surface_at s time_msec).cursor_y = none := by
    rw [hx, hy]
    unfold taskbar_view_at at hnotask ⊢
    exact taskbar_view_at_loop_none _ _ _ _ k2 hnotask
  rw [ht]
  simp only []
  rw [hx, hy, k1]
  unfold cursor_button_frame_grab
  simp only [true_and, if_true, hx, hy, hedges]
  simp only [if_pos he]

/-- Claim C20. Let the views have distinct addresses, the state be idle, `v` be
the frame candidate at the pointer, no taskbar slot be under the pointer, and
`view_resize_edges_at` return the non-empty mask `e` for `v` at the pointer.
Then a press of the primary button enters resizing with grabbed view `v`, edge
mask `e`, and the anchor made of `x`, `y`, `width`, `height` of `v` and the
pointer position; the suppression flag is set, the client-initiated flag is
clear, and no button event is forwarded to a client. Nothing is assumed about
the move modifier, the foot drag region or the titlebar drag region. -/
theorem C20_resize_priority_on_press (surface_at : Nat → ℚ → ℚ → Option surface_hit)
    (s : flux_server) (v : flux_view) (time_msec : Nat) (e : Nat)
    (hnodup : (s.views.map (fun u => u.id)).Nodup)
    (hidle : s.cursor_mode = CURSOR_PASSTHROUGH)
    (hcand : frame_view_at surface_at (clamp_cursor_to_layout s)
      (clamp_cursor_to_layout s).cursor_x (clamp_cursor_to_layout s).cursor_y = some v)
    (hnotask : taskbar_view_at (clamp_cursor_to_layout s)
      (clamp_cursor_to_layout s).cursor_x (clamp_cursor_to_layout s).cursor_y = none)
    (hedges : view_resize_edges_at v (clamp_cursor_to_layout s).cursor_x
      (clamp_cursor_to_layout s).cursor_y = e)
    (he : e ≠ WLR_EDGE_NONE) :
    (cursor_button_notify surface_at s
      { time_msec := time_msec, button := BTN_LEFT,
        state := wl_pointer_button_state.PRESSED }).cursor_mode = CURSOR_RESIZE ∧
    (cursor_button_notify surface_at s
      { time_msec := time_msec, button := BTN_LEFT,
        state := wl_pointer_button_state.PRESSED }).grabbed_view = some v.id ∧
    (cursor_button_notify surface_at s
      { time_msec := time_msec, button := BTN_LEFT,
        state := wl_pointer_button_state.PRESSED }).resize_edges = e ∧
    (cursor_button_notify surface_at s
      { time_msec := time_msec, button := BTN_LEFT,
        state := wl_pointer_button_state.PRESSED }).resize_init_x = v.x ∧
    (cursor_button_notify surface_at s
      { time_msec := time_msec, button := BTN_LEFT,
        state := wl_pointer_button_state.PRESSED }).resize_init_y = v.y ∧
    (cursor_button_notify surface_at s
      { time_msec := time_msec, button := BTN_LEFT,
        state := wl_pointer_button_state.PRESSED }).resize_init_width = v.width ∧
    (cursor_button_notify surface_at s
      { time_msec := time_msec, button := BTN_LEFT,
        state := wl_pointer_button_state.PRESSED }).resize_init_height = v.height ∧
    (cursor_button_notify surface_at s
      { time_msec := time_msec, button := BTN_LEFT,
        state := wl_pointer_button_state.PRESSED }).resize_cursor_start_x =
      (clamp_cursor_to_layout s).cursor_x ∧
    (cursor_button_notify surface_at s
      { time_msec := time_msec, button := BTN_LEFT,
        state := wl_pointer_button_state.PRESSED }).resize_cursor_start_y =
      (clamp_cursor_to_layout s).cursor_y ∧
    (cursor_button_notify surface_at s
      { time_msec := time_msec, button := BTN_LEFT,
        state := wl_pointer_button_state.PRESSED }).suppress_button_until_release = true ∧
    (cursor_button_notify surface_at s
      { time_msec := time_msec, button := BTN_LEFT,
        state := wl_pointer_button_state.PRESSED }).interactive_grab_from_client = false ∧
    forwarded_buttons (cursor_button_notify surface_at s
      { time_msec := time_msec, button := BTN_LEFT,
        state := wl_pointer_button_state.PRESSED }) = forwarded_buttons s := by
  obtain ⟨heq, hx, hy⟩ :=
    press_on_edge surface_at s v time_msec e hnodup hidle hcand hnotask hedges he
  rw [heq]
  obtain ⟨b1, b2, b3, b4, b5, b6, b7, b8, b9, _, _, b12, b13, _⟩ :=
    begin_compositor_resize_fields (process_cursor_motion surface_at s time_msec) v e he
  refine ⟨b1, b2, b3, b4, b5, b6, b7, by rw [b8, hx], by rw [b9, hy], b12, b13, ?_⟩
  have hfw := process_cursor_motion_forwarded surface_at s time_msec
  have hff := focus_view_forwarded (process_cursor_motion surface_at s time_msec) v.id v.surface
  rw [← hfw, ← hff]
  unfold begin_compositor_resize
  rw [if_neg he]
  rfl

/-- Claim C20 on the idle desktop with the pointer on the bottom-right corner of
`A`: the press enters resizing by the right and bottom edges and is not
forwarded. -/
theorem C20_resize_priority_on_press_witness :
    (cursor_button_notify no_surface demo_server press_left).cursor_mode = CURSOR_RESIZE ∧
    (cursor_button_notify no_surface demo_server press_left).grabbed_view =
      some demo_view_A.id ∧
    (cursor_button_notify no_surface demo_server press_left).resize_edges =
      WLR_EDGE_RIGHT ||| WLR_EDGE_BOTTOM ∧
    forwarded_buttons (cursor_button_notify no_surface demo_server press_left) =
      forwarded_buttons demo_server :=
  have h := C20_resize_priority_on_press no_surface demo_server demo_view_A 0 (WLR_EDGE_RIGHT ||| WLR_EDGE_BOTTOM)
    (by decide) (by decide) (by with_unfolding_all rfl) (by with_unfolding_all rfl)
    (by decide!) (by decide)
  ⟨h.1, h.2.1, h.2.2.1, h.2.2.2.2.2.2.2.2.2.2.2⟩

/-! ## Theorems: hit-test order and frame geometry -/

theorem view_frame_at_accepts_iff (view : flux_view) (lx ly : ℚ) :
    view_frame_at_accepts view lx ly = true ↔
      ((!view.mapped || view.minimized || view.minimizing_animation ||
          view.restoring_animation) = false ∧
       ¬ (lx < ((view.x - view_outer_grab_pad view : Int) : ℚ) ∨
          ly < ((view.y - view_outer_grab_pad view : Int) : ℚ) ∨
          lx ≥ ((view.x + view.width + view_outer_grab_pad view : Int) : ℚ) ∨
          ly ≥ ((view.y + view.height + view_outer_grab_pad view : Int) : ℚ))) := by
  unfold view_frame_at_accepts
  simp only [Bool.and_eq_true, decide_eq_true_eq, not_or, not_lt, ge_iff_le, not_le]
  cases view.mapped <;> cases view.minimized <;> cases view.minimizing_animation <;>
    cases view.restoring_animation <;> simp

theorem view_frame_at_loop_find (lx ly : ℚ) (l : List flux_view) :
    view_frame_at_loop lx ly l = l.find? (fun v => view_frame_at_accepts v lx ly) := by
  induction l with
  | nil => rfl
  | cons view rest ih =>
    unfold view_frame_at_loop
    rw [List.find?_cons]
    simp only []
    by_cases ha : view_frame_at_accepts view lx ly = true
    · have hb := (view_frame_at_accepts_iff view lx ly).mp ha
      rw [if_neg (by rw [hb.1]; decide), if_neg hb.2, ha]
    · have ha2 : view_frame_at_accepts view lx ly = false := by simpa using ha
      rw [ha2]
      simp only []
      rw [← ih]
      by_cases h1 : (!view.mapped || view.minimized || view.minimizing_animation ||
          view.restoring_animation) = true
      · rw [if_pos h1]
      · rw [if_neg h1]
        have h1f : (!view.mapped || view.minimized || view.minimizing_animation ||
            view.restoring_animation) = false := by simpa using h1
        have h2 : (lx < ((view.x - view_outer_grab_pad view : Int) : ℚ) ∨
            ly < ((view.y - view_outer_grab_pad view : Int) : ℚ) ∨
            lx ≥ ((view.x + view.width + view_outer_grab_pad view : Int) : ℚ) ∨
            ly ≥ ((view.y + view.height + view_outer_grab_pad view : Int) : ℚ)) := by
          by_contra hcon
          exact ha ((view_frame_at_accepts_iff view lx ly).mpr ⟨h1f, hcon⟩)
        rw [if_pos h2]

theorem find_first_split {α : Type} (p : α → Bool) (l : List α) (v : α)
    (h : l.find? p = some v) :
    ∃ pre post, l = pre ++ v :: post ∧ p v = true ∧ ∀ u ∈ pre, p u = false := by
  induction l with
  | nil => simp at h
  | cons a rest ih =>
    rw [List.find?_cons] at h
    by_cases ha : p a = true
    · rw [ha] at h
      simp only [Option.some.injEq] at h
      subst h
      exact ⟨[], rest, rfl, ha, by simp⟩
    · have ha2 : p a = false := by simpa using ha
      rw [ha2] at h
      obtain ⟨pre, post, h1, h2, h3⟩ := ih h
      refine ⟨a :: pre, post, by rw [h1]; rfl, h2, ?_⟩
      intro u hu
      rcases List.mem_cons.mp hu with h4 | h4
      · rw [h4]; exact ha2
      · exact h3 u h4

theorem view_at_loop_eligible (surface_at : Nat → ℚ → ℚ → Option surface_hit) (lx ly : ℚ)
    (l : List flux_view) (v : flux_view) (hit : Option surface_hit)
    (h : view_at_loop surface_at lx ly l = (some v, hit)) :
    v ∈ l ∧ v.mapped = true ∧ v.minimized = false ∧ v.minimizing_animation = false ∧
      v.restoring_animation = false := by
  obtain ⟨hm, ha, _⟩ := view_at_loop_some surface_at lx ly l v hit h
  refine ⟨hm, ?_⟩
  have h1 := ha.1
  revert h1
  cases v.mapped <;> cases v.minimized <;> cases v.minimizing_animation <;>
    cases v.restoring_animation <;> simp

/-- Claim C21. `view_frame_at` returns the first view of the focus stack, from
the top, that is mapped, not minimized, not minimizing, not restoring, and
whose frame rectangle extended by the outer grab pad contains the point: every
view before it in the stack fails that test, and the result is none exactly
when every view fails it. A view returned by `view_at` is a view of the stack
that is mapped, not minimized, not minimizing and not restoring. -/
theorem C21_hit_test_first_eligible (surface_at : Nat → ℚ → ℚ → Option surface_hit) (s : flux_server) (lx ly : ℚ) :
    view_frame_at s lx ly = s.views.find? (fun v => view_frame_at_accepts v lx ly) ∧
    (∀ v, view_frame_at s lx ly = some v →
      ∃ pre post, s.views = pre ++ v :: post ∧ view_frame_at_accepts v lx ly = true ∧
        ∀ u ∈ pre, view_frame_at_accepts u lx ly = false) ∧
    (view_frame_at s lx ly = none ↔ ∀ v ∈ s.views, view_frame_at_accepts v lx ly = false) ∧
    (∀ v hit, view_at surface_at s lx ly = (some v, hit) →
      v ∈ s.views ∧ v.mapped = true ∧ v.minimized = false ∧
        v.minimizing_animation = false ∧ v.restoring_animation = false) := by
  have hf : view_frame_at s lx ly =
      s.views.find? (fun v => view_frame_at_accepts v lx ly) :=
    view_frame_at_loop_find lx ly s.views
  refine ⟨hf, ?_, ?_, ?_⟩
  · intro v hv
    rw [hf] at hv
    exact find_first_split _ _ _ hv
  · rw [hf, List.find?_eq_none]
    constructor
    · intro h v hv
      simpa using h v hv
    · intro h v hv
      simp [h v hv]
  · intro v hit hv
    exact view_at_loop_eligible surface_at lx ly s.views v hit hv

theorem geometry_box_cases (v : flux_view) :
    (v.use_server_decorations = true ∧
      (v.reported_geo.width > 1 ∧ v.reported_geo.height > 1 ∧ v.reported_geo.x ≥ 0 ∧
        v.reported_geo.y ≥ 0) ∧
      view_get_geometry_box v = v.reported_geo) ∨
    ((v.use_server_decorations = false ∨
        ¬ (v.reported_geo.width > 1 ∧ v.reported_geo.height > 1 ∧ v.reported_geo.x ≥ 0 ∧
          v.reported_geo.y ≥ 0)) ∧
      view_get_geometry_box v =
        { x := 0, y := 0,
          width := if v.surface_width ≤ 1 then 640 else v.surface_width,
          height := if v.surface_height ≤ 1 then 480 else v.surface_height }) := by
  unfold view_get_geometry_box
  simp only []
  by_cases hd : v.use_server_decorations = true
  · by_cases hc : v.reported_geo.width > 1 ∧ v.reported_geo.height > 1 ∧
        v.reported_geo.x ≥ 0 ∧ v.reported_geo.y ≥ 0
    · left
      refine ⟨hd, hc, ?_⟩
      rw [if_neg (by rw [hd]; decide), if_pos hc]
    · right
      refine ⟨Or.inr hc, ?_⟩
      rw [if_neg (by rw [hd]; decide), if_neg hc]
  · right
    have hd2 : v.use_server_decorations = false := by simpa using hd
    refine ⟨Or.inl hd2, ?_⟩
    rw [if_pos (by rw [hd2]; decide)]

theorem geometry_box_bounds (v : flux_view) :
    (view_get_geometry_box v).width ≥ 2 ∧ (view_get_geometry_box v).height ≥ 2 ∧
    (view_get_geometry_box v).x ≥ 0 ∧ (view_get_geometry_box v).y ≥ 0 := by
  rcases geometry_box_cases v with ⟨_, hc, h⟩ | ⟨_, h⟩
  · rw [h]
    omega
  · rw [h]
    simp only []
    refine ⟨?_, ?_, le_refl _, le_refl _⟩
    · split_ifs <;> omega
    · split_ifs <;> omega

/-- Claim C24. The box returned by `view_get_geometry_box` is the geometry
reported by the client or the fallback box, which has offset `(0, 0)` and the
surface size with a width of at most 1 replaced by 640 and a height of at most
1 replaced by 480. It is the reported geometry only if that has width > 1,
height > 1, x >= 0 and y >= 0, and it is the fallback box whenever one of the
four conditions fails; for a server-decorated view it is the reported geometry
whenever the four conditions hold. The returned box always has width >= 2,
height >= 2 and a non-negative offset. -/
theorem C24_geometry_box_fallback (v : flux_view) :
    (view_get_geometry_box v = v.reported_geo ∨
      view_get_geometry_box v =
        { x := 0, y := 0,
          width := if v.surface_width ≤ 1 then 640 else v.surface_width,
          height := if v.surface_height ≤ 1 then 480 else v.surface_height }) ∧
    (view_get_geometry_box v = v.reported_geo →
      v.reported_geo.width > 1 ∧ v.reported_geo.height > 1 ∧ v.reported_geo.x ≥ 0 ∧
        v.reported_geo.y ≥ 0) ∧
    (¬ (v.reported_geo.width > 1 ∧ v.reported_geo.height > 1 ∧ v.reported_geo.x ≥ 0 ∧
        v.reported_geo.y ≥ 0) →
      view_get_geometry_box v =
        { x := 0, y := 0,
          width := if v.surface_width ≤ 1 then 640 else v.surface_width,
          height := if v.surface_height ≤ 1 then 480 else v.surface_height }) ∧
    (v.use_server_decorations = true →
      (v.reported_geo.width > 1 ∧ v.reported_geo.height > 1 ∧ v.reported_geo.x ≥ 0 ∧
        v.reported_geo.y ≥ 0) →
      view_get_geometry_box v = v.reported_geo) ∧
    (view_get_geometry_box v).width ≥ 2 ∧ (view_get_geometry_box v).height ≥ 2 ∧
    (view_get_geometry_box v).x ≥ 0 ∧ (view_get_geometry_box v).y ≥ 0 := by
  have hb := geometry_box_bounds v
  refine ⟨?_, ?_, ?_, ?_, hb⟩
  · rcases geometry_box_cases v with ⟨_, _, h⟩ | ⟨_, h⟩
    · exact Or.inl h
    · exact Or.inr h
  · intro h
    rw [h] at hb
    omega
  · intro hn
    rcases geometry_box_cases v with ⟨_, hc, _⟩ | ⟨_, h⟩
    · exact absurd hc hn
    · exact h
  · intro hd hc
    rcases geometry_box_cases v with ⟨_, _, h⟩ | ⟨h1, _⟩
    · exact h
    · rcases h1 with h1 | h1
      · rw [hd] at h1
        exact absurd h1 (by decide)
      · exact absurd hc h1

theorem update_geometry_fields (v : flux_view) :
    (view_update_geometry v).width =
      (view_get_geometry_box v).width + view_border_px v * 2 ∧
    (view_update_geometry v).height =
      (view_get_geometry_box v).height + view_titlebar_px v + view_border_px v ∧
    (view_update_geometry v).content_x = view_border_px v - (view_get_geometry_box v).x ∧
    (view_update_geometry v).content_y = view_titlebar_px v - (view_get_geometry_box v).y ∧
    (view_update_geometry v).xdg_geo_x = (view_get_geometry_box v).x ∧
    (view_update_geometry v).xdg_geo_y = (view_get_geometry_box v).y ∧
    (view_update_geometry v).xdg_geo_width = (view_get_geometry_box v).width ∧
    (view_update_geometry v).xdg_geo_height = (view_get_geometry_box v).height ∧
    (view_update_geometry v).use_server_decorations = v.use_server_decorations := by
  obtain ⟨hw, hh, _, _⟩ := geometry_box_bounds v
  have hbp : view_border_px v ≥ 0 := by
    unfold view_border_px BORDER_PX
    split_ifs <;> omega
  have e1 : ∀ a b c d : Int, view_border_px
      { v with
        xdg_geo_x := a, xdg_geo_y := b, xdg_geo_width := c, xdg_geo_height := d } =
      view_border_px v := fun _ _ _ _ => rfl
  have e2 : ∀ a b c d : Int, view_titlebar_px
      { v with
        xdg_geo_x := a, xdg_geo_y := b, xdg_geo_width := c, xdg_geo_height := d } =
      view_titlebar_px v := fun _ _ _ _ => rfl
  refine ⟨?_, ?_, rfl, rfl, rfl, rfl, rfl, rfl, rfl⟩
  · unfold view_update_geometry view_set_frame_size
    simp only [e1, e2]
    rw [if_neg (by omega)]
  · unfold view_update_geometry view_set_frame_size
    simp only [e1, e2]
    rw [if_neg (by omega)]

/-- Claim C22, amended. After `view_update_geometry` on a view whose geometry
box is `(gx, gy, gw, gh)`, the frame width is `gw + 2 * border` and the frame
height is `gh + titlebar + border`, with one border and not two; border is 2
and titlebar is 28 for a server-decorated view and both are 0 for a
client-decorated view. -/
theorem C22_frame_size_amended (v : flux_view) :
    (view_update_geometry v).width =
      (view_get_geometry_box v).width + 2 * view_border_px v ∧
    (view_update_geometry v).height =
      (view_get_geometry_box v).height + view_titlebar_px v + view_border_px v ∧
    (v.use_server_decorations = true → view_border_px v = 2 ∧ view_titlebar_px v = 28) ∧
    (v.use_server_decorations = false → view_border_px v = 0 ∧ view_titlebar_px v = 0) := by
  obtain ⟨h1, h2, _⟩ := update_geometry_fields v
  refine ⟨by rw [h1]; ring, h2, ?_, ?_⟩
  · intro hd
    unfold view_border_px view_titlebar_px
    rw [hd]
    exact ⟨rfl, rfl⟩
  · intro hd
    unfold view_border_px view_titlebar_px
    rw [hd]
    exact ⟨rfl, rfl⟩

/-- Claim C22 as stated fails. Window `A` is server-decorated with geometry box
`(0, 0, 640, 480)`. After `view_update_geometry` its frame width is
`640 + 2 * 2` and its frame height is 510, which is not `480 + 2 * 2 + 28`. -/
theorem C22_frame_height_counterexample :
    demo_view_A.use_server_decorations = true ∧
    view_get_geometry_box demo_view_A = { x := 0, y := 0, width := 640, height := 480 } ∧
    (view_update_geometry demo_view_A).width = 640 + 2 * 2 ∧
    (view_update_geometry demo_view_A).height = 510 ∧
    (view_update_geometry demo_view_A).height ≠ 480 + 2 * 2 + 28 := by
  decide

/-- Claim C23. For every view, whatever its decoration mode and geometry box
`(gx, gy, gw, gh)`: after `view_update_geometry` the content offset is
`(border - gx, titlebar - gy)`; `view_set_frame_size` with any frame size
leaves that offset as it is; the client size derived from the frame as
`(width - 2 * border, height - titlebar - border)` is `(gw, gh)`; and the
resize branch of `process_cursor_motion`, when its frame box has the size of
the frame, asks the client for exactly the size `(gw, gh)`. -/
theorem C23_geometry_round_trip (v : flux_view) :
    (view_update_geometry v).content_x = view_border_px v - (view_get_geometry_box v).x ∧
    (view_update_geometry v).content_y = view_titlebar_px v - (view_get_geometry_box v).y ∧
    (∀ frame_width frame_height : Int,
      (view_set_frame_size (view_update_geometry v) frame_width frame_height).content_x =
        (view_update_geometry v).content_x ∧
      (view_set_frame_size (view_update_geometry v) frame_width frame_height).content_y =
        (view_update_geometry v).content_y) ∧
    (view_update_geometry v).width - 2 * view_border_px v = (view_get_geometry_box v).width ∧
    (view_update_geometry v).height - view_titlebar_px v - view_border_px v =
      (view_get_geometry_box v).height ∧
    (∀ server : flux_server,
      (resize_frame_box server (view_update_geometry v)).width = (view_update_geometry v).width →
      (resize_frame_box server (view_update_geometry v)).height =
        (view_update_geometry v).height →
      (process_cursor_motion_resize server (view_update_geometry v)).call_log =
        server.call_log ++
          [wlr_call.xdg_toplevel_set_size v.id (view_get_geometry_box v).width
            (view_get_geometry_box v).height]) := by
  obtain ⟨h1, h2, h3, h4, h5, h6, _, _, h9⟩ := update_geometry_fields v
  obtain ⟨hw, hh, _, _⟩ := geometry_box_bounds v
  have hbeq : view_border_px (view_update_geometry v) = view_border_px v := by
    unfold view_border_px
    rw [h9]
  have hteq : view_titlebar_px (view_update_geometry v) = view_titlebar_px v := by
    unfold view_titlebar_px
    rw [h9]
  refine ⟨h3, h4, ?_, by rw [h1]; ring, by rw [h2]; ring, ?_⟩
  · intro fw fh
    unfold view_set_frame_size
    simp only [hbeq, hteq, h5, h6, h3, h4]
    exact ⟨trivial, trivial⟩
  · intro server hbw hbh
    have hb : (if (view_update_geometry v).use_server_decorations = true then BORDER_PX
        else 0) = view_border_px v := by
      rw [← hbeq]; rfl
    have ht : (if (view_update_geometry v).use_server_decorations = true then TITLEBAR_PX
        else 0) = view_titlebar_px v := by
      rw [← hteq]; rfl
    unfold process_cursor_motion_resize
    simp only [hb, ht, hbw, hbh, h1, h2]
    have e1 : (view_get_geometry_box v).width + view_border_px v * 2 - view_border_px v * 2 =
        (view_get_geometry_box v).width := by ring
    have e2 : (view_get_geometry_box v).height + view_titlebar_px v + view_border_px v -
        view_titlebar_px v - view_border_px v = (view_get_geometry_box v).height := by ring
    rw [e1, e2, if_neg (by omega), if_neg (by omega)]
    rfl

/-- Claim C23 for window `A` in the resizing state with the pointer at the grab
anchor: the client is asked for the size of its geometry box. -/
theorem C23_geometry_round_trip_witness :
    (process_cursor_motion_resize demo_resizing (view_update_geometry demo_view_A)).call_log =
      demo_resizing.call_log ++
        [wlr_call.xdg_toplevel_set_size demo_view_A.id
          (view_get_geometry_box demo_view_A).width
          (view_get_geometry_box demo_view_A).height] :=
  (C23_geometry_round_trip demo_view_A).2.2.2.2.2 demo_resizing (by decide!) (by decide!)

theorem margins_ordered (view : flux_view) :
    1 ≤ view_resize_hit_margin view ∧
    view_resize_hit_margin view ≤ view_move_border_margin view ∧
    1 ≤ view_outer_grab_pad view := by
  obtain ⟨b, hb1, hb2, hb⟩ := resize_margin_base view
  have hm : ∃ c : Int, 12 ≤ c ∧ view_move_border_margin view =
      clamp_hit_margin view (if clamp_hit_margin view c ≤ view_resize_hit_margin view
        then view_resize_hit_margin view + 1 else clamp_hit_margin view c) := by
    unfold view_move_border_margin view_border_px BORDER_PX
    cases view.use_server_decorations <;> simp
    · exact ⟨40, by omega, rfl⟩
    · exact ⟨12, by omega, rfl⟩
  obtain ⟨c, hc, hm⟩ := hm
  have hp : ∃ d : Int, view_outer_grab_pad view = clamp_hit_margin view d := by
    unfold view_outer_grab_pad
    exact ⟨_, rfl⟩
  obtain ⟨d, hp⟩ := hp
  rw [hm, hb, hp]
  simp only [clamp_hit_margin_eq]
  generalize Int.tdiv view.width 2 = hw
  generalize Int.tdiv view.height 2 = hh
  refine ⟨by omega, ?_, by omega⟩
  split_ifs <;> omega

theorem edge_mask_nonempty_iff (left right top bottom : Bool) :
    (if bottom = true then
        (if top = true then
          (if right = true then
            (if left = true then WLR_EDGE_NONE ||| WLR_EDGE_LEFT else WLR_EDGE_NONE) |||
              WLR_EDGE_RIGHT
           else (if left = true then WLR_EDGE_NONE ||| WLR_EDGE_LEFT else WLR_EDGE_NONE)) |||
            WLR_EDGE_TOP
         else
          (if right = true then
            (if left = true then WLR_EDGE_NONE ||| WLR_EDGE_LEFT else WLR_EDGE_NONE) |||
              WLR_EDGE_RIGHT
           else (if left = true then WLR_EDGE_NONE ||| WLR_EDGE_LEFT else WLR_EDGE_NONE))) |||
          WLR_EDGE_BOTTOM
      else
        (if top = true then
          (if right = true then
            (if left = true then WLR_EDGE_NONE ||| WLR_EDGE_LEFT else WLR_EDGE_NONE) |||
              WLR_EDGE_RIGHT
           else (if left = true then WLR_EDGE_NONE ||| WLR_EDGE_LEFT else WLR_EDGE_NONE)) |||
            WLR_EDGE_TOP
         else
          (if right = true then
            (if left = true then WLR_EDGE_NONE ||| WLR_EDGE_LEFT else WLR_EDGE_NONE) |||
              WLR_EDGE_RIGHT
           else (if left = true then WLR_EDGE_NONE ||| WLR_EDGE_LEFT else WLR_EDGE_NONE))))
      ≠ WLR_EDGE_NONE ↔
    (left = true ∨ right = true ∨ top = true ∨ bottom = true) := by
  cases left <;> cases right <;> cases top <;> cases bottom <;> decide

theorem resize_edges_nonempty_iff (view : flux_view) (lx ly : ℚ) :
    view_resize_edges_at view lx ly ≠ WLR_EDGE_NONE ↔
      (¬ (lx < ((view.x - view_resize_hit_margin view : Int) : ℚ) ∨
          ly < ((view.y - view_resize_hit_margin view : Int) : ℚ) ∨
          lx ≥ ((view.x + view.width + view_resize_hit_margin view : Int) : ℚ) ∨
          ly ≥ ((view.y + view.height + view_resize_hit_margin view : Int) : ℚ)) ∧
        in_ring view (view_resize_hit_margin view) lx ly) := by
  unfold view_resize_edges_at
  simp only []
  by_cases h0 : (lx < ((view.x - view_resize_hit_margin view : Int) : ℚ) ∨
      ly < ((view.y - view_resize_hit_margin view : Int) : ℚ) ∨
      lx ≥ ((view.x + view.width + view_resize_hit_margin view : Int) : ℚ) ∨
      ly ≥ ((view.y + view.height + view_resize_hit_margin view : Int) : ℚ))
  · rw [if_pos h0]
    constructor
    · intro h; exact absurd rfl h
    · intro h; exact absurd h0 h.1
  · rw [if_neg h0]
    have key := edge_mask_nonempty_iff
      (decide (lx - (view.x : ℚ) < (view_resize_hit_margin view : ℚ)))
      (decide (lx - (view.x : ℚ) ≥ ((view.width - view_resize_hit_margin view : Int) : ℚ)))
      (decide (ly - (view.y : ℚ) < (view_resize_hit_margin view : ℚ)))
      (decide (ly - (view.y : ℚ) ≥ ((view.height - view_resize_hit_margin view : Int) : ℚ)))
    constructor
    · intro h
      have k := key.mp h
      simp only [decide_eq_true_eq] at k
      exact ⟨h0, k⟩
    · intro h
      apply key.mpr
      simp only [decide_eq_true_eq]
      exact h.2

theorem frame_border_iff (view : flux_view) (lx ly : ℚ) :
    view_point_in_frame_border view lx ly = true ↔
      (¬ (lx < ((view.x - view_outer_grab_pad view : Int) : ℚ) ∨
          ly < ((view.y - view_outer_grab_pad view : Int) : ℚ) ∨
          lx ≥ ((view.x + view.width + view_outer_grab_pad view : Int) : ℚ) ∨
          ly ≥ ((view.y + view.height + view_outer_grab_pad view : Int) : ℚ)) ∧
        in_ring view (view_move_border_margin view) lx ly ∧
        ¬ in_ring view (view_resize_hit_margin view) lx ly) := by
  unfold view_point_in_frame_border
  simp only []
  by_cases h0 : (lx < ((view.x - view_outer_grab_pad view : Int) : ℚ) ∨
      ly < ((view.y - view_outer_grab_pad view : Int) : ℚ) ∨
      lx ≥ ((view.x + view.width + view_outer_grab_pad view : Int) : ℚ) ∨
      ly ≥ ((view.y + view.height + view_outer_grab_pad view : Int) : ℚ))
  · rw [if_pos h0]
    constructor
    · intro h; exact absurd h (by decide)
    · intro h; exact absurd h0 h.1
  · rw [if_neg h0]
    by_cases hm : in_ring view (view_move_border_margin view) lx ly
    · have hm2 : (!decide (lx - (view.x : ℚ) < (view_move_border_margin view : ℚ) ∨
          lx - (view.x : ℚ) ≥ ((view.width - view_move_border_margin view : Int) : ℚ) ∨
          ly - (view.y : ℚ) < (view_move_border_margin view : ℚ) ∨
          ly - (view.y : ℚ) ≥ ((view.height - view_move_border_margin view : Int) : ℚ))) =
          false := by
        rw [Bool.not_eq_false', decide_eq_true_eq]
        exact hm
      rw [if_neg (by rw [hm2]; decide)]
      rw [Bool.not_eq_true', decide_eq_false_iff_not]
      constructor
      · intro h
        exact ⟨h0, hm, h⟩
      · intro h
        exact h.2.2
    · have hm2 : (!decide (lx - (view.x : ℚ) < (view_move_border_margin view : ℚ) ∨
          lx - (view.x : ℚ) ≥ ((view.width - view_move_border_margin view : Int) : ℚ) ∨
          ly - (view.y : ℚ) < (view_move_border_margin view : ℚ) ∨
          ly - (view.y : ℚ) ≥ ((view.height - view_move_border_margin view : Int) : ℚ))) =
          true := by
        rw [Bool.not_eq_true', decide_eq_false_iff_not]
        exact hm
      rw [if_pos hm2]
      constructor
      · intro h; exact absurd h (by decide)
      · intro h; exact absurd h.2.1 hm

theorem ring_facts (view : flux_view) (lx ly : ℚ) :
    (in_frame_rect view lx ly →
      ¬ (lx < ((view.x - view_resize_hit_margin view : Int) : ℚ) ∨
          ly < ((view.y - view_resize_hit_margin view : Int) : ℚ) ∨
          lx ≥ ((view.x + view.width + view_resize_hit_margin view : Int) : ℚ) ∨
          ly ≥ ((view.y + view.height + view_resize_hit_margin view : Int) : ℚ)) ∧
      ¬ (lx < ((view.x - view_outer_grab_pad view : Int) : ℚ) ∨
          ly < ((view.y - view_outer_grab_pad view : Int) : ℚ) ∨
          lx ≥ ((view.x + view.width + view_outer_grab_pad view : Int) : ℚ) ∨
          ly ≥ ((view.y + view.height + view_outer_grab_pad view : Int) : ℚ))) ∧
    (¬ in_frame_rect view lx ly → in_ring view (view_resize_hit_margin view) lx ly) ∧
    (in_ring view (view_resize_hit_margin view) lx ly →
      in_ring view (view_move_border_margin view) lx ly) := by
  obtain ⟨h1, h2, h3⟩ := margins_ordered view
  have q1 : (1 : ℚ) ≤ (view_resize_hit_margin view : ℚ) := by exact_mod_cast h1
  have q2 : (view_resize_hit_margin view : ℚ) ≤ (view_move_border_margin view : ℚ) := by
    exact_mod_cast h2
  have q3 : (1 : ℚ) ≤ (view_outer_grab_pad view : ℚ) := by exact_mod_cast h3
  unfold in_frame_rect in_ring
  push_cast
  refine ⟨?_, ?_, ?_⟩
  · rintro ⟨a1, a2, a3, a4⟩
    constructor
    · rintro (h | h | h | h) <;> linarith
    · rintro (h | h | h | h) <;> linarith
  · intro h
    by_contra hcon
    apply h
    simp only [not_or, not_lt, ge_iff_le, not_le] at hcon
    obtain ⟨c1, c2, c3, c4⟩ := hcon
    refine ⟨by linarith, by linarith, by linarith, by linarith⟩
  · rintro (h | h | h | h)
    · exact Or.inl (by linarith)
    · exact Or.inr (Or.inl (by linarith))
    · exact Or.inr (Or.inr (Or.inl (by linarith)))
    · exact Or.inr (Or.inr (Or.inr (by linarith)))

/-- Claim C25. Let `r` be `view_resize_hit_margin` and `m` be
`view_move_border_margin` of the view. For a point of the frame rectangle: in
the ring of width `r`, `view_resize_edges_at` is non-empty and
`view_point_in_frame_border` is false; in the ring of width `m` but not in the
ring of width `r`, `view_resize_edges_at` is empty and
`view_point_in_frame_border` is true; outside the ring of width `m`, the mask
is empty and `view_point_in_frame_border` is false. For a point outside the
frame rectangle `view_point_in_frame_border` is false. -/
theorem C25_nested_rings (view : flux_view) (lx ly : ℚ) :
    (in_frame_rect view lx ly →
      (in_ring view (view_resize_hit_margin view) lx ly →
        view_resize_edges_at view lx ly ≠ WLR_EDGE_NONE ∧
        view_point_in_frame_border view lx ly = false) ∧
      (in_ring view (view_move_border_margin view) lx ly →
        ¬ in_ring view (view_resize_hit_margin view) lx ly →
        view_resize_edges_at view lx ly = WLR_EDGE_NONE ∧
        view_point_in_frame_border view lx ly = true) ∧
      (¬ in_ring view (view_move_border_margin view) lx ly →
        view_resize_edges_at view lx ly = WLR_EDGE_NONE ∧
        view_point_in_frame_border view lx ly = false)) ∧
    (¬ in_frame_rect view lx ly → view_point_in_frame_border view lx ly = false) := by
  obtain ⟨f1, f2, f3⟩ := ring_facts view lx ly
  have he := resize_edges_nonempty_iff view lx ly
  have hb := frame_border_iff view lx ly
  have hbf : ∀ {p : Prop}, (view_point_in_frame_border view lx ly = true ↔ p) → ¬ p →
      view_point_in_frame_border view lx ly = false := by
    intro p hp hn
    cases hv : view_point_in_frame_border view lx ly with
    | false => rfl
    | true => exact absurd (hp.mp hv) hn
  have hen : ∀ {p : Prop}, (view_resize_edges_at view lx ly ≠ WLR_EDGE_NONE ↔ p) → ¬ p →
      view_resize_edges_at view lx ly = WLR_EDGE_NONE := by
    intro p hp hn
    by_contra hcon
    exact hn (hp.mp hcon)
  constructor
  · intro hin
    obtain ⟨g1, g2⟩ := f1 hin
    refine ⟨?_, ?_, ?_⟩
    · intro hr
      exact ⟨he.mpr ⟨g1, hr⟩, hbf hb (fun h => h.2.2 hr)⟩
    · intro hm hr
      exact ⟨hen he (fun h => hr h.2), hb.mpr ⟨g2, hm, hr⟩⟩
    · intro hm
      exact ⟨hen he (fun h => hm (f3 h.2)), hbf hb (fun h => hm h.2.1)⟩
  · intro hout
    exact hbf hb (fun h => h.2.2 (f2 hout))

/-- Claim C25 for window `A` and the point (741, 607), two pixels inside its
bottom-right corner: the point is in the resize ring and not on the move
border. -/
theorem C25_nested_rings_witness :
    view_resize_edges_at demo_view_A 741 607 ≠ WLR_EDGE_NONE ∧
    view_point_in_frame_border demo_view_A 741 607 = false :=
  ((C25_nested_rings demo_view_A 741 607).1 (by unfold in_frame_rect; decide!)).1
    (by unfold in_ring; decide!)

/-! ## Theorems: button labels -/

theorem button_width_of_long_title (title : CString)
    (h16 : 16 ≤ title.length) (hmax : 6 * (title.length : Int) + 15 ≤ 240) :
    text_pixel_width title (title.length : Int) = 6 * (title.length : Int) - 1 ∧
    taskbar_button_width_for_title title = 6 * (title.length : Int) + 15 := by
  have hn : (16 : Int) ≤ (title.length : Int) := by exact_mod_cast h16
  have e1 : text_pixel_width title (title.length : Int) = 6 * (title.length : Int) - 1 := by
    unfold text_pixel_width TASKBAR_TEXT_ADV TASKBAR_GLYPH_W TASKBAR_TEXT_SCALE
    rw [if_neg (by omega)]
    omega
  refine ⟨e1, ?_⟩
  unfold taskbar_button_width_for_title
  simp only [e1, TASKBAR_TEXT_PAD_X, TASKBAR_BUTTON_MIN_W, TASKBAR_BUTTON_MAX_W]
  rw [if_neg (by omega), if_neg (by omega)]
  omega

theorem trunc_int_intCast (n : Int) : trunc_int (n : ℚ) = n := by
  unfold trunc_int
  split_ifs with h
  · rw [rat_floor_eq, Int.floor_intCast]
  · rw [rat_floor_eq]
    have : (-(n : ℚ)) = ((-n : Int) : ℚ) := by push_cast; ring
    rw [this, Int.floor_intCast, neg_neg]

theorem clamp_cursor_frame (s : flux_server) :
    ∃ a b, clamp_cursor_to_layout s = { s with cursor_x := a, cursor_y := b } := by
  unfold clamp_cursor_to_layout
  simp only []
  split_ifs <;> exact ⟨_, _, rfl⟩

theorem process_cursor_motion_moving (surface_at : Nat → ℚ → ℚ → Option surface_hit)
    (s : flux_server) (t g : Nat)
    (hmode : s.cursor_mode = CURSOR_MOVE) (hgrab : s.grabbed_view = some g) :
    process_cursor_motion surface_at s t =
      process_cursor_motion_move (clamp_cursor_to_layout s) g := by
  have hc := (clamp_cursor_same_grab s).1
  unfold same_grab_state at hc
  unfold process_cursor_motion
  simp only [hc.1, hc.2.1, hgrab, hmode, if_true]

/-- Claim C26 fails on the desktop reached from the empty desktop by
`demo_trace_F`. The client-decorated terminal `F` (300x200) is at (-52, 40), the
pointer is at `(12 + 3 / 2 ^ 49, 60)` on its top strip, and a press of the
left button has just started a move grab of `F` through
`begin_compositor_move`. The next pointer motion with displacement (0, 0)
moves `F` to (-51, 40), and a motion with displacement (1, 0) moves it to
(-50, 40), not to (-51, 40): `cursor_x - view->x` is rounded to the double 64,
and `cursor_x - grab_x` is then a double just inside -52, which `(int)`
truncates to -51. The size of `F` stays 300x200. -/
theorem C26_move_origin_rounding_jump :
    demo_server_empty.views.length = 0 ∧
    demo_server_F.cursor_mode = CURSOR_MOVE ∧ demo_server_F.grabbed_view = some 9 ∧
    demo_server_F.interactive_grab_from_client = false ∧
    demo_server_F.cursor_x = 12 + 3 / 562949953421312 ∧ demo_server_F.cursor_y = 60 ∧
    (find_view demo_server_F.views 9).map (fun v => (v.x, v.y, v.width, v.height)) =
      some (-52, 40, 300, 200) ∧
    (cursor_motion_notify surface_of_F demo_server_F 0 0 7).cursor_x = demo_server_F.cursor_x ∧
    (cursor_motion_notify surface_of_F demo_server_F 0 0 7).cursor_y = demo_server_F.cursor_y ∧
    (find_view (cursor_motion_notify surface_of_F demo_server_F 0 0 7).views 9).map
      (fun v => (v.x, v.y, v.width, v.height)) = some (-51, 40, 300, 200) ∧
    (cursor_motion_notify surface_of_F demo_server_F 1 0 7).cursor_x =
      demo_server_F.cursor_x + 1 ∧
    (cursor_motion_notify surface_of_F demo_server_F 1 0 7).cursor_y = demo_server_F.cursor_y ∧
    (find_view (cursor_motion_notify surface_of_F demo_server_F 1 0 7).views 9).map
      (fun v => (v.x, v.y, v.width, v.height)) = some (-50, 40, 300, 200) := by
  decide!

/-- Claim C27 fails on the desktop with the client-decorated window `D` of
content 300x200 at (48, 40), idle, with the pointer at (343, 100) over the
surface of `D`, five pixels inside its right edge. A press of the secondary
button handled by `cursor_button_notify` enters resizing with grabbed view `D`
and the right edge. -/
theorem C27_secondary_press_starts_resize :
    demo_server_D.cursor_mode = CURSOR_PASSTHROUGH ∧ demo_server_D.grabbed_view = none ∧
    press_right.state = wl_pointer_button_state.PRESSED ∧ press_right.button ≠ BTN_LEFT ∧
    (cursor_button_notify surface_of_D demo_server_D press_right).cursor_mode =
      CURSOR_RESIZE ∧
    (cursor_button_notify surface_of_D demo_server_D press_right).grabbed_view = some 8 ∧
    (cursor_button_notify surface_of_D demo_server_D press_right).resize_edges =
      WLR_EDGE_RIGHT := by
  decide!

theorem begin_minimize_keeps_grab (s : flux_server) (id t : Nat) :
    (view_begin_minimize_animation s id t).cursor_mode = s.cursor_mode ∧
    (view_begin_minimize_animation s id t).grabbed_view = s.grabbed_view := by
  unfold view_begin_minimize_animation
  split
  · exact ⟨rfl, rfl⟩
  · simp only []
    split_ifs <;> exact ⟨rfl, rfl⟩

theorem begin_restore_keeps_grab (s : flux_server) (id t : Nat) :
    (view_begin_restore_animation s id t).cursor_mode = s.cursor_mode ∧
    (view_begin_restore_animation s id t).grabbed_view = s.grabbed_view := by
  unfold view_begin_restore_animation taskbar_mark_dirty
  split
  · exact ⟨rfl, rfl⟩
  · simp only []
    split_ifs <;> exact ⟨rfl, rfl⟩

theorem focus_view_keeps_grab (s : flux_server) (id surface : Nat) :
    (focus_view s id surface).cursor_mode = s.cursor_mode ∧
    (focus_view s id surface).grabbed_view = s.grabbed_view := by
  have h := (focus_view_same_grab s id surface).1
  unfold same_grab_state at h
  exact ⟨h.1, h.2.1⟩

theorem begin_compositor_resize_in_step (p : flux_server) (v : flux_view) (e : Nat)
    (h : grab_in_step p) : grab_in_step (begin_compositor_resize p v e) := by
  unfold begin_compositor_resize
  split_ifs
  · exact h
  · unfold grab_in_step
    simp

theorem begin_compositor_move_in_step (p : flux_server) (v : flux_view) :
    grab_in_step (begin_compositor_move p v) := by
  unfold begin_compositor_move grab_in_step
  simp

theorem in_step_of_keeps (a b : flux_server) (h : grab_in_step b)
    (hk : a.cursor_mode = b.cursor_mode ∧ a.grabbed_view = b.grabbed_view) :
    grab_in_step a := by
  unfold grab_in_step at h ⊢
  rw [hk.1, hk.2]
  exact h

theorem cursor_button_release_in_step (p : flux_server) (event : wlr_pointer_button_event)
    (h : grab_in_step p) : grab_in_step (cursor_button_release p event) := by
  unfold cursor_button_release
  split
  · rename_i pressed _
    apply in_step_of_keeps _ p h
    simp only [taskbar_mark_dirty]
    split
    · split_ifs
      · exact begin_restore_keeps_grab _ _ _
      · exact ⟨rfl, rfl⟩
    · exact ⟨rfl, rfl⟩
  · split_ifs
    · unfold grab_in_step
      simp
    · unfold grab_in_step
      simp
    · exact in_step_of_keeps _ p h ⟨rfl, rfl⟩

theorem cursor_button_press_view_in_step (p : flux_server) (event : wlr_pointer_button_event)
    (view : flux_view) (surface : Option surface_hit) (h : grab_in_step p) :
    grab_in_step (cursor_button_press_view p event view surface) := by
  unfold cursor_button_press_view
  simp only []
  split_ifs
  · exact begin_compositor_move_in_step _ _
  · exact begin_compositor_move_in_step _ _
  · exact in_step_of_keeps _ p h (begin_minimize_keeps_grab _ _ _)
  · exact begin_compositor_resize_in_step _ _ _ h
  · exact begin_compositor_move_in_step _ _
  · split
    · exact in_step_of_keeps _ p h (focus_view_keeps_grab _ _ _)
    · exact in_step_of_keeps _ p h ⟨rfl, rfl⟩

theorem cursor_button_frame_grab_in_step (p : flux_server) (event : wlr_pointer_button_event)
    (surface : Option surface_hit) (frame_view : Option flux_view) (g : flux_server)
    (h : grab_in_step p)
    (hg : cursor_button_frame_grab p event surface frame_view = some g) : grab_in_step g := by
  unfold cursor_button_frame_grab at hg
  cases frame_view with
  | none => exact absurd hg (by simp)
  | some fv =>
    simp only [] at hg
    by_cases hc : event.state = wl_pointer_button_state.PRESSED ∧ event.button = BTN_LEFT
    · rw [if_pos hc] at hg
      by_cases he : view_resize_edges_at fv p.cursor_x p.cursor_y ≠ WLR_EDGE_NONE
      · rw [if_pos he] at hg
        simp only [Option.some.injEq] at hg
        rw [← hg]
        exact begin_compositor_resize_in_step _ _ _ h
      · rw [if_neg he] at hg
        by_cases hb : surface.isNone = true ∧
            view_point_in_frame_border fv p.cursor_x p.cursor_y = true
        · rw [if_pos hb] at hg
          simp only [Option.some.injEq] at hg
          rw [← hg]
          exact begin_compositor_move_in_step _ _
        · rw [if_neg hb] at hg
          exact absurd hg (by simp)
    · rw [if_neg hc] at hg
      exact absurd hg (by simp)

theorem cursor_button_notify_in_step (surface_at : Nat → ℚ → ℚ → Option surface_hit)
    (s : flux_server) (event : wlr_pointer_button_event) (h : grab_in_step s) :
    grab_in_step (cursor_button_notify surface_at s event) := by
  have hg := process_cursor_motion_same_grab surface_at s event.time_msec
  unfold same_grab_state at hg
  have hp : grab_in_step (process_cursor_motion surface_at s event.time_msec) :=
    in_step_of_keeps _ s h ⟨hg.1, hg.2.1⟩
  unfold cursor_button_notify cursor_button_dispatch
  simp only []
  split
  · exact in_step_of_keeps _ _ hp ⟨rfl, rfl⟩
  · split
    · rename_i g hgr
      exact cursor_button_frame_grab_in_step _ _ _ _ g hp hgr
    · split_ifs
      · exact in_step_of_keeps _ _ hp ⟨rfl, rfl⟩
      · exact cursor_button_release_in_step _ _ hp
      · split
        · exact hp
        · exact cursor_button_press_view_in_step _ _ _ _ hp

theorem place_new_view_static (s : flux_server) (v : flux_view) :
    (place_new_view s v).1.cursor_mode = s.cursor_mode ∧
    (place_new_view s v).1.grabbed_view = s.grabbed_view ∧
    (place_new_view s v).1.views = s.views := by
  unfold place_new_view
  simp only []
  split_ifs <;> exact ⟨rfl, rfl, rfl⟩

theorem new_toplevel_keeps_grab (s : flux_server) (id surface : Nat)
    (tl : Option xdg_toplevel) (sw sh : Int) (geo : wlr_box) :
    (new_xdg_toplevel_notify s id surface tl sw sh geo).cursor_mode = s.cursor_mode ∧
    (new_xdg_toplevel_notify s id surface tl sw sh geo).grabbed_view = s.grabbed_view := by
  unfold new_xdg_toplevel_notify taskbar_mark_dirty
  simp only []
  exact ⟨(place_new_view_static s _).1, (place_new_view_static s _).2.1⟩

theorem map_notify_keeps_grab (s : flux_server) (id : Nat) :
    (view_map_notify s id).cursor_mode = s.cursor_mode ∧
    (view_map_notify s id).grabbed_view = s.grabbed_view := by
  unfold view_map_notify taskbar_mark_dirty
  split
  · exact ⟨rfl, rfl⟩
  · simp only []
    exact focus_view_keeps_grab _ _ _

theorem tick_body_keeps_grab (s : flux_server) (t id : Nat) :
    (view_tick_animations_body s t id).1.cursor_mode = s.cursor_mode ∧
    (view_tick_animations_body s t id).1.grabbed_view = s.grabbed_view := by
  rcases tick_body_cases s t id with h | h | ⟨view, _, _, _, h⟩ | ⟨view, _, _, _, _, h⟩
  · rw [h]; exact ⟨rfl, rfl⟩
  · rw [h]; exact ⟨rfl, rfl⟩
  · rw [h]; exact ⟨rfl, rfl⟩
  · rw [h]
    exact focus_view_keeps_grab _ _ _

theorem tick_loop_keeps_grab (t : Nat) (ids : List Nat) (acc : flux_server × Bool) :
    (view_tick_animations_loop t ids acc).1.cursor_mode = acc.1.cursor_mode ∧
    (view_tick_animations_loop t ids acc).1.grabbed_view = acc.1.grabbed_view := by
  induction ids generalizing acc with
  | nil => exact ⟨rfl, rfl⟩
  | cons a l ih =>
    simp only [view_tick_animations_loop]
    obtain ⟨h1, h2⟩ := ih ((view_tick_animations_body acc.1 t a).1,
      acc.2 || (view_tick_animations_body acc.1 t a).2)
    obtain ⟨b1, b2⟩ := tick_body_keeps_grab acc.1 t a
    exact ⟨h1.trans b1, h2.trans b2⟩

theorem lifecycle_event_keeps_grab (s : flux_server) (ev : lifecycle_event) :
    (handle_lifecycle_event s ev).cursor_mode = s.cursor_mode ∧
    (handle_lifecycle_event s ev).grabbed_view = s.grabbed_view := by
  cases ev with
  | create id surface tl w h geo => exact new_toplevel_keeps_grab s id surface tl w h geo
  | map id => exact map_notify_keeps_grab s id
  | unmap id => exact view_unmap_notify_keeps_grab s id
  | begin_minimize id t => exact begin_minimize_keeps_grab s id t
  | begin_restore id t => exact begin_restore_keeps_grab s id t
  | tick t => exact tick_loop_keeps_grab t _ (s, false)

theorem request_move_in_step (validate_serial : Nat → Nat → Bool) (s : flux_server) (id : Nat)
    (event : wlr_xdg_toplevel_move_event) (h : grab_in_step s) :
    grab_in_step (view_request_move_notify validate_serial s id event) := by
  unfold view_request_move_notify
  split
  · exact h
  · split_ifs
    · exact h
    · unfold grab_in_step
      simp

theorem request_resize_in_step (validate_serial : Nat → Nat → Bool) (s : flux_server)
    (id : Nat) (event : wlr_xdg_toplevel_resize_event) (h : grab_in_step s) :
    grab_in_step (view_request_resize_notify validate_serial s id event) := by
  unfold view_request_resize_notify
  split
  · exact h
  · split_ifs
    · exact h
    · exact h
    · unfold grab_in_step
      simp

theorem taskbar_update_keeps_grab (s : flux_server) :
    (taskbar_update s).cursor_mode = s.cursor_mode ∧
    (taskbar_update s).grabbed_view = s.grabbed_view := by
  unfold taskbar_update
  simp only []
  split_ifs <;> exact ⟨rfl, rfl⟩

theorem handle_flux_event_in_step (surface_at : Nat → ℚ → ℚ → Option surface_hit)
    (validate_serial : Nat → Nat → Bool) (s : flux_server) (ev : flux_event)
    (h : grab_in_step s) :
    grab_in_step (handle_flux_event surface_at validate_serial s ev) := by
  cases ev with
  | pointer event =>
    cases event with
    | motion dx dy t =>
      have hg := process_cursor_motion_same_grab surface_at
        { s with cursor_x := s.cursor_x + dx, cursor_y := s.cursor_y + dy } t
      unfold same_grab_state at hg
      exact in_step_of_keeps _ s h ⟨hg.1, hg.2.1⟩
    | button event => exact cursor_button_notify_in_step surface_at s event h
  | lifecycle event => exact in_step_of_keeps _ s h (lifecycle_event_keeps_grab s event)
  | request_move id event => exact request_move_in_step validate_serial s id event h
  | request_resize id event => exact request_resize_in_step validate_serial s id event h
  | decoration_new_toplevel id => exact in_step_of_keeps _ s h ⟨rfl, rfl⟩
  | decoration_request_mode id => exact in_step_of_keeps _ s h ⟨rfl, rfl⟩
  | set_app_id id app_id => exact in_step_of_keeps _ s h ⟨rfl, rfl⟩
  | set_title id title => exact in_step_of_keeps _ s h ⟨rfl, rfl⟩
  | commit id w hh geo => exact in_step_of_keeps _ s h ⟨rfl, rfl⟩
  | destroy id => exact in_step_of_keeps _ s h (view_destroy_notify_keeps_grab s id)
  | taskbar_frame => exact in_step_of_keeps _ s h (taskbar_update_keeps_grab s)

theorem run_flux_events_in_step (surface_at : Nat → ℚ → ℚ → Option surface_hit)
    (validate_serial : Nat → Nat → Bool) (events : List flux_event) :
    ∀ s : flux_server, grab_in_step s →
      grab_in_step (run_flux_events surface_at validate_serial s events) := by
  induction events with
  | nil => intro s h; exact h
  | cons ev rest ih =>
    intro s h
    exact ih _ (handle_flux_event_in_step surface_at validate_serial s ev h)

/-- Claim C29. From a state with idle grab mode and no grabbed view, after any
sequence of pointer motions, button presses and releases, move and resize
requests of clients, view lifecycle events, decoration, title, app id and
commit events, view destructions and taskbar updates, the grab mode is idle if
and only if no view is grabbed. -/
theorem C29_grab_mode_and_reference_in_step (surface_at : Nat → ℚ → ℚ → Option surface_hit)
    (validate_serial : Nat → Nat → Bool) (s0 : flux_server) (events : List flux_event)
    (hmode : s0.cursor_mode = CURSOR_PASSTHROUGH) (hgrab : s0.grabbed_view = none) :
    (run_flux_events surface_at validate_serial s0 events).cursor_mode = CURSOR_PASSTHROUGH ↔
      (run_flux_events surface_at validate_serial s0 events).grabbed_view = none := by
  have h0 : grab_in_step s0 := by
    unfold grab_in_step
    rw [hmode, hgrab]
    exact ⟨fun _ => rfl, fun _ => rfl⟩
  exact run_flux_events_in_step surface_at validate_serial events s0 h0

/-! ## Theorems: client decoration in reachable states -/

theorem update_view_mem (l : List flux_view) (id : Nat) (f : flux_view → flux_view) :
    ∀ u ∈ update_view l id f, u ∈ l ∨ ∃ a ∈ l, u = f a := by
  intro u hu
  unfold update_view at hu
  obtain ⟨a, ha, hau⟩ := List.mem_map.mp hu
  by_cases hid : a.id = id
  · rw [if_pos hid] at hau
    exact Or.inr ⟨a, ha, hau.symm⟩
  · rw [if_neg hid] at hau
    rw [← hau]
    exact Or.inl ha

theorem update_view_csd (l : List flux_view) (id : Nat) (f : flux_view → flux_view)
    (hf : ∀ v, v.use_server_decorations = false → (f v).use_server_decorations = false)
    (h : ∀ v ∈ l, v.use_server_decorations = false) :
    ∀ v ∈ update_view l id f, v.use_server_decorations = false := by
  intro u hu
  rcases update_view_mem l id f u hu with h1 | ⟨a, ha, h1⟩
  · exact h u h1
  · rw [h1]
    exact hf a (h a ha)

theorem update_const_csd (l : List flux_view) (id : Nat) (w : flux_view)
    (hw : w.use_server_decorations = false)
    (h : ∀ v ∈ l, v.use_server_decorations = false) :
    ∀ v ∈ update_view l id (fun _ => w), v.use_server_decorations = false :=
  update_view_csd l id _ (fun _ _ => hw) h

theorem apply_decoration_mode_csd (v : flux_view) :
    choose_mode_for_view v = wlr_xdg_toplevel_decoration_v1_mode.MODE_CLIENT_SIDE ∧
    (apply_decoration_mode_to_view v).use_server_decorations = false ∧
    (apply_decoration_mode_to_view v).id = v.id :=
  ⟨rfl, rfl, rfl⟩

theorem focus_view_csd (s : flux_server) (id surface : Nat) (h : all_client_decorated s) :
    all_client_decorated (focus_view s id surface) := by
  intro v hv
  exact h v (focus_view_mem s id surface v hv)

theorem csd_of_views (a b : flux_server) (hv : a.views = b.views)
    (h : all_client_decorated b) : all_client_decorated a := by
  unfold all_client_decorated
  rw [hv]
  exact h

theorem begin_minimize_csd (s : flux_server) (id t : Nat) (h : all_client_decorated s) :
    all_client_decorated (view_begin_minimize_animation s id t) := by
  cases hf : find_view s.views id with
  | none =>
    rw [begin_minimize_ineligible s id t (Or.inl hf)]
    exact h
  | some view =>
    have hview := h view (find_view_mem hf).1
    by_cases hc : (!view.mapped || view.minimized || view.minimizing_animation ||
        view.restoring_animation) = true
    · rw [begin_minimize_ineligible s id t (Or.inr ⟨view, hf, hc⟩)]
      exact h
    · simp only [Bool.or_eq_true, Bool.not_eq_true', not_or, Bool.not_eq_true] at hc
      obtain ⟨⟨⟨h1, h2⟩, h3⟩, h4⟩ := hc
      have hm : view.mapped = true := by simpa using h1
      obtain ⟨mid, dst, _, _, hv, _, heq⟩ := begin_minimize_shape s id t view hf hm h2 h3 h4
      rw [heq]
      unfold all_client_decorated
      simp only []
      intro u hu
      rcases update_view_mem _ _ _ u hu with h5 | ⟨a, _, h5⟩
      · rw [hv] at h5
        rcases update_view_mem _ _ _ u h5 with h6 | ⟨b, _, h6⟩
        · exact h u h6
        · rw [h6]
          exact hview
      · rw [h5]
        exact hview

theorem begin_restore_csd (s : flux_server) (id t : Nat) (h : all_client_decorated s) :
    all_client_decorated (view_begin_restore_animation s id t) := by
  cases hf : find_view s.views id with
  | none =>
    rw [begin_restore_ineligible s id t (Or.inl hf)]
    exact h
  | some view =>
    have hview := h view (find_view_mem hf).1
    by_cases hc : (!view.mapped || !view.minimized || view.minimizing_animation ||
        view.restoring_animation) = true
    · rw [begin_restore_ineligible s id t (Or.inr ⟨view, hf, hc⟩)]
      exact h
    · have hc2 : (!view.mapped || !view.minimized || view.minimizing_animation ||
          view.restoring_animation) = false := by simpa using hc
      unfold view_begin_restore_animation taskbar_mark_dirty
      rw [hf]
      simp only [hc2, Bool.false_eq_true, ↓reduceIte]
      exact update_const_csd _ _ _ hview h

theorem tick_body_csd (s : flux_server) (t id : Nat) (h : all_client_decorated s) :
    all_client_decorated (view_tick_animations_body s t id).1 := by
  rcases tick_body_cases s t id with e | e | ⟨view, hf, _, _, e⟩ | ⟨view, hf, _, _, _, e⟩
  · rw [e]; exact h
  · rw [e]; exact h
  · rw [e]
    exact update_const_csd _ _ _ (h view (find_view_mem hf).1) h
  · rw [e]
    apply focus_view_csd
    exact update_const_csd _ _ _ (h view (find_view_mem hf).1) h

theorem tick_loop_csd (t : Nat) (ids : List Nat) (acc : flux_server × Bool)
    (h : all_client_decorated acc.1) :
    all_client_decorated (view_tick_animations_loop t ids acc).1 := by
  induction ids generalizing acc with
  | nil => exact h
  | cons a l ih =>
    simp only [view_tick_animations_loop]
    exact ih _ (tick_body_csd acc.1 t a h)

theorem map_notify_csd (s : flux_server) (id : Nat) (h : all_client_decorated s) :
    all_client_decorated (view_map_notify s id) := by
  unfold view_map_notify
  split
  · exact h
  · simp only [taskbar_mark_dirty]
    apply csd_of_views _ (focus_view _ _ _) rfl
    apply focus_view_csd
    exact update_const_csd _ _ _ rfl h

theorem unmap_notify_csd (s : flux_server) (id : Nat) (h : all_client_decorated s) :
    all_client_decorated (view_unmap_notify s id) := by
  have hviews : (view_unmap_notify s id).views = update_view s.views id (fun view =>
      view_set_visible
        { view with mapped := false, minimizing_animation := false,
                    restoring_animation := false } false) := by
    unfold view_unmap_notify taskbar_mark_dirty
    simp only []
    split_ifs <;> rfl
  unfold all_client_decorated
  rw [hviews]
  exact update_view_csd _ _ _ (fun _ hv => hv) h

theorem new_toplevel_csd (s : flux_server) (id surface : Nat) (tl : Option xdg_toplevel)
    (sw sh : Int) (geo : wlr_box) (h : all_client_decorated s) :
    all_client_decorated (new_xdg_toplevel_notify s id surface tl sw sh geo) := by
  unfold new_xdg_toplevel_notify taskbar_mark_dirty all_client_decorated
  simp only []
  intro v hv
  rcases List.mem_cons.mp hv with h1 | h1
  · rw [h1]
    rfl
  · rw [(place_new_view_static s _).2.2] at h1
    exact h v h1

theorem lifecycle_event_csd (s : flux_server) (ev : lifecycle_event)
    (h : all_client_decorated s) : all_client_decorated (handle_lifecycle_event s ev) := by
  cases ev with
  | create id surface tl w hh geo => exact new_toplevel_csd s id surface tl w hh geo h
  | map id => exact map_notify_csd s id h
  | unmap id => exact unmap_notify_csd s id h
  | begin_minimize id t => exact begin_minimize_csd s id t h
  | begin_restore id t => exact begin_restore_csd s id t h
  | tick t => exact tick_loop_csd t _ (s, false) h

theorem update_view_mem_id (l : List flux_view) (id : Nat) (f : flux_view → flux_view) :
    ∀ u ∈ update_view l id f, u.id = id → ∃ a ∈ l, u = f a := by
  intro u hu hid
  unfold update_view at hu
  obtain ⟨a, ha, hau⟩ := List.mem_map.mp hu
  by_cases h : a.id = id
  · rw [if_pos h] at hau
    exact ⟨a, ha, hau.symm⟩
  · rw [if_neg h] at hau
    rw [← hau] at hid
    exact absurd hid h

theorem find_view_none_mem {views : List flux_view} {id : Nat}
    (h : find_view views id = none) : ∀ v ∈ views, v.id ≠ id := by
  intro v hv hid
  unfold find_view at h
  have := List.find?_eq_none.mp h v hv
  simp [hid] at this

theorem taskbar_update_loop_csd (box : wlr_box) (bar_y button_y button_h : Int)
    (l : List flux_view) :
    ∀ (cursor_x : Int) (shown : Nat), (∀ v ∈ l, v.use_server_decorations = false) →
      ∀ v ∈ (taskbar_update_loop box bar_y button_y button_h cursor_x shown l).1,
        v.use_server_decorations = false := by
  induction l with
  | nil =>
    intro cx shown h v hv
    simp [taskbar_update_loop] at hv
  | cons a rest ih =>
    intro cx shown h v hv
    have ha := h a (List.mem_cons_self _ _)
    have hrest : ∀ v ∈ rest, v.use_server_decorations = false :=
      fun v hv => h v (List.mem_cons_of_mem _ hv)
    unfold taskbar_update_loop at hv
    simp only [] at hv
    split_ifs at hv
    · rcases List.mem_cons.mp hv with h1 | h1
      · rw [h1]; exact ha
      · exact ih _ _ hrest v h1
    · exact h v hv
    · rcases List.mem_cons.mp hv with h1 | h1
      · rw [h1]; exact ha
      · exact ih _ _ hrest v h1
    · rcases List.mem_cons.mp hv with h1 | h1
      · rw [h1]; exact ha
      · exact ih _ _ hrest v h1

theorem clear_taskbar_csd (l : List flux_view)
    (h : ∀ v ∈ l, v.use_server_decorations = false) :
    ∀ v ∈ clear_taskbar_view_state l, v.use_server_decorations = false := by
  intro v hv
  unfold clear_taskbar_view_state at hv
  obtain ⟨a, ha, hav⟩ := List.mem_map.mp hv
  rw [← hav]
  exact h a ha

theorem taskbar_update_csd (s : flux_server) (h : all_client_decorated s) :
    all_client_decorated (taskbar_update s) := by
  unfold taskbar_update all_client_decorated
  simp only []
  split_ifs <;>
    first
    | exact h
    | exact clear_taskbar_csd _ h
    | exact taskbar_update_loop_csd _ _ _ _ _ _ _ (clear_taskbar_csd _ h)

theorem process_cursor_motion_csd (surface_at : Nat → ℚ → ℚ → Option surface_hit)
    (s : flux_server) (t : Nat) (h : all_client_decorated s) :
    all_client_decorated (process_cursor_motion surface_at s t) := by
  obtain ⟨a, b, hc⟩ := clamp_cursor_frame s
  have hcl : all_client_decorated (clamp_cursor_to_layout s) := by
    rw [hc]
    exact h
  have hpass : all_client_decorated
      (process_cursor_motion_passthrough surface_at (clamp_cursor_to_layout s) t) := by
    unfold process_cursor_motion_passthrough
    split
    · exact csd_of_views _ (focus_view _ _ _) rfl (focus_view_csd _ _ _ hcl)
    · exact hcl
  unfold process_cursor_motion
  simp only []
  split
  · split_ifs
    · exact update_view_csd _ _ _ (fun _ hv => hv) hcl
    · split
      · exact update_view_csd _ _ _ (fun _ hv => hv) hcl
      · exact hcl
    · exact hpass
  · exact hpass

theorem begin_compositor_resize_csd (p : flux_server) (v : flux_view) (e : Nat)
    (h : all_client_decorated p) : all_client_decorated (begin_compositor_resize p v e) := by
  unfold begin_compositor_resize
  split_ifs
  · exact h
  · exact csd_of_views _ (focus_view _ _ _) rfl (focus_view_csd _ _ _ h)

theorem begin_compositor_move_csd (p : flux_server) (v : flux_view)
    (h : all_client_decorated p) : all_client_decorated (begin_compositor_move p v) :=
  csd_of_views _ (focus_view _ _ _) rfl (focus_view_csd _ _ _ h)

theorem cursor_button_release_csd (p : flux_server) (event : wlr_pointer_button_event)
    (h : all_client_decorated p) : all_client_decorated (cursor_button_release p event) := by
  unfold cursor_button_release
  split
  · simp only [taskbar_mark_dirty]
    split
    · split_ifs
      · exact csd_of_views _ (view_begin_restore_animation _ _ _) rfl
          (begin_restore_csd _ _ _ (csd_of_views _ p rfl h))
      · exact h
    · exact h
  · split_ifs
    · exact h
    · exact h
    · exact h

theorem cursor_button_press_view_csd (p : flux_server) (event : wlr_pointer_button_event)
    (view : flux_view) (surface : Option surface_hit) (h : all_client_decorated p) :
    all_client_decorated (cursor_button_press_view p event view surface) := by
  unfold cursor_button_press_view
  simp only []
  split_ifs
  · exact begin_compositor_move_csd _ _ h
  · exact begin_compositor_move_csd _ _ h
  · exact begin_minimize_csd _ _ _ (csd_of_views _ p rfl h)
  · exact begin_compositor_resize_csd _ _ _ h
  · exact begin_compositor_move_csd _ _ h
  · split
    · exact csd_of_views _ (focus_view _ _ _) rfl (focus_view_csd _ _ _ h)
    · exact h

theorem cursor_button_frame_grab_csd (p : flux_server) (event : wlr_pointer_button_event)
    (surface : Option surface_hit) (frame_view : Option flux_view) (g : flux_server)
    (h : all_client_decorated p)
    (hg : cursor_button_frame_grab p event surface frame_view = some g) :
    all_client_decorated g := by
  unfold cursor_button_frame_grab at hg
  cases frame_view with
  | none => exact absurd hg (by simp)
  | some fv =>
    simp only [] at hg
    by_cases hc : event.state = wl_pointer_button_state.PRESSED ∧ event.button = BTN_LEFT
    · rw [if_pos hc] at hg
      by_cases he : view_resize_edges_at fv p.cursor_x p.cursor_y ≠ WLR_EDGE_NONE
      · rw [if_pos he] at hg
        simp only [Option.some.injEq] at hg
        rw [← hg]
        exact begin_compositor_resize_csd _ _ _ h
      · rw [if_neg he] at hg
        by_cases hb : surface.isNone = true ∧
            view_point_in_frame_border fv p.cursor_x p.cursor_y = true
        · rw [if_pos hb] at hg
          simp only [Option.some.injEq] at hg
          rw [← hg]
          exact begin_compositor_move_csd _ _ h
        · rw [if_neg hb] at hg
          exact absurd hg (by simp)
    · rw [if_neg hc] at hg
      exact absurd hg (by simp)

theorem cursor_button_notify_csd (surface_at : Nat → ℚ → ℚ → Option surface_hit)
    (s : flux_server) (event : wlr_pointer_button_event) (h : all_client_decorated s) :
    all_client_decorated (cursor_button_notify surface_at s event) := by
  have hp := process_cursor_motion_csd surface_at s event.time_msec h
  unfold cursor_button_notify cursor_button_dispatch
  simp only []
  split
  · exact hp
  · split
    · rename_i g hgr
      exact cursor_button_frame_grab_csd _ _ _ _ g hp hgr
    · split_ifs
      · exact hp
      · exact cursor_button_release_csd _ _ hp
      · split
        · exact hp
        · exact cursor_button_press_view_csd _ _ _ _ hp

theorem request_move_csd (validate_serial : Nat → Nat → Bool) (s : flux_server) (id : Nat)
    (event : wlr_xdg_toplevel_move_event) (h : all_client_decorated s) :
    all_client_decorated (view_request_move_notify validate_serial s id event) := by
  unfold view_request_move_notify
  split
  · exact h
  · split_ifs
    · exact h
    · exact csd_of_views _ (focus_view _ _ _) rfl (focus_view_csd _ _ _ h)

theorem request_resize_csd (validate_serial : Nat → Nat → Bool) (s : flux_server) (id : Nat)
    (event : wlr_xdg_toplevel_resize_event) (h : all_client_decorated s) :
    all_client_decorated (view_request_resize_notify validate_serial s id event) := by
  unfold view_request_resize_notify
  split
  · exact h
  · split_ifs
    · exact h
    · exact h
    · exact csd_of_views _ (focus_view _ _ _) rfl (focus_view_csd _ _ _ h)

theorem view_destroy_notify_csd (s : flux_server) (id : Nat) (h : all_client_decorated s) :
    all_client_decorated (view_destroy_notify s id) := by
  unfold all_client_decorated
  rw [(view_destroy_notify_static s id).2.2.2.2]
  intro v hv
  exact h v (List.mem_of_mem_filter hv)

theorem commit_update_csd (v : flux_view) (h : v.use_server_decorations = false) :
    (if (!v.mapped) = true then v
      else if (v.minimized || v.minimizing_animation || v.restoring_animation) = true then v
      else view_update_geometry v).use_server_decorations = false := by
  split_ifs
  · exact h
  · exact h
  · exact h

theorem handle_flux_event_csd (surface_at : Nat → ℚ → ℚ → Option surface_hit)
    (validate_serial : Nat → Nat → Bool) (s : flux_server) (ev : flux_event)
    (h : all_client_decorated s) :
    all_client_decorated (handle_flux_event surface_at validate_serial s ev) := by
  cases ev with
  | pointer event =>
    cases event with
    | motion dx dy t =>
      exact process_cursor_motion_csd surface_at
        { s with cursor_x := s.cursor_x + dx, cursor_y := s.cursor_y + dy } t h
    | button event => exact cursor_button_notify_csd surface_at s event h
  | lifecycle event => exact lifecycle_event_csd s event h
  | request_move id event => exact request_move_csd validate_serial s id event h
  | request_resize id event => exact request_resize_csd validate_serial s id event h
  | decoration_new_toplevel id => exact update_view_csd _ _ _ (fun _ _ => rfl) h
  | decoration_request_mode id => exact update_view_csd _ _ _ (fun _ _ => rfl) h
  | set_app_id id app_id =>
    exact update_view_csd _ _ _ (fun _ _ => rfl) (update_view_csd _ _ _ (fun _ hv => hv) h)
  | set_title id title => exact update_view_csd _ _ _ (fun _ hv => hv) h
  | commit id w hh geo =>
    exact update_view_csd _ _ _ (fun v hv => commit_update_csd v hv)
      (update_view_csd _ _ _ (fun _ hv => hv) h)
  | destroy id => exact view_destroy_notify_csd s id h
  | taskbar_frame => exact taskbar_update_csd s h

theorem run_flux_events_csd (surface_at : Nat → ℚ → ℚ → Option surface_hit)
    (validate_serial : Nat → Nat → Bool) (events : List flux_event) :
    ∀ s : flux_server, all_client_decorated s →
      all_client_decorated (run_flux_events surface_at validate_serial s events) := by
  induction events with
  | nil => intro s h; exact h
  | cons ev rest ih =>
    intro s h
    exact ih _ (handle_flux_event_csd surface_at validate_serial s ev h)

theorem client_decorated_consequences (v : flux_view) (h : v.use_server_decorations = false) :
    view_border_px v = 0 ∧ view_titlebar_px v = 0 ∧
    ∀ lx ly : ℚ, point_in_minimize_button v lx ly = false ∧
      point_in_titlebar_drag_region v lx ly = false := by
  refine ⟨?_, ?_, ?_⟩
  · unfold view_border_px
    simp [h]
  · unfold view_titlebar_px
    simp [h]
  · intro lx ly
    unfold point_in_titlebar_drag_region point_in_minimize_button
    simp [h]

theorem map_notify_view_csd (s : flux_server) (id : Nat) :
    ∀ v ∈ (view_map_notify s id).views, v.id = id → v.use_server_decorations = false := by
  intro v hv hid
  cases hf : find_view s.views id with
  | none =>
    have e : view_map_notify s id = s := by
      unfold view_map_notify
      rw [hf]
    rw [e] at hv
    exact absurd hid (find_view_none_mem hf v hv)
  | some view =>
    unfold view_map_notify taskbar_mark_dirty at hv
    rw [hf] at hv
    simp only [] at hv
    have hv2 := focus_view_mem _ _ _ v hv
    simp only [] at hv2
    have hvid : view.id = id := (find_view_mem hf).2
    obtain ⟨a, _, ha⟩ := update_view_mem_id _ _ _ v hv2 hid
    rw [ha]
    rfl

/-- Claim C29 on the empty desktop where window `D` is created and mapped, the
pointer moves onto it and the secondary button is pressed: window `D` is
grabbed, and the grab mode is idle if and only if no view is grabbed. -/
theorem C29_grab_mode_and_reference_in_step_witness :
    demo_server_empty.cursor_mode = CURSOR_PASSTHROUGH ∧
    demo_server_empty.grabbed_view = none ∧
    (run_flux_events surface_of_D accept_serial demo_server_empty
        (demo_trace_D ++ [flux_event.pointer (pointer_event.button press_right)])).grabbed_view =
      some 8 ∧
    ((run_flux_events surface_of_D accept_serial demo_server_empty
        (demo_trace_D ++ [flux_event.pointer (pointer_event.button press_right)])).cursor_mode =
        CURSOR_PASSTHROUGH ↔
      (run_flux_events surface_of_D accept_serial demo_server_empty
        (demo_trace_D ++ [flux_event.pointer (pointer_event.button press_right)])).grabbed_view =
        none) :=
  ⟨rfl, rfl, by decide!,
    C29_grab_mode_and_reference_in_step surface_of_D accept_serial demo_server_empty
      (demo_trace_D ++ [flux_event.pointer (pointer_event.button press_right)]) rfl rfl⟩

theorem place_new_view_id (s : flux_server) (v : flux_view) :
    (place_new_view s v).2.id = v.id := by
  unfold place_new_view
  simp only []

theorem new_toplevel_head (s : flux_server) (id surface : Nat) (tl : Option xdg_toplevel)
    (w h : Int) (geo : wlr_box) :
    ∃ v, (new_xdg_toplevel_notify s id surface tl w h geo).views = v :: s.views ∧
      v.id = id ∧ v.use_server_decorations = false := by
  have e : ∃ v, (new_xdg_toplevel_notify s id surface tl w h geo).views =
      v :: (place_new_view s { calloc_view id surface tl with
        surface_width := w, surface_height := h, reported_geo := geo }).1.views ∧
      v.id = (place_new_view s { calloc_view id surface tl with
        surface_width := w, surface_height := h, reported_geo := geo }).2.id ∧
      v.use_server_decorations = false := ⟨_, rfl, rfl, rfl⟩
  obtain ⟨v, h1, h2, h3⟩ := e
  rw [(place_new_view_static s _).2.2] at h1
  rw [place_new_view_id] at h2
  exact ⟨v, h1, h2, h3⟩

/-- Claim C30. `choose_mode_for_view` returns client-side for every view and
`apply_decoration_mode_to_view` leaves every view client-decorated. From a
state whose views are all client-decorated (the initial state has no view),
after any sequence of events every view is client-decorated, its border and
titlebar thickness are 0, and `point_in_minimize_button` and
`point_in_titlebar_drag_region` are false at every point. In any state
whatever, the view that `new_xdg_toplevel_notify` creates is client-decorated,
and so is the view at `id` after a new decoration object, a decoration mode
request, a map or an app id event for it. -/
theorem C30_views_client_decorated (surface_at : Nat → ℚ → ℚ → Option surface_hit)
    (validate_serial : Nat → Nat → Bool) (s0 : flux_server) (events : List flux_event)
    (h0 : ∀ v ∈ s0.views, v.use_server_decorations = false) :
    (∀ v : flux_view,
      choose_mode_for_view v = wlr_xdg_toplevel_decoration_v1_mode.MODE_CLIENT_SIDE ∧
      (apply_decoration_mode_to_view v).use_server_decorations = false) ∧
    (∀ v ∈ (run_flux_events surface_at validate_serial s0 events).views,
      v.use_server_decorations = false ∧ view_border_px v = 0 ∧ view_titlebar_px v = 0 ∧
      ∀ lx ly : ℚ, point_in_minimize_button v lx ly = false ∧
        point_in_titlebar_drag_region v lx ly = false) ∧
    (∀ (s : flux_server) (id surface : Nat) (tl : Option xdg_toplevel) (w h : Int)
        (geo : wlr_box),
      ∃ v, (new_xdg_toplevel_notify s id surface tl w h geo).views = v :: s.views ∧
        v.id = id ∧ v.use_server_decorations = false) ∧
    (∀ (s : flux_server) (id : Nat),
      (∀ v ∈ (xdg_decoration_new_toplevel_notify s id).views,
        v.id = id → v.use_server_decorations = false) ∧
      (∀ v ∈ (decoration_request_mode_notify s id).views,
        v.id = id → v.use_server_decorations = false) ∧
      (∀ v ∈ (view_map_notify s id).views, v.id = id → v.use_server_decorations = false) ∧
      (∀ v ∈ (view_set_app_id_notify s id).views,
        v.id = id → v.use_server_decorations = false)) := by
  have hupd : ∀ (s : flux_server) (id : Nat),
      ∀ v ∈ update_view s.views id apply_decoration_mode_to_view,
        v.id = id → v.use_server_decorations = false := by
    intro s id v hv hid
    obtain ⟨a, _, ha⟩ := update_view_mem_id _ _ _ v hv hid
    rw [ha]
    rfl
  refine ⟨fun v => ⟨rfl, rfl⟩, ?_, ?_, ?_⟩
  · intro v hv
    have hcsd := run_flux_events_csd surface_at validate_serial events s0 h0 v hv
    exact ⟨hcsd, client_decorated_consequences v hcsd⟩
  · intro s id surface tl w h geo
    exact new_toplevel_head s id surface tl w h geo
  · intro s id
    exact ⟨hupd s id, hupd s id, map_notify_view_csd s id, hupd s id⟩

/-- Claim C30 on the empty desktop where window `D` is created and mapped and
the pointer moves onto it: `D` is the one view and it is client-decorated. -/
theorem C30_views_client_decorated_witness :
    (∀ v ∈ demo_server_empty.views, v.use_server_decorations = false) ∧
    demo_server_D.views.map (fun v => v.id) = [8] ∧
    (∀ v ∈ demo_server_D.views,
      v.use_server_decorations = false ∧ view_border_px v = 0 ∧ view_titlebar_px v = 0 ∧
      ∀ lx ly : ℚ, point_in_minimize_button v lx ly = false ∧
        point_in_titlebar_drag_region v lx ly = false) :=
  ⟨fun v hv => absurd hv (List.not_mem_nil v), by decide!,
    (C30_views_client_decorated surface_of_D accept_serial demo_server_empty demo_trace_D
      (fun v hv => absurd hv (List.not_mem_nil v))).2.1⟩

/-! ## Theorems: states reached from startup -/

end Flux
